import Mathlib

/-!
Circles_Collision: a verification development of `Project3/main.cpp`.

The program simulates circular bodies bouncing inside a window and colliding
with each other; a uniform grid prunes the pairwise tests.

Embedding:

* C++ `float` is read in two ways.  In the exact reading it is an arbitrary
  linearly ordered field `F` with a floor function (no rounding); every
  definition is computable and can be run at `F = ℚ`.  In the machine reading
  every `float` and `double` operation of `resolveCollision`,
  `checkCollisionWith`, the constructor of `Grid`, `addCircle` and
  `getPotentialCollisions` is a field of the record `Arith`, and the functions
  are defined once more over an arbitrary `o : Arith G D` (the definitions whose
  names end in `On`).  A theorem stated for every `o` holds for any
  interpretation of the operations, IEEE 754 with its infinities and NaNs
  included.  Two interpretations are defined: `Arith.exact`, which gives back
  the exact reading, and `Arith.ieee`, IEEE 754 binary32 and binary64 on finite
  values (round to nearest, ties to even, gradual underflow; overflow is not
  modelled), at which the program is evaluated on concrete inputs.
* `sqrt` (from `<cmath>`) is not part of the repository.  In the exact reading
  it is a parameter `sqrt : F → F` of the functions that call it, and the
  theorems assume `IsSqrt sqrt` (the non-negative root of every non-negative
  number); the assumption is realised at `F = ℝ` by `Real.sqrt`.  In
  `Arith.ieee` it is the correctly rounded root `sqrtTo`.
* `static_cast<int>(f)` is truncation toward zero (`toInt`); `int` is `Int`.
  The product `cols * rows` in the constructor wraps around modulo `2^32`
  (`wrapInt32`), as a 32-bit `int` product does.  The other `int` expressions
  (`col - 1`, `col + 1`, `i + j * cols`) are not wrapped, and the cast of a value
  outside the range of `int` is not modelled.
* `sf::CircleShape` is reduced to the two properties the program reads back:
  the position and the outline thickness.
* A `Circle*` stored in the grid is the index of the circle in the
  `std::vector<Circle>` it points into.
* `checkCollisions` is modelled with a log of the calls of `resolveCollision`
  it makes (`checkCollisionsLog`, `checkCollisionsLogOn`); a reference that
  points outside the vector is skipped.  The accesses to the cell vector are
  recorded by `Grid.pushAccess` and `Grid.queryAccess`.
-/

namespace CirclesCollision

/-! ## Data model -/

/-- The pair `sf::Vector2f` (and `sf::Vector2u` for `F = ℕ`). -/
structure Vector2 (F : Type) where
  x : F
  y : F
deriving DecidableEq, Repr

/-- The fields of `struct Circle`; `position` and `thickness` stand for
`shape.getPosition()` and `shape.getOutlineThickness()`. -/
structure Circle (F : Type) where
  position : Vector2 F
  thickness : F
  velocity : Vector2 F
  radius : F
deriving DecidableEq, Repr

/-- The only property of `sf::RenderWindow` the program reads: `getSize()`. -/
structure RenderWindow where
  size : Vector2 Nat
deriving DecidableEq, Repr

/-- The fields of `class Grid`: `cells` has one sequence of circle references
per cell, stored at index `col + row * cols`. -/
structure Grid (F : Type) where
  cells : List (List Nat)
  cellSize : F
  cols : Int
  rows : Int

section Defs

variable {F : Type} [LinearOrderedField F]

/-- The conversion `static_cast<int>(f)`: the fractional part is discarded,
that is, the value is rounded toward zero. -/
def toInt [FloorRing F] (f : F) : Int :=
  if 0 ≤ f then ⌊f⌋ else ⌈f⌉

/-- What is assumed of the library function `sqrt`: on a non-negative argument
it returns the non-negative square root. -/
def IsSqrt (sqrt : F → F) : Prop :=
  ∀ x : F, 0 ≤ x → 0 ≤ sqrt x ∧ sqrt x * sqrt x = x

/-! ## `struct Circle` -/

/-- The constructor `Circle(r, position, vel)`: the outline thickness is set to 15. -/
def Circle.new (r : F) (position vel : Vector2 F) : Circle F :=
  { position := position, thickness := 15, velocity := vel, radius := r }

/-- The method `Circle::update`: `shape.move(velocity * deltaTime)`. -/
def Circle.update (c : Circle F) (deltaTime : F) : Circle F :=
  { c with position := ⟨c.position.x + c.velocity.x * deltaTime,
                        c.position.y + c.velocity.y * deltaTime⟩ }

/-- The method `Circle::checkCollisionWithWindow`.  The local `position` is read
once, before the two tests; both `setPosition` calls take their untouched
coordinate from that local. -/
def Circle.checkCollisionWithWindow (c : Circle F) (window : RenderWindow) : Circle F :=
  let position := c.position
  let windowWidth : F := (window.size.x : F)
  let windowHeight : F := (window.size.y : F)
  let thickness := c.thickness
  let c1 : Circle F :=
    if position.x - c.radius < 0 ∨ position.x + c.radius + thickness > windowWidth then
      { c with
        velocity := ⟨-c.velocity.x, c.velocity.y⟩
        position := ⟨max c.radius (min position.x (windowWidth - c.radius - thickness)),
                     position.y⟩ }
    else c
  if position.y - c1.radius < 0 ∨ position.y + c1.radius + thickness > windowHeight then
    { c1 with
      velocity := ⟨c1.velocity.x, -c1.velocity.y⟩
      position := ⟨position.x,
                   max c1.radius (min position.y (windowHeight - c1.radius - thickness))⟩ }
  else c1

/-- The method `Circle::checkCollisionWith`. -/
def Circle.checkCollisionWith (sqrt : F → F) (self other : Circle F) : Bool :=
  let distance := sqrt ((self.position.x - other.position.x) ^ 2 +
    (self.position.y - other.position.y) ^ 2)
  decide (distance < self.radius + other.radius)

/-- The method `Circle::resolveCollision`; the result is the new state of
`*this` and of `other`. -/
def Circle.resolveCollision (sqrt : F → F) (self other : Circle F) : Circle F × Circle F :=
  let delta : Vector2 F :=
    ⟨self.position.x - other.position.x, self.position.y - other.position.y⟩
  let distance := sqrt (delta.x * delta.x + delta.y * delta.y)
  if distance = 0 then (self, other)
  else
    let normalizedDelta : Vector2 F := ⟨delta.x / distance, delta.y / distance⟩
    let overlap := (self.radius + other.radius) - distance
    let moveAmount := overlap * (1 / 2)
    let self1 : Circle F :=
      { self with position := ⟨self.position.x + normalizedDelta.x * moveAmount,
                               self.position.y + normalizedDelta.y * moveAmount⟩ }
    let other1 : Circle F :=
      { other with position := ⟨other.position.x - normalizedDelta.x * moveAmount,
                                other.position.y - normalizedDelta.y * moveAmount⟩ }
    ({ self1 with velocity := other1.velocity }, { other1 with velocity := self1.velocity })

/-- The Euclidean distance between two points, the notion the specification
uses to describe both collision methods. -/
def euclid (sqrt : F → F) (p q : Vector2 F) : F :=
  sqrt ((p.x - q.x) ^ 2 + (p.y - q.y) ^ 2)

/-- The value `x` clamped into the interval `[lo, hi]`, as the specification
describes the wall correction. -/
def clampInto (lo hi x : F) : F :=
  if x < lo then lo else if hi < x then hi else x

/-! ## `class Grid` -/

/-- The loop `for (int i = start; ...; ++i) body` run for `n` rounds on the
state `s`. -/
def forLoop {σ : Type} (body : Int → σ → σ) : Nat → Int → σ → σ
  | 0, _, s => s
  | n + 1, i, s => forLoop body n (i + 1) (body i s)

/-- The loop `for (int i = lo; i <= hi; ++i) body`: it runs `hi + 1 - lo`
rounds (none when `hi < lo`). -/
def forInt {σ : Type} (lo hi : Int) (body : Int → σ → σ) (s : σ) : σ :=
  forLoop body (hi + 1 - lo).toNat lo s

/-- The value a 32-bit `int` holds after an arithmetic result `z`: `z` reduced
modulo `2^32` into `[-2^31, 2^31)` (an overflowing product wraps around). -/
def wrapInt32 (z : Int) : Int :=
  (z + 2 ^ 31) % 2 ^ 32 - 2 ^ 31

/-- The constructor `Grid(width, height, cellSize)`.  The product `cols * rows`
is an `int` product and wraps on overflow; `cells.resize` of the result leaves
that many empty cells (a negative result, for which `resize` throws, is
modelled as leaving none). -/
def Grid.new [FloorRing F] (width height cellSize : F) : Grid F :=
  let cols := toInt (width / cellSize)
  let rows := toInt (height / cellSize)
  { cells := List.replicate (wrapInt32 (cols * rows)).toNat [], cellSize := cellSize,
    cols := cols, rows := rows }

/-- The method `Grid::clear`: every cell is emptied. -/
def Grid.clear (g : Grid F) : Grid F :=
  { g with cells := g.cells.map (fun _ => []) }

/-- The method `Grid::addCircle`; `ptr` is the pointer passed and `circle` the
circle it points to. -/
def Grid.addCircle [FloorRing F] (g : Grid F) (ptr : Nat) (circle : Circle F) : Grid F :=
  let col := toInt (circle.position.x / g.cellSize)
  let row := toInt (circle.position.y / g.cellSize)
  if col ≥ 0 ∧ col < g.cols ∧ row ≥ 0 ∧ row < g.rows then
    { g with cells := g.cells.modify (fun cell => cell ++ [ptr]) (col + row * g.cols).toNat }
  else g

/-- The method `Grid::getPotentialCollisions`. -/
def Grid.getPotentialCollisions [FloorRing F] (g : Grid F) (circle : Circle F) : List Nat :=
  let potentialCollisions : List Nat := []
  let col := toInt (circle.position.x / g.cellSize)
  let row := toInt (circle.position.y / g.cellSize)
  forInt (col - 1) (col + 1) (fun i acc =>
    forInt (row - 1) (row + 1) (fun j acc =>
      if i ≥ 0 ∧ i < g.cols ∧ j ≥ 0 ∧ j < g.rows then
        (g.cells.getD (i + j * g.cols).toNat []).foldl (fun acc other => acc ++ [other]) acc
      else acc) acc) potentialCollisions

/-- The part of `main`'s frame loop that fills the grid: `grid.addCircle(&circle)`
for every circle of the vector, in order. -/
def Grid.addAll [FloorRing F] (g : Grid F) (circles : List (Circle F)) : Grid F :=
  circles.enum.foldl (fun g pc => g.addCircle pc.1 pc.2) g

/-! ## `checkCollisions` -/

/-- The body of the inner loop of `checkCollisions` for the circle at index `i`
and one candidate `other`.  The state is the vector of circles together with
the log of the calls of `resolveCollision` made so far, each recorded as
`(index of *this, index of other)`.  A reference that points outside the
vector (undefined behaviour in the program) is skipped. -/
def checkCollisionsStep (sqrt : F → F) (i : Nat)
    (st : List (Circle F) × List (Nat × Nat)) (other : Nat) :
    List (Circle F) × List (Nat × Nat) :=
  match st.1[i]?, st.1[other]? with
  | some self, some o =>
    if i ≠ other ∧ self.checkCollisionWith sqrt o = true then
      ((st.1.set i (self.resolveCollision sqrt o).1).set other
          (self.resolveCollision sqrt o).2,
        st.2 ++ [(i, other)])
    else st
  | _, _ => st

/-- The function `checkCollisions`, returning the circles after the pass and the
log of the calls of `resolveCollision`. -/
def checkCollisionsLog [FloorRing F] (sqrt : F → F) (circles : List (Circle F))
    (grid : Grid F) : List (Circle F) × List (Nat × Nat) :=
  (List.range circles.length).foldl (fun st i =>
    match st.1[i]? with
    | some self =>
      (grid.getPotentialCollisions self).foldl (checkCollisionsStep sqrt i) st
    | none => st) (circles, [])

/-- The function `checkCollisions`: the circles after the pass. -/
def checkCollisions [FloorRing F] (sqrt : F → F) (circles : List (Circle F))
    (grid : Grid F) : List (Circle F) :=
  (checkCollisionsLog sqrt circles grid).1

/-! ## Notions of the specification about the grid -/

/-- The cell index `(col, row)` that the first two lines of both `addCircle` and
`getPotentialCollisions` compute for a circle. -/
def Grid.cellIndex [FloorRing F] (g : Grid F) (circle : Circle F) : Int × Int :=
  (toInt (circle.position.x / g.cellSize), toInt (circle.position.y / g.cellSize))

/-- The cell `(col, row)` lies within the grid. -/
def Grid.inGrid (g : Grid F) (cell : Int × Int) : Bool :=
  decide (cell.1 ≥ 0 ∧ cell.1 < g.cols ∧ cell.2 ≥ 0 ∧ cell.2 < g.rows)

/-- The contents of the cell `(col, row)`. -/
def Grid.cellAt (g : Grid F) (cell : Int × Int) : List Nat :=
  g.cells.getD (cell.1 + cell.2 * g.cols).toNat []

/-- The size invariant the constructor establishes when the `int` product
`cols * rows` does not overflow: one cell per index below `cols * rows`. -/
def Grid.WF (g : Grid F) : Prop :=
  g.cells.length = (g.cols * g.rows).toNat

/-- The 3 x 3 block around `(col, row)` in row-major order: all columns of
`row - 1`, then of `row`, then of `row + 1`. -/
def rowMajorBlock (col row : Int) : List (Int × Int) :=
  [(col - 1, row - 1), (col, row - 1), (col + 1, row - 1),
   (col - 1, row), (col, row), (col + 1, row),
   (col - 1, row + 1), (col, row + 1), (col + 1, row + 1)]

/-- The 3 x 3 block around `(col, row)` in column-major order: all rows of
`col - 1`, then of `col`, then of `col + 1`. -/
def columnMajorBlock (col row : Int) : List (Int × Int) :=
  [(col - 1, row - 1), (col - 1, row), (col - 1, row + 1),
   (col, row - 1), (col, row), (col, row + 1),
   (col + 1, row - 1), (col + 1, row), (col + 1, row + 1)]

/-- The concatenation, in the order of `block`, of the contents of those cells
of `block` that lie within the grid. -/
def Grid.gather (g : Grid F) (block : List (Int × Int)) : List Nat :=
  (block.filter g.inGrid).flatMap g.cellAt

/-! ## The program over its machine arithmetic

The definitions above read `float` as an exact field.  The ones below are the
same functions over an arbitrary arithmetic: every `float` and `double`
operation the functions perform is a field of `Arith`.  `Arith.exact` gives
back the definitions above; `Arith.ieee` is IEEE 754 binary32 and binary64 on
finite values. -/

/-- The arithmetic the program uses: the operations on `float` (`G`) and on
`double` (`D`) that occur in `resolveCollision`, `checkCollisionWith`, the
constructor of `Grid`, `addCircle` and `getPotentialCollisions`. -/
structure Arith (G D : Type) where
  /-- The sum `a + b` of two `float`s. -/
  add : G → G → G
  /-- The difference `a - b` of two `float`s. -/
  sub : G → G → G
  /-- The product `a * b` of two `float`s. -/
  mul : G → G → G
  /-- The quotient `a / b` of two `float`s. -/
  div : G → G → G
  /-- The comparison `a < b` of two `float`s. -/
  lt : G → G → Bool
  /-- The comparison `a == 0`. -/
  isZero : G → Bool
  /-- The literal `0.5f`. -/
  half : G
  /-- The call `sqrt(a)` on a `float` expression, with the result stored in a
  `float`. -/
  sqrt : G → G
  /-- The conversion `static_cast<int>(a)`. -/
  toInt : G → Int
  /-- The promotion of a `float` argument to `double`. -/
  toDouble : G → D
  /-- The call `pow(x, 2)` on a `double` (both arguments of `pow(float, int)` are
  promoted to `double`). -/
  pow2 : D → D
  /-- The sum of two `double`s. -/
  addD : D → D → D
  /-- The call `sqrt(x)` on a `double`. -/
  sqrtD : D → D
  /-- The conversion of a `double` to `float` on assignment. -/
  toFloat : D → G

/-- Exact arithmetic on an ordered field, with `sqrt` for both square roots. -/
def Arith.exact [FloorRing F] (sqrt : F → F) : Arith F F where
  add := fun a b => a + b
  sub := fun a b => a - b
  mul := fun a b => a * b
  div := fun a b => a / b
  lt := fun a b => decide (a < b)
  isZero := fun a => decide (a = 0)
  half := 1 / 2
  sqrt := sqrt
  toInt := fun a => CirclesCollision.toInt a
  toDouble := fun a => a
  pow2 := fun x => x ^ 2
  addD := fun a b => a + b
  sqrtD := sqrt
  toFloat := fun x => x

/-- The integer nearest to `x`, the even one of the two when `x` lies halfway. -/
def roundEven (x : ℚ) : Int :=
  if x - ⌊x⌋ < 1 / 2 then ⌊x⌋
  else if 1 / 2 < x - ⌊x⌋ then ⌊x⌋ + 1
  else if ⌊x⌋ % 2 = 0 then ⌊x⌋ else ⌊x⌋ + 1

/-- The rational `q` rounded to the binary floating-point format with `p`
significant bits and least normal exponent `emin`: the nearest value of the
format, ties to even, with gradual underflow.  (Overflow to infinity is not
modelled.) -/
def roundTo (p : Nat) (emin : Int) (q : ℚ) : ℚ :=
  (roundEven (q / 2 ^ (max (Int.log 2 |q|) emin - (p - 1))) : ℚ) *
    2 ^ (max (Int.log 2 |q|) emin - (p - 1))

/-- The square root of the rational `q` rounded to the binary format with `p`
significant bits and least normal exponent `emin`: with `u` the spacing of the
format at the root and `n = ⌊√q / u⌋`, the result is `n * u` or `(n + 1) * u`,
whichever is nearer to the root.  (The root of a negative number, a NaN, is
not modelled.) -/
def sqrtTo (p : Nat) (emin : Int) (q : ℚ) : ℚ :=
  if q ≤ 0 then 0
  else
    let u : ℚ := 2 ^ (max (Int.log 2 q / 2) emin - (p - 1))
    let n : Nat := Nat.sqrt ⌊q / (u * u)⌋₊
    if q / (u * u) < ((n : ℚ) + 1 / 2) ^ 2 then n * u
    else if ((n : ℚ) + 1 / 2) ^ 2 < q / (u * u) then (n + 1) * u
    else if n % 2 = 0 then n * u else (n + 1) * u

/-- Rounding to IEEE 754 binary32, the format of `float`. -/
def round32 (q : ℚ) : ℚ := roundTo 24 (-126) q

/-- Rounding to IEEE 754 binary64, the format of `double`. -/
def round64 (q : ℚ) : ℚ := roundTo 53 (-1022) q

/-- IEEE 754 arithmetic on finite values: a `float` or `double` is the rational
it denotes, and every operation returns the exact result rounded to its
format (each `float` operation is rounded to binary32: no extended
intermediate precision and no fused multiply-add).  The square of a `float`
has at most 48 significant bits, so `pow2` is exact on the values the program
passes to it. -/
def Arith.ieee : Arith ℚ ℚ where
  add := fun a b => round32 (a + b)
  sub := fun a b => round32 (a - b)
  mul := fun a b => round32 (a * b)
  div := fun a b => round32 (a / b)
  lt := fun a b => decide (a < b)
  isZero := fun a => decide (a = 0)
  half := 1 / 2
  sqrt := sqrtTo 24 (-126)
  toInt := fun a => CirclesCollision.toInt a
  toDouble := fun a => a
  pow2 := fun x => round64 (x * x)
  addD := fun a b => round64 (a + b)
  sqrtD := sqrtTo 53 (-1022)
  toFloat := round32

/-- The method `Circle::checkCollisionWith` over the arithmetic `o`: the
differences are `float`s, `pow` and `sqrt` work on `double`s, and the root is
converted to `float` when it is stored in `distance`. -/
def Circle.checkCollisionWithOn {G D : Type} (o : Arith G D) (self other : Circle G) : Bool :=
  let distance := o.toFloat (o.sqrtD (o.addD
    (o.pow2 (o.toDouble (o.sub self.position.x other.position.x)))
    (o.pow2 (o.toDouble (o.sub self.position.y other.position.y)))))
  o.lt distance (o.add self.radius other.radius)

/-- The method `Circle::resolveCollision` over the arithmetic `o`. -/
def Circle.resolveCollisionOn {G D : Type} (o : Arith G D) (self other : Circle G) :
    Circle G × Circle G :=
  let delta : Vector2 G :=
    ⟨o.sub self.position.x other.position.x, o.sub self.position.y other.position.y⟩
  let distance := o.sqrt (o.add (o.mul delta.x delta.x) (o.mul delta.y delta.y))
  if o.isZero distance = true then (self, other)
  else
    let normalizedDelta : Vector2 G := ⟨o.div delta.x distance, o.div delta.y distance⟩
    let overlap := o.sub (o.add self.radius other.radius) distance
    let moveAmount := o.mul overlap o.half
    let self1 : Circle G :=
      { self with position := ⟨o.add self.position.x (o.mul normalizedDelta.x moveAmount),
                               o.add self.position.y (o.mul normalizedDelta.y moveAmount)⟩ }
    let other1 : Circle G :=
      { other with position := ⟨o.sub other.position.x (o.mul normalizedDelta.x moveAmount),
                                o.sub other.position.y (o.mul normalizedDelta.y moveAmount)⟩ }
    ({ self1 with velocity := other1.velocity }, { other1 with velocity := self1.velocity })

/-- The constructor `Grid(width, height, cellSize)` over the arithmetic `o`. -/
def Grid.newOn {G D : Type} (o : Arith G D) (width height cellSize : G) : Grid G :=
  let cols := o.toInt (o.div width cellSize)
  let rows := o.toInt (o.div height cellSize)
  { cells := List.replicate (wrapInt32 (cols * rows)).toNat [], cellSize := cellSize,
    cols := cols, rows := rows }

/-- The method `Grid::addCircle` over the arithmetic `o`. -/
def Grid.addCircleOn {G D : Type} (o : Arith G D) (g : Grid G) (ptr : Nat)
    (circle : Circle G) : Grid G :=
  let col := o.toInt (o.div circle.position.x g.cellSize)
  let row := o.toInt (o.div circle.position.y g.cellSize)
  if col ≥ 0 ∧ col < g.cols ∧ row ≥ 0 ∧ row < g.rows then
    { g with cells := g.cells.modify (fun cell => cell ++ [ptr]) (col + row * g.cols).toNat }
  else g

/-- The method `Grid::getPotentialCollisions` over the arithmetic `o`. -/
def Grid.getPotentialCollisionsOn {G D : Type} (o : Arith G D) (g : Grid G)
    (circle : Circle G) : List Nat :=
  let potentialCollisions : List Nat := []
  let col := o.toInt (o.div circle.position.x g.cellSize)
  let row := o.toInt (o.div circle.position.y g.cellSize)
  forInt (col - 1) (col + 1) (fun i acc =>
    forInt (row - 1) (row + 1) (fun j acc =>
      if i ≥ 0 ∧ i < g.cols ∧ j ≥ 0 ∧ j < g.rows then
        (g.cells.getD (i + j * g.cols).toNat []).foldl (fun acc other => acc ++ [other]) acc
      else acc) acc) potentialCollisions

/-- The insertion pass of `main`'s frame loop over the arithmetic `o`. -/
def Grid.addAllOn {G D : Type} (o : Arith G D) (g : Grid G) (circles : List (Circle G)) :
    Grid G :=
  circles.enum.foldl (fun g pc => g.addCircleOn o pc.1 pc.2) g

/-- The body of the inner loop of `checkCollisions` over the arithmetic `o`,
with the log of the calls of `resolveCollision`. -/
def checkCollisionsStepOn {G D : Type} (o : Arith G D) (i : Nat)
    (st : List (Circle G) × List (Nat × Nat)) (other : Nat) :
    List (Circle G) × List (Nat × Nat) :=
  match st.1[i]?, st.1[other]? with
  | some self, some c =>
    if i ≠ other ∧ self.checkCollisionWithOn o c = true then
      ((st.1.set i (self.resolveCollisionOn o c).1).set other
          (self.resolveCollisionOn o c).2,
        st.2 ++ [(i, other)])
    else st
  | _, _ => st

/-- The function `checkCollisions` over the arithmetic `o`, with the log of the
calls of `resolveCollision`. -/
def checkCollisionsLogOn {G D : Type} (o : Arith G D) (circles : List (Circle G))
    (grid : Grid G) : List (Circle G) × List (Nat × Nat) :=
  (List.range circles.length).foldl (fun st i =>
    match st.1[i]? with
    | some self =>
      (grid.getPotentialCollisionsOn o self).foldl (checkCollisionsStepOn o i) st
    | none => st) (circles, [])

/-- The value of the local `distance` of `resolveCollision` over the arithmetic `o`. -/
def Circle.distanceOn {G D : Type} (o : Arith G D) (self other : Circle G) : G :=
  o.sqrt (o.add
    (o.mul (o.sub self.position.x other.position.x) (o.sub self.position.x other.position.x))
    (o.mul (o.sub self.position.y other.position.y) (o.sub self.position.y other.position.y)))

/-- The value of the local `distance` of `checkCollisionWith` over the arithmetic `o`. -/
def Circle.measuredOn {G D : Type} (o : Arith G D) (self other : Circle G) : G :=
  o.toFloat (o.sqrtD (o.addD
    (o.pow2 (o.toDouble (o.sub self.position.x other.position.x)))
    (o.pow2 (o.toDouble (o.sub self.position.y other.position.y)))))

/-- The vector `normalizedDelta * moveAmount` that `resolveCollision` adds to the
one position and subtracts from the other, over the arithmetic `o`. -/
def Circle.correctionOn {G D : Type} (o : Arith G D) (self other : Circle G) : Vector2 G :=
  ⟨o.mul (o.div (o.sub self.position.x other.position.x) (self.distanceOn o other))
      (o.mul (o.sub (o.add self.radius other.radius) (self.distanceOn o other)) o.half),
    o.mul (o.div (o.sub self.position.y other.position.y) (self.distanceOn o other))
      (o.mul (o.sub (o.add self.radius other.radius) (self.distanceOn o other)) o.half)⟩

/-- The cell index `(col, row)` that `addCircle` and `getPotentialCollisions`
compute for a circle over the arithmetic `o`. -/
def Grid.cellIndexOn {G D : Type} (o : Arith G D) (g : Grid G) (circle : Circle G) :
    Int × Int :=
  (o.toInt (o.div circle.position.x g.cellSize), o.toInt (o.div circle.position.y g.cellSize))

/-- The effect of `addCircle` once the two casts have produced `cell`. -/
def Grid.pushAt {G : Type} (g : Grid G) (ptr : Nat) (cell : Int × Int) : Grid G :=
  if cell.1 ≥ 0 ∧ cell.1 < g.cols ∧ cell.2 ≥ 0 ∧ cell.2 < g.rows then
    { g with cells := g.cells.modify (fun c => c ++ [ptr]) (cell.1 + cell.2 * g.cols).toNat }
  else g

/-- A body in the top-left corner: radius 40, outline 15, centre `(-10, -10)`,
moving up and to the left. -/
def cornerBody : Circle ℚ := ⟨⟨-10, -10⟩, 15, ⟨-100, -100⟩, 40⟩

/-- The body of the specification's wall scenario: radius 40, outline 15,
centre `(10, 400)`, velocity `(-100, 0)`. -/
def wallBody : Circle ℚ := ⟨⟨10, 400⟩, 15, ⟨-100, 0⟩, 40⟩

/-- The first body of the specification's collision scenario: radius 50 at
`(100, 400)` with velocity `(50, 0)`. -/
def leftBody : Circle ℝ := ⟨⟨100, 400⟩, 15, ⟨50, 0⟩, 50⟩

/-- The second body of the specification's collision scenario: radius 50 at
`(180, 400)` with velocity `(-50, 0)`. -/
def rightBody : Circle ℝ := ⟨⟨180, 400⟩, 15, ⟨-50, 0⟩, 50⟩

/-- A body of radius 50 centred at `(160, 480)`, at distance exactly 100 from
`leftBody`. -/
def touchingBody : Circle ℝ := ⟨⟨160, 480⟩, 15, ⟨0, 0⟩, 50⟩

/-- A body of radius 50 centred at `(60, 370)`, at distance 50 from `leftBody`
and in the cell diagonally before the cell of `leftBody` for cell size 100. -/
def nearBody : Circle ℝ := ⟨⟨60, 370⟩, 15, ⟨0, 0⟩, 50⟩

/-- A body of radius 70 that shares its centre with `leftBody`. -/
def coincidentBody : Circle ℝ := ⟨⟨100, 400⟩, 15, ⟨-20, 30⟩, 70⟩

/-- A 3 x 3 grid of cells of size 100 with circle 0 in cell `(1, 2)` (centre
`(150, 250)`) and circle 1 in cell `(2, 1)` (centre `(250, 150)`). -/
def orderGrid : Grid ℚ :=
  ((Grid.new 300 300 100).clear.addAll
    [⟨⟨150, 250⟩, 15, ⟨0, 0⟩, 40⟩, ⟨⟨250, 150⟩, 15, ⟨0, 0⟩, 40⟩])

/-- A query body in the middle cell `(1, 1)` of a 3 x 3 grid of cells of size 100. -/
def middleBody : Circle ℚ := ⟨⟨150, 150⟩, 15, ⟨0, 0⟩, 40⟩

/-- A body whose centre `(-50, 50)` lies left of the grid area. -/
def outsideBody : Circle ℚ := ⟨⟨-50, 50⟩, 15, ⟨0, 0⟩, 40⟩

/-- A body whose centre `(-150, 50)` lies more than one cell left of the grid area. -/
def farBody : Circle ℚ := ⟨⟨-150, 50⟩, 15, ⟨0, 0⟩, 40⟩

/-- A body of radius 40 at `(130, 220)` moving with velocity `(10, -20)`. -/
def movingBody : Circle ℚ := ⟨⟨130, 220⟩, 15, ⟨10, -20⟩, 40⟩

/-- A body of radius 50 centred at the origin, with velocity `(50, 0)`. -/
def originBody : Circle ℚ := ⟨⟨0, 0⟩, 15, ⟨50, 0⟩, 50⟩

/-- A body of radius 50 centred at `(2^-100, 0)`, a `float` value (`2^100` is
`1267650600228229401496703205376`), with velocity `(-50, 0)`: its centre is
distinct from the origin but nearer than any `float` square can tell. -/
def closeBody : Circle ℚ := ⟨⟨1 / 1267650600228229401496703205376, 0⟩, 15, ⟨-50, 0⟩, 50⟩

/-- A body of radius 50 centred at `(96, 28 - 2^-19)`, both `float` values
(`2^19` is `524288`): its centre is about `99.9999995` from the origin. -/
def grazingBody : Circle ℚ := ⟨⟨96, 28 - 1 / 524288⟩, 15, ⟨0, 0⟩, 50⟩

/-- The `float` nearest to `99.9`, which is `13094093 / 2^17`. -/
def cellSize999 : ℚ := 13094093 / 131072

/-- A body of radius 40 centred at `(3596.39990234375, 50)`; the x-coordinate is
the `float` nearest to `3596.3999`. -/
def edgeBody : Circle ℚ := ⟨⟨7365427 / 2048, 50⟩, 15, ⟨0, 0⟩, 40⟩

/-- The first body of the specification's collision scenario, over the rationals. -/
def leftBodyQ : Circle ℚ := ⟨⟨100, 400⟩, 15, ⟨50, 0⟩, 50⟩

/-- The second body of the specification's collision scenario, over the rationals. -/
def rightBodyQ : Circle ℚ := ⟨⟨180, 400⟩, 15, ⟨-50, 0⟩, 50⟩

/-- The first body of the collision scenario after `resolveCollision`: centre
`(90, 400)`, with the velocity of the second. -/
def leftMovedQ : Circle ℚ := ⟨⟨90, 400⟩, 15, ⟨-50, 0⟩, 50⟩

/-- The second body of the collision scenario after `resolveCollision`: centre
`(190, 400)`, with the velocity of the first. -/
def rightMovedQ : Circle ℚ := ⟨⟨190, 400⟩, 15, ⟨50, 0⟩, 50⟩

/-- A body of radius 40 at `(100, 400)` with velocity `(50, 0)`. -/
def skewLeft : Circle ℚ := ⟨⟨100, 400⟩, 15, ⟨50, 0⟩, 40⟩

/-- A body of radius 40 at `(107, 424)` with velocity `(-50, 0)`, at distance 25
from `skewLeft`. -/
def skewRight : Circle ℚ := ⟨⟨107, 424⟩, 15, ⟨-50, 0⟩, 40⟩

/-- The body `skewLeft` after `resolveCollision` in `float` arithmetic: centre
`(92.30000305175781, 373.6000061035156)`, with the velocity of `skewRight`. -/
def skewLeftMoved : Circle ℚ := ⟨⟨6048973 / 65536, 12242125 / 32768⟩, 15, ⟨-50, 0⟩, 40⟩

/-- The body `skewRight` after `resolveCollision` in `float` arithmetic: centre
`(114.69999694824219, 450.3999938964844)`, with the velocity of `skewLeft`. -/
def skewRightMoved : Circle ℚ := ⟨⟨7516979 / 65536, 14758707 / 32768⟩, 15, ⟨50, 0⟩, 40⟩

/-- The 800 x 800 window `main` opens. -/
def mainWindow : RenderWindow := ⟨⟨800, 800⟩⟩

end Defs

/-! ## Walls -/

section Walls

variable {F : Type} [LinearOrderedField F]

/-- C1 (defect): a body that violates a wall on both axes keeps its x-coordinate.
Radius 40, outline 15, centre `(-10, -10)` in an 800 x 800 window (large enough
for the body): the call leaves the centre at `(-10, 40)` with velocity
`(100, 100)`, so `radius ≤ position.x` fails. -/
theorem corner_body_x_not_clamped :
    (0 < cornerBody.radius ∧ 0 ≤ cornerBody.thickness ∧
      (mainWindow.size.x : ℚ) ≥ 2 * cornerBody.radius + cornerBody.thickness ∧
      (mainWindow.size.y : ℚ) ≥ 2 * cornerBody.radius + cornerBody.thickness) ∧
    (cornerBody.checkCollisionWithWindow mainWindow).position = ⟨-10, 40⟩ ∧
    (cornerBody.checkCollisionWithWindow mainWindow).velocity = ⟨100, 100⟩ ∧
    ¬ (cornerBody.radius ≤ (cornerBody.checkCollisionWithWindow mainWindow).position.x) := by
  simp only [Circle.checkCollisionWithWindow, cornerBody, mainWindow]
  norm_num

/-- What does hold of wall containment: in a window large enough for the body
the y-coordinate always ends within `[radius, height - radius - thickness]`,
and the x-coordinate ends within `[radius, width - radius - thickness]` whenever
the y-test does not fire. -/
theorem wall_containment_off_corner (c : Circle F) (w : RenderWindow)
    (hw : (w.size.x : F) ≥ 2 * c.radius + c.thickness)
    (hh : (w.size.y : F) ≥ 2 * c.radius + c.thickness) :
    (c.radius ≤ (c.checkCollisionWithWindow w).position.y ∧
      (c.checkCollisionWithWindow w).position.y ≤ (w.size.y : F) - c.radius - c.thickness) ∧
    (¬ (c.position.y - c.radius < 0 ∨ c.position.y + c.radius + c.thickness > (w.size.y : F)) →
      c.radius ≤ (c.checkCollisionWithWindow w).position.x ∧
      (c.checkCollisionWithWindow w).position.x ≤ (w.size.x : F) - c.radius - c.thickness) := by
  have hx : c.radius ≤ (w.size.x : F) - c.radius - c.thickness := by linarith
  have hy : c.radius ≤ (w.size.y : F) - c.radius - c.thickness := by linarith
  have in_of_not : ∀ (x hi : F), ¬ (x - c.radius < 0 ∨ x + c.radius + c.thickness > hi) →
      c.radius ≤ x ∧ x ≤ hi - c.radius - c.thickness := by
    intro x hi hn
    constructor
    · by_contra hcon
      exact hn (Or.inl (by linarith [not_le.mp hcon]))
    · by_contra hcon
      exact hn (Or.inr (by linarith [not_le.mp hcon]))
  unfold Circle.checkCollisionWithWindow
  by_cases h1 : c.position.x - c.radius < 0 ∨
      c.position.x + c.radius + c.thickness > (w.size.x : F) <;>
  by_cases h2 : c.position.y - c.radius < 0 ∨
      c.position.y + c.radius + c.thickness > (w.size.y : F)
  · simp only [h1, h2, if_true, not_true_eq_false, false_implies, and_true]
    exact ⟨le_max_left _ _, max_le hy (min_le_right _ _)⟩
  · simp only [h1, h2, if_true, if_false, not_false_eq_true, true_implies]
    exact ⟨in_of_not _ _ h2, le_max_left _ _, max_le hx (min_le_right _ _)⟩
  · simp only [h1, h2, if_true, if_false, not_true_eq_false, false_implies, and_true]
    exact ⟨le_max_left _ _, max_le hy (min_le_right _ _)⟩
  · simp only [h1, h2, if_false, not_false_eq_true, true_implies]
    exact ⟨in_of_not _ _ h2, in_of_not _ _ h1⟩

/-- C7: the x-velocity is negated exactly when the body's x-extent (outline
included) leaves the window, the y-velocity exactly when its y-extent does; a
component whose test fails is left as it was.  Both tests read the position
the body had before the call. -/
theorem wall_reflection (c : Circle F) (w : RenderWindow) :
    ((c.position.x - c.radius < 0 ∨ c.position.x + c.radius + c.thickness > (w.size.x : F)) →
        (c.checkCollisionWithWindow w).velocity.x = -c.velocity.x) ∧
    (¬ (c.position.x - c.radius < 0 ∨ c.position.x + c.radius + c.thickness > (w.size.x : F)) →
        (c.checkCollisionWithWindow w).velocity.x = c.velocity.x) ∧
    ((c.position.y - c.radius < 0 ∨ c.position.y + c.radius + c.thickness > (w.size.y : F)) →
        (c.checkCollisionWithWindow w).velocity.y = -c.velocity.y) ∧
    (¬ (c.position.y - c.radius < 0 ∨ c.position.y + c.radius + c.thickness > (w.size.y : F)) →
        (c.checkCollisionWithWindow w).velocity.y = c.velocity.y) := by
  unfold Circle.checkCollisionWithWindow
  refine ⟨?_, ?_, ?_, ?_⟩ <;> intro h <;> simp only [] <;> split_ifs <;> simp_all

/-- C8: a body inside the window on the y-axis and outside on the x-axis, in a
window wide enough for it, has its x-coordinate clamped into
`[radius, width - radius - thickness]` and its x-velocity negated, while its
y-coordinate and y-velocity are unchanged. -/
theorem single_axis_wall_hit (c : Circle F) (w : RenderWindow)
    (hy0 : c.position.y - c.radius ≥ 0)
    (hy1 : c.position.y + c.radius + c.thickness ≤ (w.size.y : F))
    (hx : c.position.x - c.radius < 0 ∨ c.position.x + c.radius + c.thickness > (w.size.x : F))
    (hw : (w.size.x : F) ≥ 2 * c.radius + c.thickness) :
    (c.checkCollisionWithWindow w).position.x =
        clampInto c.radius ((w.size.x : F) - c.radius - c.thickness) c.position.x ∧
    c.radius ≤ (c.checkCollisionWithWindow w).position.x ∧
    (c.checkCollisionWithWindow w).position.x ≤ (w.size.x : F) - c.radius - c.thickness ∧
    (c.checkCollisionWithWindow w).position.y = c.position.y ∧
    (c.checkCollisionWithWindow w).velocity.y = c.velocity.y ∧
    (c.checkCollisionWithWindow w).velocity.x = -c.velocity.x := by
  have hny : ¬ (c.position.y - c.radius < 0 ∨
      c.position.y + c.radius + c.thickness > (w.size.y : F)) := by
    intro h
    rcases h with h | h
    · exact absurd hy0 (not_le.mpr h)
    · exact absurd hy1 (not_le.mpr h)
  have hlo : c.radius ≤ (w.size.x : F) - c.radius - c.thickness := by linarith
  unfold Circle.checkCollisionWithWindow clampInto
  simp only [hx, if_true, hny, if_false]
  refine ⟨?_, le_max_left _ _, max_le hlo (min_le_right _ _), trivial, trivial, trivial⟩
  rcases hx with h | h
  · have h1 : c.position.x < c.radius := by linarith
    have h2 : c.position.x ≤ (w.size.x : F) - c.radius - c.thickness := by linarith
    rw [if_pos h1, min_eq_left h2, max_eq_left h1.le]
  · have h1 : ¬ c.position.x < c.radius := by
      intro h0
      linarith
    have h2 : (w.size.x : F) - c.radius - c.thickness < c.position.x := by linarith
    rw [if_neg h1, if_pos h2, min_eq_right h2.le, max_eq_right hlo]

/-- C8 at the specification's scenario: centre `(10, 400)`, radius 40, outline
15, velocity `(-100, 0)` in an 800 x 800 window ends with x-velocity 100 and
x-coordinate 40, the y-coordinate and y-velocity as before. -/
theorem single_axis_wall_hit_scenario :
    (wallBody.checkCollisionWithWindow mainWindow).position.x = 40 ∧
    (wallBody.checkCollisionWithWindow mainWindow).velocity.x = 100 ∧
    (wallBody.checkCollisionWithWindow mainWindow).position.y = 400 ∧
    (wallBody.checkCollisionWithWindow mainWindow).velocity.y = 0 := by
  have h := single_axis_wall_hit wallBody mainWindow
    (by norm_num [wallBody]) (by norm_num [wallBody, mainWindow])
    (Or.inl (by norm_num [wallBody])) (by norm_num [wallBody, mainWindow])
  obtain ⟨hx, -, -, hy, hvy, hvx⟩ := h
  refine ⟨?_, ?_, ?_, ?_⟩
  · rw [hx]
    norm_num [clampInto, wallBody, mainWindow]
  · rw [hvx]
    norm_num [wallBody]
  · rw [hy]
    rfl
  · rw [hvy]
    rfl

end Walls

/-! ## Circle against circle -/

section Collisions

variable {F : Type} [LinearOrderedField F]

/-- The real square root meets the assumption made of `sqrt`. -/
theorem isSqrt_real : IsSqrt Real.sqrt :=
  fun x hx => ⟨Real.sqrt_nonneg x, Real.mul_self_sqrt hx⟩

/-- Under `IsSqrt`, `sqrt x` is the only non-negative number whose square is `x`. -/
theorem IsSqrt.eq_of_mul_self {sqrt : F → F} (hs : IsSqrt sqrt) {x d : F}
    (hd : 0 ≤ d) (hx : d * d = x) : sqrt x = d := by
  have hx0 : 0 ≤ x := hx ▸ mul_self_nonneg d
  obtain ⟨h0, h1⟩ := hs x hx0
  exact (mul_self_inj h0 hd).mp (h1.trans hx.symm)

/-- Under `IsSqrt`, the root of a non-negative number vanishes only at zero. -/
theorem IsSqrt.eq_zero_iff {sqrt : F → F} (hs : IsSqrt sqrt) {x : F} (hx : 0 ≤ x) :
    sqrt x = 0 ↔ x = 0 := by
  constructor
  · intro h
    have h1 := (hs x hx).2
    rw [h] at h1
    simpa using h1.symm
  · intro h
    exact hs.eq_of_mul_self le_rfl (by simp [h])

/-- The value of `euclid` is the Euclidean distance: the non-negative `d` with
`d * d = (p.x - q.x)^2 + (p.y - q.y)^2`. -/
theorem euclid_eq_of_mul_self {sqrt : F → F} (hs : IsSqrt sqrt) (p q : Vector2 F) {d : F}
    (hd : 0 ≤ d) (h : d * d = (p.x - q.x) ^ 2 + (p.y - q.y) ^ 2) : euclid sqrt p q = d :=
  hs.eq_of_mul_self hd h

/-- The distance `resolveCollision` computes is `euclid` of the two centres. -/
theorem resolve_distance_eq_euclid (sqrt : F → F) (a b : Circle F) :
    sqrt ((a.position.x - b.position.x) * (a.position.x - b.position.x) +
      (a.position.y - b.position.y) * (a.position.y - b.position.y)) =
    euclid sqrt a.position b.position := by
  unfold euclid
  rw [pow_two, pow_two]

/-- Distinct centres are at a non-zero distance. -/
theorem euclid_ne_zero {sqrt : F → F} (hs : IsSqrt sqrt) {p q : Vector2 F} (h : p ≠ q) :
    euclid sqrt p q ≠ 0 := by
  intro h0
  have hnn : 0 ≤ (p.x - q.x) ^ 2 + (p.y - q.y) ^ 2 := by positivity
  have hz := (hs.eq_zero_iff hnn).mp h0
  have hx : (p.x - q.x) ^ 2 = 0 := by nlinarith [sq_nonneg (p.x - q.x), sq_nonneg (p.y - q.y)]
  have hy : (p.y - q.y) ^ 2 = 0 := by nlinarith [sq_nonneg (p.x - q.x), sq_nonneg (p.y - q.y)]
  apply h
  cases p
  cases q
  simp only [Vector2.mk.injEq]
  exact ⟨sub_eq_zero.mp (pow_eq_zero_iff (two_ne_zero) |>.mp hx),
    sub_eq_zero.mp (pow_eq_zero_iff (two_ne_zero) |>.mp hy)⟩

/-- C6: when the two centres coincide, `resolveCollision` returns both bodies
exactly as they were: positions, velocities and radii. -/
theorem resolveCollision_coincident (sqrt : F → F) (hs : IsSqrt sqrt) (a b : Circle F)
    (h : a.position = b.position) :
    euclid sqrt a.position b.position = 0 ∧ a.resolveCollision sqrt b = (a, b) := by
  have h0 : sqrt ((a.position.x - b.position.x) * (a.position.x - b.position.x) +
      (a.position.y - b.position.y) * (a.position.y - b.position.y)) = 0 := by
    apply hs.eq_of_mul_self le_rfl
    rw [h]
    ring
  refine ⟨(resolve_distance_eq_euclid sqrt a b).symm.trans h0, ?_⟩
  unfold Circle.resolveCollision
  simp only [h0, if_true]

/-- C6 at concrete bodies: radii 50 and 70 with different velocities, both
centred at `(100, 400)`. -/
theorem resolveCollision_coincident_scenario :
    leftBody.resolveCollision Real.sqrt coincidentBody = (leftBody, coincidentBody) :=
  (resolveCollision_coincident Real.sqrt isSqrt_real leftBody coincidentBody rfl).2

/-- C2: two bodies with positive radii that overlap and whose centres are
distinct are, after `resolveCollision`, at distance exactly the sum of their
radii.  (The proof does not use the overlap: the same holds for two bodies
that are apart, which the call pulls together.) -/
theorem resolveCollision_distance (sqrt : F → F) (hs : IsSqrt sqrt) (a b : Circle F)
    (hra : 0 < a.radius) (hrb : 0 < b.radius)
    (hd : 0 < euclid sqrt a.position b.position)
    (_ho : euclid sqrt a.position b.position < a.radius + b.radius) :
    euclid sqrt (a.resolveCollision sqrt b).1.position (a.resolveCollision sqrt b).2.position =
      a.radius + b.radius := by
  have hnn : 0 ≤ (a.position.x - b.position.x) * (a.position.x - b.position.x) +
      (a.position.y - b.position.y) * (a.position.y - b.position.y) :=
    add_nonneg (mul_self_nonneg _) (mul_self_nonneg _)
  have hsq := (hs _ hnn).2
  rw [← resolve_distance_eq_euclid] at hd
  have h0 := hd.ne.symm
  apply euclid_eq_of_mul_self hs _ _ (by linarith)
  unfold Circle.resolveCollision
  simp only [h0, if_false]
  generalize sqrt ((a.position.x - b.position.x) * (a.position.x - b.position.x) +
      (a.position.y - b.position.y) * (a.position.y - b.position.y)) = d at hsq hd h0 ⊢
  field_simp
  linear_combination (4 * (a.radius + b.radius) ^ 2) * hsq

/-- C2 at the specification's scenario: radius 50 and 50 at `(100, 400)` and
`(180, 400)` end at distance exactly 100, both still on the line `y = 400`. -/
theorem resolveCollision_distance_scenario :
    euclid Real.sqrt (leftBody.resolveCollision Real.sqrt rightBody).1.position
      (leftBody.resolveCollision Real.sqrt rightBody).2.position = 100 ∧
    (leftBody.resolveCollision Real.sqrt rightBody).1.position = ⟨90, 400⟩ ∧
    (leftBody.resolveCollision Real.sqrt rightBody).2.position = ⟨190, 400⟩ := by
  have he : euclid Real.sqrt leftBody.position rightBody.position = 80 :=
    euclid_eq_of_mul_self isSqrt_real _ _ (by norm_num) (by norm_num [leftBody, rightBody])
  have h := resolveCollision_distance Real.sqrt isSqrt_real leftBody rightBody
    (by norm_num [leftBody]) (by norm_num [rightBody])
    (by rw [he]; norm_num) (by rw [he]; norm_num [leftBody, rightBody])
  have hs : Real.sqrt ((100 - 180) * (100 - 180) + (400 - 400) * (400 - 400)) = 80 :=
    isSqrt_real.eq_of_mul_self (by norm_num) (by norm_num)
  refine ⟨h.trans (by norm_num [leftBody, rightBody]), ?_, ?_⟩
  · simp only [Circle.resolveCollision, leftBody, rightBody, hs]
    norm_num
  · simp only [Circle.resolveCollision, leftBody, rightBody, hs]
    norm_num

end Collisions

/-! ## The grid -/

section GridFacts

variable {F : Type} [LinearOrderedField F] [FloorRing F]

/-- The inner range-for of `getPotentialCollisions` appends the cell to the result. -/
theorem foldl_push_back (acc cell : List Nat) :
    cell.foldl (fun acc other => acc ++ [other]) acc = acc ++ cell := by
  induction cell generalizing acc with
  | nil => simp
  | cons x xs ih => simp [ih]

omit [LinearOrderedField F] [FloorRing F] in
/-- Visiting the cells of `block` in order, appending those within the grid,
yields the accumulator followed by `gather`. -/
theorem foldl_block_eq_gather (g : Grid F) (block : List (Int × Int)) (acc : List Nat) :
    block.foldl (fun acc cell =>
      if cell.1 ≥ 0 ∧ cell.1 < g.cols ∧ cell.2 ≥ 0 ∧ cell.2 < g.rows then
        (g.cells.getD (cell.1 + cell.2 * g.cols).toNat []).foldl
          (fun acc other => acc ++ [other]) acc
      else acc) acc = acc ++ g.gather block := by
  induction block generalizing acc with
  | nil => simp [Grid.gather]
  | cons c cs ih =>
    rw [List.foldl_cons, ih]
    by_cases h : c.1 ≥ 0 ∧ c.1 < g.cols ∧ c.2 ≥ 0 ∧ c.2 < g.rows
    · simp [Grid.gather, Grid.inGrid, Grid.cellAt, h, foldl_push_back, List.filter_cons]
    · simp [Grid.gather, Grid.inGrid, h, List.filter_cons]

/-- The two nested loops of `getPotentialCollisions` visit the 3 x 3 block in
column-major order. -/
theorem getPotentialCollisions_eq_foldl (g : Grid F) (circle : Circle F) :
    g.getPotentialCollisions circle =
      (columnMajorBlock (g.cellIndex circle).1 (g.cellIndex circle).2).foldl (fun acc cell =>
        if cell.1 ≥ 0 ∧ cell.1 < g.cols ∧ cell.2 ≥ 0 ∧ cell.2 < g.rows then
          (g.cells.getD (cell.1 + cell.2 * g.cols).toNat []).foldl
            (fun acc other => acc ++ [other]) acc
        else acc) [] := by
  have h3 : ∀ k : Int, (k + 1 + 1 - (k - 1)).toNat = 3 := by
    intro k
    omega
  simp only [Grid.getPotentialCollisions, Grid.cellIndex, forInt, h3, forLoop,
    columnMajorBlock, List.foldl_cons, List.foldl_nil]
  have e1 : ∀ k : Int, k - 1 + 1 = k := by
    intro k
    omega
  simp only [e1]

/-- Neither `clear` nor `addCircle` changes the dimensions of the grid. -/
theorem addAll_dims (g : Grid F) (circles : List (Circle F)) :
    (g.addAll circles).cols = g.cols ∧ (g.addAll circles).rows = g.rows ∧
    (g.addAll circles).cellSize = g.cellSize := by
  unfold Grid.addAll
  generalize circles.enum = l
  induction l generalizing g with
  | nil => simp
  | cons x xs ih =>
    rw [List.foldl_cons]
    obtain ⟨h1, h2, h3⟩ := ih (g.addCircle x.1 x.2)
    rw [h1, h2, h3]
    unfold Grid.addCircle
    simp only []
    split_ifs <;> exact ⟨rfl, rfl, rfl⟩

/-- Two numbers less than one apart are converted to integers at most one apart
(one direction). -/
theorem toInt_le_add_one {a b : F} (h : b < a + 1) : toInt b ≤ toInt a + 1 := by
  have hfa : ⌊a⌋ ≤ toInt a := by
    unfold toInt
    split_ifs
    · exact le_rfl
    · exact Int.floor_le_ceil a
  unfold toInt
  by_cases hb : 0 ≤ b
  · rw [if_pos hb]
    have h1 : ⌊b⌋ ≤ ⌊a + 1⌋ := Int.floor_mono h.le
    rw [Int.floor_add_one] at h1
    unfold toInt at hfa
    omega
  · rw [if_neg hb]
    have hb0 : ⌈b⌉ ≤ 0 := Int.ceil_le.mpr (by exact_mod_cast (not_le.mp hb).le)
    by_cases ha : 0 ≤ a
    · rw [if_pos ha]
      have h0 : 0 ≤ ⌊a⌋ := Int.floor_nonneg.mpr ha
      omega
    · rw [if_neg ha]
      have h1 : ⌈b⌉ ≤ ⌈a + 1⌉ := Int.ceil_mono h.le
      rw [Int.ceil_add_one] at h1
      exact h1

/-- Two numbers less than one apart are converted to integers at most one apart. -/
theorem toInt_close {a b : F} (h : |a - b| < 1) : |toInt a - toInt b| ≤ 1 := by
  obtain ⟨h1, h2⟩ := abs_sub_lt_iff.mp h
  have k1 : toInt a ≤ toInt b + 1 := toInt_le_add_one (by linarith)
  have k2 : toInt b ≤ toInt a + 1 := toInt_le_add_one (by linarith)
  rw [abs_le]
  constructor <;> omega

/-- Appending to one cell keeps every reference already stored in any cell. -/
theorem mem_getD_modify_of_mem (l : List (List Nat)) (n m p x : Nat)
    (h : x ∈ l.getD m []) : x ∈ (l.modify (fun cell => cell ++ [p]) n).getD m [] := by
  rw [List.getD_eq_getElem?_getD] at h ⊢
  rw [List.getElem?_modify]
  cases hm : l[m]? with
  | none => simp [hm] at h
  | some a =>
    rw [hm] at h
    simp only [Option.map_eq_map, Option.map_some', Option.getD_some] at h ⊢
    split_ifs
    · exact List.mem_append_left _ h
    · exact h

/-- Appending to an existing cell stores the reference in that cell. -/
theorem mem_getD_modify_self (l : List (List Nat)) (n p : Nat) (h : n < l.length) :
    p ∈ (l.modify (fun cell => cell ++ [p]) n).getD n [] := by
  rw [List.getD_eq_getElem?_getD, List.getElem?_modify, List.getElem?_eq_getElem h]
  simp

/-- The method `addCircle` changes neither the dimensions nor the cell size. -/
theorem addCircle_dims (g : Grid F) (p : Nat) (c : Circle F) :
    (g.addCircle p c).cols = g.cols ∧ (g.addCircle p c).rows = g.rows ∧
    (g.addCircle p c).cellSize = g.cellSize := by
  unfold Grid.addCircle
  simp only []
  split_ifs <;> exact ⟨rfl, rfl, rfl⟩

/-- The method `addCircle` keeps the number of cells. -/
theorem addCircle_wf (g : Grid F) (p : Nat) (c : Circle F) (h : g.WF) :
    (g.addCircle p c).WF := by
  unfold Grid.WF at h ⊢
  obtain ⟨h1, h2, -⟩ := addCircle_dims g p c
  rw [h1, h2, ← h]
  unfold Grid.addCircle
  simp only []
  split_ifs
  · exact List.length_modify _ _ _
  · rfl

/-- The method `addCircle` removes nothing from any cell. -/
theorem addCircle_cellAt_mono (g : Grid F) (p : Nat) (c : Circle F) (cell : Int × Int)
    (x : Nat) (h : x ∈ g.cellAt cell) : x ∈ (g.addCircle p c).cellAt cell := by
  unfold Grid.cellAt at h ⊢
  rw [(addCircle_dims g p c).1]
  unfold Grid.addCircle
  simp only []
  split_ifs
  · exact mem_getD_modify_of_mem _ _ _ _ _ h
  · exact h

omit [LinearOrderedField F] [FloorRing F] in
/-- A cell within the grid has its index below the number of cells. -/
theorem index_lt_of_inGrid (g : Grid F) (cell : Int × Int) (hwf : g.WF)
    (h : g.inGrid cell = true) : (cell.1 + cell.2 * g.cols).toNat < g.cells.length := by
  simp only [Grid.inGrid, decide_eq_true_eq] at h
  obtain ⟨h1, h2, h3, h4⟩ := h
  rw [hwf]
  have hc : 0 < g.cols := by omega
  have hr : 0 < g.rows := by omega
  have hlt : cell.1 + cell.2 * g.cols < g.cols * g.rows := by nlinarith
  exact (Int.toNat_lt_toNat (by positivity)).mpr hlt

/-- A circle whose cell is within the grid is stored in that cell by `addCircle`. -/
theorem addCircle_mem (g : Grid F) (p : Nat) (c : Circle F) (hwf : g.WF)
    (h : g.inGrid (g.cellIndex c) = true) : p ∈ (g.addCircle p c).cellAt (g.cellIndex c) := by
  have hlt := index_lt_of_inGrid g _ hwf h
  unfold Grid.cellAt
  rw [(addCircle_dims g p c).1]
  simp only [Grid.inGrid, decide_eq_true_eq, Grid.cellIndex] at h
  unfold Grid.addCircle
  simp only [h, and_self, if_true]
  exact mem_getD_modify_self _ _ _ hlt

/-- Filling the grid removes nothing from any cell. -/
theorem foldl_addCircle_mono (l : List (Nat × Circle F)) (g : Grid F) (cell : Int × Int)
    (x : Nat) (h : x ∈ g.cellAt cell) :
    x ∈ (l.foldl (fun g pc => g.addCircle pc.1 pc.2) g).cellAt cell := by
  induction l generalizing g with
  | nil => exact h
  | cons a as ih =>
    rw [List.foldl_cons]
    exact ih _ (addCircle_cellAt_mono g a.1 a.2 cell x h)

/-- After filling the grid, every circle whose cell is within the grid is stored
in its cell. -/
theorem foldl_addCircle_mem (l : List (Nat × Circle F)) (g : Grid F) (p : Nat) (c : Circle F)
    (hwf : g.WF) (hm : (p, c) ∈ l) (h : g.inGrid (g.cellIndex c) = true) :
    p ∈ (l.foldl (fun g pc => g.addCircle pc.1 pc.2) g).cellAt (g.cellIndex c) := by
  induction l generalizing g with
  | nil => simp at hm
  | cons a as ih =>
    rw [List.foldl_cons]
    rcases List.mem_cons.mp hm with heq | hmem
    · subst heq
      exact foldl_addCircle_mono as _ _ _ (addCircle_mem g p c hwf h)
    · obtain ⟨h1, h2, h3⟩ := addCircle_dims g a.1 a.2
      have hidx : (g.addCircle a.1 a.2).cellIndex c = g.cellIndex c := by
        simp only [Grid.cellIndex, h3]
      have hin : (g.addCircle a.1 a.2).inGrid (g.cellIndex c) = true := by
        simp only [Grid.inGrid, h1, h2] at h ⊢
        exact h
      have := ih (g.addCircle a.1 a.2) (addCircle_wf g a.1 a.2 hwf) hmem (by rw [hidx]; exact hin)
      rw [hidx] at this
      exact this

/-- The cells of the 3 x 3 block are those at most one column and one row away. -/
theorem mem_columnMajorBlock (col row i j : Int) (hi : |i - col| ≤ 1) (hj : |j - row| ≤ 1) :
    (i, j) ∈ columnMajorBlock col row := by
  rw [abs_le] at hi hj
  have hi3 : i = col - 1 ∨ i = col ∨ i = col + 1 := by omega
  have hj3 : j = row - 1 ∨ j = row ∨ j = row + 1 := by omega
  rcases hi3 with rfl | rfl | rfl <;> rcases hj3 with rfl | rfl | rfl <;>
    simp [columnMajorBlock]

omit [LinearOrderedField F] [FloorRing F] in
/-- The method `clear` keeps the number of cells. -/
theorem clear_wf (g : Grid F) (h : g.WF) : g.clear.WF := by
  unfold Grid.WF Grid.clear at *
  simpa using h

/-- A product within the range of `int` is not changed by the wrap-around. -/
theorem wrapInt32_of_range (z : Int) (h0 : -2 ^ 31 ≤ z) (h1 : z < 2 ^ 31) : wrapInt32 z = z := by
  unfold wrapInt32
  omega

/-- The constructor creates exactly `cols * rows` cells when that product does
not overflow `int`. -/
theorem new_wf (width height cellSize : F)
    (h0 : -2 ^ 31 ≤ toInt (width / cellSize) * toInt (height / cellSize))
    (h1 : toInt (width / cellSize) * toInt (height / cellSize) < 2 ^ 31) :
    (Grid.new width height cellSize).WF := by
  simp only [Grid.WF, Grid.new, List.length_replicate]
  rw [wrapInt32_of_range _ h0 h1]

/-- The grid `Grid(300, 300, 100)` has one cell per index. -/
theorem new_wf_300 : (Grid.new (300 : ℚ) 300 100).WF := by
  have h3 : toInt ((300 : ℚ) / 100) = 3 := by
    simp only [toInt]
    norm_num
  apply new_wf <;> rw [h3] <;> norm_num

/-- The grid of `main`, `Grid(800, 800, 100)`, has one cell per index. -/
theorem new_wf_main : (Grid.new (800 : ℝ) 800 100).WF := by
  have h8 : toInt ((800 : ℝ) / 100) = 8 := by
    simp only [toInt]
    norm_num
  apply new_wf <;> rw [h8] <;> norm_num

omit [FloorRing F] in
/-- One coordinate difference is at most the Euclidean distance. -/
theorem abs_sub_le_euclid {sqrt : F → F} (hs : IsSqrt sqrt) (p q : Vector2 F) :
    |p.x - q.x| ≤ euclid sqrt p q ∧ |p.y - q.y| ≤ euclid sqrt p q := by
  have hnn : 0 ≤ (p.x - q.x) ^ 2 + (p.y - q.y) ^ 2 := by positivity
  obtain ⟨h0, h1⟩ := hs _ hnn
  unfold euclid
  constructor
  · apply abs_le_of_sq_le_sq _ h0
    nlinarith [sq_nonneg (p.y - q.y)]
  · apply abs_le_of_sq_le_sq _ h0
    nlinarith [sq_nonneg (p.x - q.x)]

/-- Two circles that overlap, with radii at most half a cell, have cell indices
at most one column and one row apart. -/
theorem cellIndex_close {sqrt : F → F} (hs : IsSqrt sqrt) (g : Grid F) (a b : Circle F)
    (maxRadius : F) (hcs : 0 < g.cellSize) (hcell : g.cellSize ≥ 2 * maxRadius)
    (ha : a.radius ≤ maxRadius) (hb : b.radius ≤ maxRadius)
    (hov : a.checkCollisionWith sqrt b = true) :
    |(g.cellIndex b).1 - (g.cellIndex a).1| ≤ 1 ∧ |(g.cellIndex b).2 - (g.cellIndex a).2| ≤ 1 := by
  have hd : euclid sqrt a.position b.position < g.cellSize := by
    have h : euclid sqrt a.position b.position < a.radius + b.radius := by
      simpa [Circle.checkCollisionWith, euclid] using hov
    linarith
  obtain ⟨hx, hy⟩ := abs_sub_le_euclid hs a.position b.position
  have key : ∀ u v : F, |u - v| < g.cellSize →
      |toInt (v / g.cellSize) - toInt (u / g.cellSize)| ≤ 1 := by
    intro u v huv
    apply toInt_close
    rw [← sub_div, abs_div, abs_of_pos hcs, div_lt_one hcs, abs_sub_comm]
    exact huv
  exact ⟨key _ _ (lt_of_le_of_lt hx hd), key _ _ (lt_of_le_of_lt hy hd)⟩

/-- C4: in a grid with positive cell size at least twice the largest radius,
filled by `clear()` and one `addCircle` per body, two distinct bodies that
overlap and whose cells both lie within the grid are found by the query: the
result of `getPotentialCollisions` for the one contains the other. -/
theorem grid_completeness (sqrt : F → F) (hs : IsSqrt sqrt) (g : Grid F) (hwf : g.WF)
    (hcs : 0 < g.cellSize) (circles : List (Circle F)) (maxRadius : F)
    (hr : ∀ c ∈ circles, 0 < c.radius ∧ c.radius ≤ maxRadius)
    (hcell : g.cellSize ≥ 2 * maxRadius)
    (i j : Nat) (hi : i < circles.length) (hj : j < circles.length) (_hij : i ≠ j)
    (hov : circles[i].checkCollisionWith sqrt circles[j] = true)
    (_hB : g.inGrid (g.cellIndex circles[i]) = true)
    (hC : g.inGrid (g.cellIndex circles[j]) = true) :
    j ∈ (g.clear.addAll circles).getPotentialCollisions circles[i] := by
  obtain ⟨d1, d2, d3⟩ := addAll_dims g.clear circles
  have c1 : g.clear.cols = g.cols := rfl
  have c2 : g.clear.rows = g.rows := rfl
  have c3 : g.clear.cellSize = g.cellSize := rfl
  have hidx : ∀ c : Circle F, (g.clear.addAll circles).cellIndex c = g.cellIndex c := by
    intro c
    simp only [Grid.cellIndex, d3, c3]
  have hin : ∀ cell, (g.clear.addAll circles).inGrid cell = g.inGrid cell := by
    intro cell
    simp only [Grid.inGrid, d1, d2, c1, c2]
  have hstored : j ∈ (g.clear.addAll circles).cellAt (g.cellIndex circles[j]) := by
    have hm : (j, circles[j]) ∈ circles.enum :=
      List.mk_mem_enum_iff_getElem?.mpr (List.getElem?_eq_getElem hj)
    exact foldl_addCircle_mem circles.enum g.clear j circles[j] (clear_wf g hwf) hm hC
  obtain ⟨k1, k2⟩ := cellIndex_close hs g circles[i] circles[j] maxRadius hcs hcell
    (hr _ (List.getElem_mem hi)).2 (hr _ (List.getElem_mem hj)).2 hov
  rw [getPotentialCollisions_eq_foldl, foldl_block_eq_gather, List.nil_append, hidx]
  unfold Grid.gather
  rw [List.mem_flatMap]
  refine ⟨g.cellIndex circles[j], ?_, hstored⟩
  rw [List.mem_filter, hin]
  exact ⟨mem_columnMajorBlock _ _ _ _ k1 k2, hC⟩

/-- C4 at concrete bodies: in the grid of `main` (800 x 800, cell size 100) two
bodies of radius 50 centred at `(100, 400)` and `(60, 370)` overlap and lie in
the cells `(1, 4)` and `(0, 3)`; the query for the first returns the second. -/
theorem grid_completeness_scenario :
    1 ∈ ((Grid.new (800 : ℝ) 800 100).clear.addAll
      [leftBody, nearBody]).getPotentialCollisions leftBody := by
  have t8 : toInt ((800 : ℝ) / 100) = 8 := by
    simp only [toInt]
    norm_num
  have t1 : toInt ((100 : ℝ) / 100) = 1 := by
    simp only [toInt]
    norm_num
  have t4 : toInt ((400 : ℝ) / 100) = 4 := by
    simp only [toInt]
    norm_num
  have t0 : toInt ((60 : ℝ) / 100) = 0 := by
    simp only [toInt]
    norm_num
  have t3 : toInt ((370 : ℝ) / 100) = 3 := by
    simp only [toInt]
    norm_num
  have hov : leftBody.checkCollisionWith Real.sqrt nearBody = true := by
    have he : Real.sqrt ((100 - 60) ^ 2 + (400 - 370) ^ 2) = 50 :=
      isSqrt_real.eq_of_mul_self (by norm_num) (by norm_num)
    simp only [Circle.checkCollisionWith, leftBody, nearBody, he]
    norm_num
  exact grid_completeness Real.sqrt isSqrt_real (Grid.new (800 : ℝ) 800 100)
    new_wf_main (by norm_num [Grid.new]) [leftBody, nearBody] 50
    (by
      intro c hc
      simp only [List.mem_cons, List.mem_singleton, List.not_mem_nil, or_false] at hc
      rcases hc with rfl | rfl <;> norm_num [leftBody, nearBody])
    (by norm_num [Grid.new]) 0 1 (by simp) (by simp) (by decide) hov
    (by
      simp only [Grid.inGrid, Grid.cellIndex, Grid.new, List.getElem_cons_zero, leftBody,
        t8, t1, t4]
      decide)
    (by
      simp only [Grid.inGrid, Grid.cellIndex, Grid.new, List.getElem_cons_succ,
        List.getElem_cons_zero, nearBody, t8, t0, t3]
      decide)

/-- The grid `Grid(300, 300, 100)`: nine empty cells in three columns and rows. -/
theorem grid_new_300 :
    Grid.new (300 : ℚ) 300 100 = ⟨[[], [], [], [], [], [], [], [], []], 100, 3, 3⟩ := by
  have h3 : toInt ((300 : ℚ) / 100) = 3 := by
    simp only [toInt]
    norm_num
  simp only [Grid.new, h3]
  rfl

/-- The two circles of `orderGrid` land in the cells 7 and 5 of its nine cells. -/
theorem orderGrid_eq :
    orderGrid = ⟨[[], [], [], [], [], [1], [], [0], []], 100, 3, 3⟩ := by
  have h1 : toInt ((150 : ℚ) / 100) = 1 := by
    simp only [toInt]
    norm_num
  have h2 : toInt ((250 : ℚ) / 100) = 2 := by
    simp only [toInt]
    norm_num
  have e0 : (⟨[[], [], [], [], [], [], [], [], []], 100, 3, 3⟩ : Grid ℚ).clear =
      ⟨[[], [], [], [], [], [], [], [], []], 100, 3, 3⟩ := rfl
  have e1 : (⟨[[], [], [], [], [], [], [], [], []], 100, 3, 3⟩ : Grid ℚ).addCircle 0
      ⟨⟨150, 250⟩, 15, ⟨0, 0⟩, 40⟩ = ⟨[[], [], [], [], [], [], [], [0], []], 100, 3, 3⟩ := by
    simp only [Grid.addCircle, h1, h2]
    rfl
  have e2 : (⟨[[], [], [], [], [], [], [], [0], []], 100, 3, 3⟩ : Grid ℚ).addCircle 1
      ⟨⟨250, 150⟩, 15, ⟨0, 0⟩, 40⟩ = ⟨[[], [], [], [], [], [1], [], [0], []], 100, 3, 3⟩ := by
    simp only [Grid.addCircle, h1, h2]
    rfl
  simp only [orderGrid, grid_new_300, e0, Grid.addAll, List.enum, List.enumFrom,
    List.foldl_cons, List.foldl_nil, zero_add, e1, e2]

/-- C9 (as stated, refuted): for the centre `(-50, 50)` and cell size 100 the
computed column is 0 while `floor (-50 / 100) = -1`; the body is therefore
appended to cell `(0, 0)` of an empty 3 x 3 grid instead of being skipped. -/
theorem cellIndex_not_floor :
    (Grid.new (300 : ℚ) 300 100).cellIndex outsideBody = (0, 0) ∧
    ⌊outsideBody.position.x / (Grid.new (300 : ℚ) 300 100).cellSize⌋ = -1 ∧
    (Grid.new (300 : ℚ) 300 100).cellIndex outsideBody ≠
      (⌊outsideBody.position.x / (Grid.new (300 : ℚ) 300 100).cellSize⌋,
       ⌊outsideBody.position.y / (Grid.new (300 : ℚ) 300 100).cellSize⌋) ∧
    ((Grid.new (300 : ℚ) 300 100).addCircle 7 outsideBody).cells =
      [[7], [], [], [], [], [], [], [], []] := by
  have h1 : toInt ((-50 : ℚ) / 100) = 0 := by
    simp only [toInt]
    norm_num
  have h2 : toInt ((50 : ℚ) / 100) = 0 := by
    simp only [toInt]
    norm_num
  have h3 : ⌊(-50 : ℚ) / 100⌋ = -1 := by norm_num
  have hi : (Grid.new (300 : ℚ) 300 100).cellIndex outsideBody = (0, 0) := by
    simp only [grid_new_300, Grid.cellIndex, outsideBody, h1, h2]
  have hf : ⌊outsideBody.position.x / (Grid.new (300 : ℚ) 300 100).cellSize⌋ = -1 := by
    simp only [grid_new_300, outsideBody, h3]
  refine ⟨hi, hf, ?_, ?_⟩
  · rw [hi, hf]
    intro h
    have h0 := congrArg Prod.fst h
    simp at h0
  · simp only [grid_new_300, outsideBody, Grid.addCircle, h1, h2]
    rfl

/-- C9 (amended): for a positive cell size the computed column is
`floor (x / cellSize)` when `x ≥ 0` and `ceil (x / cellSize)` when `x < 0`
(rounding toward zero), and likewise the row for `y`; `addCircle` and
`getPotentialCollisions` both work from this index. -/
theorem cellIndex_truncates (g : Grid F) (circle : Circle F) (ptr : Nat)
    (hcs : 0 < g.cellSize) :
    (0 ≤ circle.position.x → (g.cellIndex circle).1 = ⌊circle.position.x / g.cellSize⌋) ∧
    (circle.position.x < 0 → (g.cellIndex circle).1 = ⌈circle.position.x / g.cellSize⌉) ∧
    (0 ≤ circle.position.y → (g.cellIndex circle).2 = ⌊circle.position.y / g.cellSize⌋) ∧
    (circle.position.y < 0 → (g.cellIndex circle).2 = ⌈circle.position.y / g.cellSize⌉) ∧
    g.addCircle ptr circle =
      (if g.inGrid (g.cellIndex circle) = true then
        { g with
          cells := g.cells.modify (fun cell => cell ++ [ptr])
                     ((g.cellIndex circle).1 + (g.cellIndex circle).2 * g.cols).toNat }
      else g) ∧
    g.getPotentialCollisions circle =
      g.gather (columnMajorBlock (g.cellIndex circle).1 (g.cellIndex circle).2) := by
  refine ⟨?_, ?_, ?_, ?_, ?_, ?_⟩
  · intro h
    simp [Grid.cellIndex, toInt, div_nonneg h hcs.le]
  · intro h
    simp [Grid.cellIndex, toInt, not_le.mpr (div_neg_of_neg_of_pos h hcs)]
  · intro h
    simp [Grid.cellIndex, toInt, div_nonneg h hcs.le]
  · intro h
    simp [Grid.cellIndex, toInt, not_le.mpr (div_neg_of_neg_of_pos h hcs)]
  · simp [Grid.addCircle, Grid.inGrid, Grid.cellIndex]
  · rw [getPotentialCollisions_eq_foldl, foldl_block_eq_gather, List.nil_append]

/-- C9 (amended) at a concrete body: in a 3 x 3 grid of cells of size 100 the
centre `(-50, 50)` has column `ceil (-1/2) = 0` and row `floor (1/2) = 0`. -/
theorem cellIndex_truncates_scenario :
    (Grid.new (300 : ℚ) 300 100).cellIndex outsideBody = (⌈((-1 : ℚ) / 2)⌉, ⌊((1 : ℚ) / 2)⌋) := by
  have hcs : (0 : ℚ) < (Grid.new (300 : ℚ) 300 100).cellSize := by
    simp only [Grid.new]
    norm_num
  have h := cellIndex_truncates (Grid.new (300 : ℚ) 300 100) outsideBody 7 hcs
  have hx := h.2.1 (by norm_num [outsideBody])
  have hy := h.2.2.1 (by norm_num [outsideBody])
  rw [Prod.ext_iff, hx, hy]
  simp only [Grid.new, outsideBody]
  norm_num

/-- C10 (as stated, refuted): with circle 0 in cell `(1, 2)` and circle 1 in cell
`(2, 1)`, a query from cell `(1, 1)` returns `[0, 1]`, while the row-major
concatenation of the block is `[1, 0]`. -/
theorem query_not_row_major :
    orderGrid.getPotentialCollisions middleBody = [0, 1] ∧
    orderGrid.gather (rowMajorBlock (orderGrid.cellIndex middleBody).1
      (orderGrid.cellIndex middleBody).2) = [1, 0] ∧
    orderGrid.getPotentialCollisions middleBody ≠
      orderGrid.gather (rowMajorBlock (orderGrid.cellIndex middleBody).1
        (orderGrid.cellIndex middleBody).2) := by
  have h1 : toInt ((150 : ℚ) / 100) = 1 := by
    simp only [toInt]
    norm_num
  have hq : orderGrid.getPotentialCollisions middleBody = [0, 1] := by
    simp only [orderGrid_eq, Grid.getPotentialCollisions, middleBody, h1]
    rfl
  have hr : orderGrid.gather (rowMajorBlock (orderGrid.cellIndex middleBody).1
      (orderGrid.cellIndex middleBody).2) = [1, 0] := by
    simp only [orderGrid_eq, Grid.cellIndex, middleBody, h1]
    rfl
  refine ⟨hq, hr, ?_⟩
  rw [hq, hr]
  decide

/-- C10 (amended): `getPotentialCollisions` returns exactly the concatenation of
the contents of those cells of the 3 x 3 block around the query body's cell
that lie within the grid, the cells taken in column-major order (all rows of
`col - 1`, then of `col`, then of `col + 1`) and each cell in insertion order. -/
theorem query_column_major (g : Grid F) (circle : Circle F) :
    g.getPotentialCollisions circle =
      g.gather (columnMajorBlock (toInt (circle.position.x / g.cellSize))
        (toInt (circle.position.y / g.cellSize))) := by
  rw [getPotentialCollisions_eq_foldl, foldl_block_eq_gather, List.nil_append]
  rfl

end GridFacts

/-! ## Evaluating the machine arithmetic -/

section Rounding

/-- The binade of a positive rational: `Int.log 2 q = e` when `2^e ≤ q < 2^(e+1)`. -/
theorem log2_eq (q : ℚ) (e : Int) (h0 : 0 < q) (h1 : (2 : ℚ) ^ e ≤ q)
    (h2 : q < (2 : ℚ) ^ (e + 1)) : Int.log 2 q = e := by
  have a : e ≤ Int.log 2 q := by
    rw [← Int.zpow_le_iff_le_log (by norm_num) h0]
    exact_mod_cast h1
  have b : Int.log 2 q < e + 1 := by
    rw [← Int.lt_zpow_iff_log_lt (by norm_num) h0]
    exact_mod_cast h2
  omega

/-- A rational strictly within one half of the integer `n` rounds to `n`. -/
theorem roundEven_eq (x : ℚ) (n : Int) (h1 : (n : ℚ) - 1 / 2 < x) (h2 : x < n + 1 / 2) :
    roundEven x = n := by
  unfold roundEven
  by_cases hx : (n : ℚ) ≤ x
  · have hf : ⌊x⌋ = n := by
      rw [Int.floor_eq_iff]
      constructor
      · exact hx
      · linarith
    rw [hf, if_pos (by linarith)]
  · have hf : ⌊x⌋ = n - 1 := by
      rw [Int.floor_eq_iff]
      push_cast
      constructor
      · linarith
      · linarith [not_le.mp hx]
    rw [hf]
    push_cast
    rw [if_neg (by linarith), if_pos (by linarith)]
    omega

/-- The value of `roundTo` at a non-zero rational of binade `e`: with the spacing
`2^k` of the format there, the multiple `n * 2^k` nearest to `q`. -/
theorem roundTo_eq (p : Nat) (emin : Int) (q : ℚ) (e k n : Int) (h0 : 0 < |q|)
    (h1 : (2 : ℚ) ^ e ≤ |q|) (h2 : |q| < (2 : ℚ) ^ (e + 1))
    (hk : max e emin - ((p : Int) - 1) = k)
    (hn1 : (n : ℚ) - 1 / 2 < q / 2 ^ k) (hn2 : q / 2 ^ k < n + 1 / 2) :
    roundTo p emin q = n * 2 ^ k := by
  unfold roundTo
  rw [log2_eq |q| e h0 h1 h2, hk, roundEven_eq _ n hn1 hn2]

/-- Zero rounds to zero. -/
theorem roundTo_zero (p : Nat) (emin : Int) : roundTo p emin 0 = 0 := by
  unfold roundTo
  have h : roundEven 0 = 0 := roundEven_eq 0 0 (by norm_num) (by norm_num)
  simp [h]

/-- The value of `sqrtTo` at a positive rational of binade `e`: with the spacing
`2^k` of the format at the root, `m = ⌊q / 4^k⌋` and `n = ⌊√m⌋`, the result is
`n * 2^k` when the root lies below the midpoint `(n + 1/2) * 2^k`. -/
theorem sqrtTo_eq_lower (p : Nat) (emin : Int) (q : ℚ) (e k : Int) (m n : Nat) (h0 : 0 < q)
    (h1 : (2 : ℚ) ^ e ≤ q) (h2 : q < (2 : ℚ) ^ (e + 1))
    (hk : max (e / 2) emin - ((p : Int) - 1) = k)
    (hm1 : (m : ℚ) ≤ q / (2 ^ k * 2 ^ k)) (hm2 : q / (2 ^ k * 2 ^ k) < m + 1)
    (hn1 : n * n ≤ m) (hn2 : m < (n + 1) * (n + 1))
    (hlt : q / (2 ^ k * 2 ^ k) < ((n : ℚ) + 1 / 2) ^ 2) :
    sqrtTo p emin q = n * 2 ^ k := by
  have hfloor : ⌊q / ((2 : ℚ) ^ k * 2 ^ k)⌋₊ = m := by
    rw [Nat.floor_eq_iff (le_trans (Nat.cast_nonneg m) hm1)]
    exact ⟨hm1, hm2⟩
  have hsqrt : Nat.sqrt m = n := (Nat.eq_sqrt.mpr ⟨hn1, hn2⟩).symm
  unfold sqrtTo
  rw [if_neg (not_le.mpr h0), log2_eq q e h0 h1 h2, hk]
  simp only [hfloor, hsqrt]
  rw [if_pos hlt]

/-- The value of `sqrtTo` at a positive rational of binade `e` when the root lies
above the midpoint `(n + 1/2) * 2^k`: the result is `(n + 1) * 2^k`. -/
theorem sqrtTo_eq_upper (p : Nat) (emin : Int) (q : ℚ) (e k : Int) (m n : Nat) (h0 : 0 < q)
    (h1 : (2 : ℚ) ^ e ≤ q) (h2 : q < (2 : ℚ) ^ (e + 1))
    (hk : max (e / 2) emin - ((p : Int) - 1) = k)
    (hm1 : (m : ℚ) ≤ q / (2 ^ k * 2 ^ k)) (hm2 : q / (2 ^ k * 2 ^ k) < m + 1)
    (hn1 : n * n ≤ m) (hn2 : m < (n + 1) * (n + 1))
    (hgt : ((n : ℚ) + 1 / 2) ^ 2 < q / (2 ^ k * 2 ^ k)) :
    sqrtTo p emin q = (n + 1) * 2 ^ k := by
  have hfloor : ⌊q / ((2 : ℚ) ^ k * 2 ^ k)⌋₊ = m := by
    rw [Nat.floor_eq_iff (le_trans (Nat.cast_nonneg m) hm1)]
    exact ⟨hm1, hm2⟩
  have hsqrt : Nat.sqrt m = n := (Nat.eq_sqrt.mpr ⟨hn1, hn2⟩).symm
  unfold sqrtTo
  rw [if_neg (not_le.mpr h0), log2_eq q e h0 h1 h2, hk]
  simp only [hfloor, hsqrt]
  rw [if_neg (not_lt.mpr hgt.le), if_pos hgt]

/-- The square root of zero is zero in every format. -/
theorem sqrtTo_zero (p : Nat) (emin : Int) : sqrtTo p emin 0 = 0 := by
  simp [sqrtTo]

end Rounding

/-! ## More on circle against circle -/

section Pairs

variable {F : Type} [LinearOrderedField F]

/-- C13: the overlap test is symmetric: `X.checkCollisionWith(Y)` and
`Y.checkCollisionWith(X)` give the same answer for all positions and radii. -/
theorem checkCollisionWith_symm (sqrt : F → F) (a b : Circle F) :
    a.checkCollisionWith sqrt b = b.checkCollisionWith sqrt a := by
  unfold Circle.checkCollisionWith
  have e : (a.position.x - b.position.x) ^ 2 + (a.position.y - b.position.y) ^ 2 =
      (b.position.x - a.position.x) ^ 2 + (b.position.y - a.position.y) ^ 2 := by ring
  simp only [e, add_comm a.radius b.radius]

/-- C15: `update(deltaTime)` adds `velocity * deltaTime` to the position,
component by component, and leaves the velocity, the radius and the outline
thickness as they were. -/
theorem update_integrates (c : Circle F) (deltaTime : F) :
    (c.update deltaTime).position.x = c.position.x + c.velocity.x * deltaTime ∧
    (c.update deltaTime).position.y = c.position.y + c.velocity.y * deltaTime ∧
    (c.update deltaTime).velocity = c.velocity ∧
    (c.update deltaTime).radius = c.radius ∧
    (c.update deltaTime).thickness = c.thickness :=
  ⟨rfl, rfl, rfl, rfl, rfl⟩

/-- In exact arithmetic and for distinct centres `resolveCollision` moves the two
centres by equal and opposite displacements that are multiples of the vector
between the old centres: the sum of the two positions is unchanged, each
centre moves by exactly `|radiusSelf + radiusOther - distance| / 2`, and both
radii are unchanged. -/
theorem resolveCollision_exact_correction (sqrt : F → F) (hs : IsSqrt sqrt) (a b : Circle F)
    (h : a.position ≠ b.position) :
    ((a.resolveCollision sqrt b).1.position.x + (a.resolveCollision sqrt b).2.position.x =
        a.position.x + b.position.x ∧
      (a.resolveCollision sqrt b).1.position.y + (a.resolveCollision sqrt b).2.position.y =
        a.position.y + b.position.y) ∧
    ((a.resolveCollision sqrt b).1.position.x - a.position.x =
        -((a.resolveCollision sqrt b).2.position.x - b.position.x) ∧
      (a.resolveCollision sqrt b).1.position.y - a.position.y =
        -((a.resolveCollision sqrt b).2.position.y - b.position.y)) ∧
    (∃ t : F,
      (a.resolveCollision sqrt b).1.position.x - a.position.x =
        t * (a.position.x - b.position.x) ∧
      (a.resolveCollision sqrt b).1.position.y - a.position.y =
        t * (a.position.y - b.position.y)) ∧
    euclid sqrt (a.resolveCollision sqrt b).1.position a.position =
      |a.radius + b.radius - euclid sqrt a.position b.position| / 2 ∧
    euclid sqrt (a.resolveCollision sqrt b).2.position b.position =
      |a.radius + b.radius - euclid sqrt a.position b.position| / 2 ∧
    (a.resolveCollision sqrt b).1.radius = a.radius ∧
    (a.resolveCollision sqrt b).2.radius = b.radius := by
  have hnn : 0 ≤ (a.position.x - b.position.x) * (a.position.x - b.position.x) +
      (a.position.y - b.position.y) * (a.position.y - b.position.y) :=
    add_nonneg (mul_self_nonneg _) (mul_self_nonneg _)
  have hsq := (hs _ hnn).2
  have h0 : sqrt ((a.position.x - b.position.x) * (a.position.x - b.position.x) +
      (a.position.y - b.position.y) * (a.position.y - b.position.y)) ≠ 0 := by
    rw [resolve_distance_eq_euclid sqrt a b]
    exact euclid_ne_zero hs h
  have hmove : ∀ m : F, |m| / 2 * (|m| / 2) = m * m / 4 := by
    intro m
    rw [div_mul_div_comm, abs_mul_abs_self]
    norm_num
  rw [← resolve_distance_eq_euclid sqrt a b]
  unfold Circle.resolveCollision
  simp only [h0, if_false]
  generalize sqrt ((a.position.x - b.position.x) * (a.position.x - b.position.x) +
      (a.position.y - b.position.y) * (a.position.y - b.position.y)) = d at hsq h0 ⊢
  refine ⟨⟨by ring, by ring⟩, ⟨by ring, by ring⟩,
    ⟨(a.radius + b.radius - d) * (1 / 2) / d, ?_, ?_⟩, ?_, ?_, trivial, trivial⟩
  · field_simp
    ring
  · field_simp
    ring
  · apply euclid_eq_of_mul_self hs _ _ (by positivity)
    rw [hmove]
    field_simp
    linear_combination (4 * (a.radius + b.radius - d) ^ 2) * hsq
  · apply euclid_eq_of_mul_self hs _ _ (by positivity)
    rw [hmove]
    field_simp
    linear_combination (4 * (a.radius + b.radius - d) ^ 2) * hsq

end Pairs

/-! ## Insertion and the frame index -/

section Index

variable {F : Type} [LinearOrderedField F] [FloorRing F]

/-- Appending to cell `n` changes the entry `n`, when it exists, and no other. -/
theorem getD_modify_append (l : List (List Nat)) (n m p : Nat) :
    (l.modify (fun cell => cell ++ [p]) n).getD m [] =
      if n = m ∧ m < l.length then l.getD m [] ++ [p] else l.getD m [] := by
  rw [List.getD_eq_getElem?_getD, List.getD_eq_getElem?_getD, List.getElem?_modify]
  by_cases hm : m < l.length
  · rw [List.getElem?_eq_getElem hm]
    by_cases hn : n = m <;> simp [hn, hm]
  · rw [List.getElem?_eq_none (not_lt.mp hm)]
    simp [hm]

omit [LinearOrderedField F] [FloorRing F] in
/-- Two cells within the grid that are stored at the same index are the same cell. -/
theorem index_inj (g : Grid F) (c d : Int × Int) (hc : g.inGrid c = true)
    (hd : g.inGrid d = true)
    (h : (c.1 + c.2 * g.cols).toNat = (d.1 + d.2 * g.cols).toNat) : c = d := by
  simp only [Grid.inGrid, decide_eq_true_eq] at hc hd
  obtain ⟨c1, c2, c3, c4⟩ := hc
  obtain ⟨d1, d2, d3, d4⟩ := hd
  have hcn : 0 ≤ c.1 + c.2 * g.cols := add_nonneg c1 (mul_nonneg c3 (by omega))
  have hdn : 0 ≤ d.1 + d.2 * g.cols := add_nonneg d1 (mul_nonneg d3 (by omega))
  have e : c.1 + c.2 * g.cols = d.1 + d.2 * g.cols := by omega
  have e1 : c.1 = d.1 := by
    have hm := congrArg (fun z => z % g.cols) e
    simp only [Int.add_mul_emod_self] at hm
    rwa [Int.emod_eq_of_lt c1 c2, Int.emod_eq_of_lt d1 d2] at hm
  have e2 : c.2 = d.2 := by
    have hmul : c.2 * g.cols = d.2 * g.cols := by omega
    exact mul_right_cancel₀ (by omega : g.cols ≠ 0) hmul
  exact Prod.ext e1 e2

/-- C11: in a grid with one cell per index, `addCircle` of a circle whose
computed cell lies within the grid appends the reference at the end of that
cell and changes no other cell (nor the dimensions); for a circle whose cell
lies outside the grid it returns the grid unchanged. -/
theorem addCircle_effect (g : Grid F) (hwf : g.WF) (ptr : Nat) (circle : Circle F) :
    (g.inGrid (g.cellIndex circle) = true →
      (g.addCircle ptr circle).cellAt (g.cellIndex circle) =
        g.cellAt (g.cellIndex circle) ++ [ptr] ∧
      (∀ cell : Int × Int, g.inGrid cell = true → cell ≠ g.cellIndex circle →
        (g.addCircle ptr circle).cellAt cell = g.cellAt cell) ∧
      (∀ n : Nat, n ≠ ((g.cellIndex circle).1 + (g.cellIndex circle).2 * g.cols).toNat →
        (g.addCircle ptr circle).cells.getD n [] = g.cells.getD n []) ∧
      (g.addCircle ptr circle).cells.length = g.cells.length ∧
      (g.addCircle ptr circle).cols = g.cols ∧ (g.addCircle ptr circle).rows = g.rows ∧
      (g.addCircle ptr circle).cellSize = g.cellSize) ∧
    (g.inGrid (g.cellIndex circle) = false → g.addCircle ptr circle = g) := by
  constructor
  · intro hin
    have hlt := index_lt_of_inGrid g _ hwf hin
    have hdef : g.addCircle ptr circle =
        { g with cells := g.cells.modify (fun cell => cell ++ [ptr])
                            ((g.cellIndex circle).1 + (g.cellIndex circle).2 * g.cols).toNat } := by
      have hin0 := hin
      simp only [Grid.inGrid, decide_eq_true_eq, Grid.cellIndex] at hin0
      simp only [Grid.addCircle, Grid.cellIndex, hin0, and_self, if_true]
    rw [hdef]
    refine ⟨?_, ?_, ?_, List.length_modify _ _ _, rfl, rfl, rfl⟩
    · simp only [Grid.cellAt]
      rw [getD_modify_append, if_pos ⟨rfl, hlt⟩]
    · intro cell hcell hne
      simp only [Grid.cellAt]
      rw [getD_modify_append, if_neg]
      rintro ⟨he, -⟩
      exact hne (index_inj g _ _ hcell hin he.symm)
    · intro n hn
      rw [getD_modify_append, if_neg]
      rintro ⟨he, -⟩
      exact hn he.symm
  · intro hout
    have hout0 := hout
    simp only [Grid.inGrid, decide_eq_false_iff_not, Grid.cellIndex] at hout0
    simp only [Grid.addCircle, hout0, if_false]

/-- C11 at concrete circles: in an empty 3 x 3 grid of cells of size 100 a circle
at `(150, 150)` is appended to the middle cell, and a circle at `(-150, 50)`
leaves the grid as it was. -/
theorem addCircle_effect_scenario :
    ((Grid.new (300 : ℚ) 300 100).addCircle 5 middleBody).cellAt
        ((Grid.new (300 : ℚ) 300 100).cellIndex middleBody) =
      (Grid.new (300 : ℚ) 300 100).cellAt ((Grid.new (300 : ℚ) 300 100).cellIndex middleBody)
        ++ [5] ∧
    (Grid.new (300 : ℚ) 300 100).addCircle 5 farBody = Grid.new (300 : ℚ) 300 100 := by
  have t1 : toInt ((150 : ℚ) / 100) = 1 := by
    simp only [toInt]
    norm_num
  have t2 : toInt ((-150 : ℚ) / 100) = -1 := by
    have hneg : ¬ (0 : ℚ) ≤ -150 / 100 := by norm_num
    simp only [toInt, hneg, if_false]
    rw [Int.ceil_eq_iff]
    norm_num
  have t0 : toInt ((50 : ℚ) / 100) = 0 := by
    simp only [toInt]
    norm_num
  constructor
  · refine ((addCircle_effect (Grid.new (300 : ℚ) 300 100) new_wf_300 5 middleBody).1 ?_).1
    simp only [grid_new_300, Grid.cellIndex, Grid.inGrid, middleBody, t1]
    decide
  · refine (addCircle_effect (Grid.new (300 : ℚ) 300 100) new_wf_300 5 farBody).2 ?_
    simp only [grid_new_300, Grid.cellIndex, Grid.inGrid, farBody, t2, t0]
    decide

/-- Filling the grid keeps the number of cells. -/
theorem addAll_wf (g : Grid F) (circles : List (Circle F)) (h : g.WF) :
    (g.addAll circles).WF := by
  unfold Grid.addAll
  generalize circles.enum = l
  induction l generalizing g with
  | nil => exact h
  | cons x xs ih =>
    rw [List.foldl_cons]
    exact ih _ (addCircle_wf g x.1 x.2 h)

/-- A reference stored in a cell within the grid at most one column and one row
away from the cell of the query circle is returned by the query. -/
theorem mem_query_of_cell_close (g : Grid F) (circle : Circle F) (cell : Int × Int) (x : Nat)
    (hx : x ∈ g.cellAt cell) (hin : g.inGrid cell = true)
    (h1 : |cell.1 - (g.cellIndex circle).1| ≤ 1) (h2 : |cell.2 - (g.cellIndex circle).2| ≤ 1) :
    x ∈ g.getPotentialCollisions circle := by
  rw [getPotentialCollisions_eq_foldl, foldl_block_eq_gather, List.nil_append]
  unfold Grid.gather
  rw [List.mem_flatMap]
  refine ⟨cell, ?_, hx⟩
  rw [List.mem_filter]
  exact ⟨mem_columnMajorBlock _ _ _ _ h1 h2, hin⟩

/-- After `clear()` and one `addCircle` per circle, a circle whose cell lies
within the grid is stored in its cell, with the grid's dimensions unchanged. -/
theorem stored_after_fill (g : Grid F) (hwf : g.WF) (circles : List (Circle F)) (i : Nat)
    (hi : i < circles.length) (hin : g.inGrid (g.cellIndex circles[i]) = true) :
    i ∈ (g.clear.addAll circles).cellAt ((g.clear.addAll circles).cellIndex circles[i]) ∧
    (g.clear.addAll circles).inGrid ((g.clear.addAll circles).cellIndex circles[i]) = true := by
  obtain ⟨d1, d2, d3⟩ := addAll_dims g.clear circles
  have c1 : g.clear.cols = g.cols := rfl
  have c2 : g.clear.rows = g.rows := rfl
  have c3 : g.clear.cellSize = g.cellSize := rfl
  have hidx : (g.clear.addAll circles).cellIndex circles[i] = g.cellIndex circles[i] := by
    simp only [Grid.cellIndex, d3, c3]
  have hm : (i, circles[i]) ∈ circles.enum :=
    List.mk_mem_enum_iff_getElem?.mpr (List.getElem?_eq_getElem hi)
  rw [hidx]
  refine ⟨foldl_addCircle_mem circles.enum g.clear i circles[i] (clear_wf g hwf) hm hin, ?_⟩
  simp only [Grid.inGrid, d1, d2, c1, c2] at hin ⊢
  exact hin

/-- C14 (as stated, refuted): a circle centred at `(-150, 50)` has column -1 for
cell size 100, so `addCircle` skips it and the query for it on the 3 x 3 grid
returns nothing, not even the circle itself. -/
theorem query_misses_unindexed_body :
    ((Grid.new (300 : ℚ) 300 100).clear.addAll [farBody]).getPotentialCollisions farBody = [] ∧
    0 ∉ ((Grid.new (300 : ℚ) 300 100).clear.addAll [farBody]).getPotentialCollisions farBody := by
  have t2 : toInt ((-150 : ℚ) / 100) = -1 := by
    have hneg : ¬ (0 : ℚ) ≤ -150 / 100 := by norm_num
    simp only [toInt, hneg, if_false]
    rw [Int.ceil_eq_iff]
    norm_num
  have t0 : toInt ((50 : ℚ) / 100) = 0 := by
    simp only [toInt]
    norm_num
  have e0 : (⟨[[], [], [], [], [], [], [], [], []], 100, 3, 3⟩ : Grid ℚ).clear =
      ⟨[[], [], [], [], [], [], [], [], []], 100, 3, 3⟩ := rfl
  have e1 : (⟨[[], [], [], [], [], [], [], [], []], 100, 3, 3⟩ : Grid ℚ).addCircle 0 farBody =
      ⟨[[], [], [], [], [], [], [], [], []], 100, 3, 3⟩ := by
    simp only [Grid.addCircle, farBody, t2, t0]
    rfl
  have e : ((Grid.new (300 : ℚ) 300 100).clear.addAll [farBody]).getPotentialCollisions
      farBody = [] := by
    simp only [grid_new_300, e0, Grid.addAll, List.enum, List.enumFrom, List.foldl_cons,
      List.foldl_nil, e1]
    simp only [Grid.getPotentialCollisions, farBody, t2, t0]
    rfl
  rw [e]
  exact ⟨rfl, List.not_mem_nil 0⟩

/-- C14 (amended): after `clear()` and one `addCircle` per circle, the query for
a circle of the list whose computed cell lies within the grid returns that
circle itself among its results. -/
theorem query_contains_self (g : Grid F) (hwf : g.WF) (circles : List (Circle F)) (i : Nat)
    (hi : i < circles.length) (hin : g.inGrid (g.cellIndex circles[i]) = true) :
    i ∈ (g.clear.addAll circles).getPotentialCollisions circles[i] := by
  obtain ⟨hm, hin2⟩ := stored_after_fill g hwf circles i hi hin
  exact mem_query_of_cell_close _ _ _ _ hm hin2 (by simp) (by simp)

/-- C14 (amended) at a concrete circle: the circle at `(150, 150)`, stored as
reference 1 of a two-circle list, is returned by its own query. -/
theorem query_contains_self_scenario :
    1 ∈ ((Grid.new (300 : ℚ) 300 100).clear.addAll
      [farBody, middleBody]).getPotentialCollisions middleBody := by
  have t1 : toInt ((150 : ℚ) / 100) = 1 := by
    simp only [toInt]
    norm_num
  exact query_contains_self (Grid.new (300 : ℚ) 300 100) new_wf_300 [farBody, middleBody] 1
    (by simp) (by
      simp only [grid_new_300, Grid.cellIndex, Grid.inGrid, List.getElem_cons_succ,
        List.getElem_cons_zero, middleBody, t1]
      decide)

/-- Appending `p` to an existing cell adds one occurrence of `p` to the grid as
a whole and none of any other reference. -/
theorem count_flatten_modify (l : List (List Nat)) (n p x : Nat) :
    (l.modify (fun cell => cell ++ [p]) n).flatten.count x =
      l.flatten.count x + if n < l.length ∧ p = x then 1 else 0 := by
  induction l generalizing n with
  | nil => simp
  | cons a as ih =>
    cases n with
    | zero =>
      simp only [List.modify_zero_cons, List.flatten_cons, List.count_append,
        List.count_singleton, List.length_cons, Nat.zero_lt_succ, true_and, beq_iff_eq]
      omega
    | succ k =>
      simp only [List.modify_succ_cons, List.flatten_cons, List.count_append, ih,
        List.length_cons, Nat.succ_lt_succ_iff]
      omega

/-- After `clear()` no cell holds a reference. -/
theorem flatten_clear (l : List (List Nat)) :
    (l.map (fun _ => ([] : List Nat))).flatten = [] := by
  induction l with
  | nil => rfl
  | cons a as ih => simp

/-- The method `addCircle` adds one occurrence of the reference when the
circle's cell lies within the grid, and otherwise none. -/
theorem count_addCircle (g : Grid F) (hwf : g.WF) (p : Nat) (c : Circle F) (x : Nat) :
    (g.addCircle p c).cells.flatten.count x =
      g.cells.flatten.count x +
        if g.inGrid (g.cellIndex c) = true ∧ p = x then 1 else 0 := by
  by_cases hin : g.inGrid (g.cellIndex c) = true
  · have hlt := index_lt_of_inGrid g _ hwf hin
    have hin0 := hin
    simp only [Grid.inGrid, decide_eq_true_eq, Grid.cellIndex] at hin0
    simp only [Grid.addCircle, hin0, and_self, if_true, count_flatten_modify]
    simp only [Grid.cellIndex] at hlt
    simp only [hlt, hin, true_and]
  · have hin0 := hin
    simp only [Grid.inGrid, decide_eq_true_eq, Grid.cellIndex] at hin0
    simp only [Grid.addCircle, hin0, if_false, hin]
    simp

/-- Filling the grid adds, for each reference, one occurrence per entry of the
list that carries this reference and a circle whose cell lies within the grid. -/
theorem count_foldl_addCircle (l : List (Nat × Circle F)) (g : Grid F) (hwf : g.WF) (x : Nat) :
    (l.foldl (fun g pc => g.addCircle pc.1 pc.2) g).cells.flatten.count x =
      g.cells.flatten.count x +
        (l.filter (fun pc => decide (pc.1 = x) && g.inGrid (g.cellIndex pc.2))).length := by
  induction l generalizing g with
  | nil => simp
  | cons a as ih =>
    obtain ⟨h1, h2, h3⟩ := addCircle_dims g a.1 a.2
    have hfun : (fun pc : Nat × Circle F => decide (pc.1 = x) &&
        (g.addCircle a.1 a.2).inGrid ((g.addCircle a.1 a.2).cellIndex pc.2)) =
        (fun pc : Nat × Circle F => decide (pc.1 = x) && g.inGrid (g.cellIndex pc.2)) := by
      funext pc
      simp only [Grid.inGrid, Grid.cellIndex, h1, h2, h3]
    rw [List.foldl_cons, ih _ (addCircle_wf g a.1 a.2 hwf), hfun, count_addCircle g hwf,
      List.filter_cons]
    by_cases hc : g.inGrid (g.cellIndex a.2) = true ∧ a.1 = x
    · have hb : (decide (a.1 = x) && g.inGrid (g.cellIndex a.2)) = true := by
        simp [hc.1, hc.2]
      rw [if_pos hc, if_pos hb, List.length_cons]
      omega
    · have hb : ¬ (decide (a.1 = x) && g.inGrid (g.cellIndex a.2)) = true := by
        intro hb
        simp only [Bool.and_eq_true, decide_eq_true_eq] at hb
        exact hc ⟨hb.2, hb.1⟩
      rw [if_neg hc, if_neg hb]
      omega

omit [LinearOrderedField F] [FloorRing F] in
/-- In an enumerated list at most one entry carries a given reference: the
number of entries with reference `x` and a circle satisfying `P` is 1 when the
circle numbered `x` satisfies `P` and 0 otherwise. -/
theorem length_filter_enumFrom (P : Circle F → Bool) (l : List (Circle F)) (k x : Nat) :
    ((l.enumFrom k).filter (fun pc => decide (pc.1 = x) && P pc.2)).length =
      if k ≤ x then
        (match l[x - k]? with
          | some c => if P c = true then 1 else 0
          | none => 0)
      else 0 := by
  induction l generalizing k with
  | nil => simp
  | cons a as ih =>
    rw [List.enumFrom_cons, List.filter_cons]
    have ih1 := ih (k + 1)
    rcases Nat.lt_trichotomy k x with hlt | heq | hgt
    · have e : x - k = (x - (k + 1)) + 1 := by omega
      have hne : ¬ k = x := by omega
      have hb : ¬ (decide ((k, a).1 = x) && P (k, a).2) = true := by simp [hne]
      rw [if_neg hb, ih1, if_pos (by omega : k + 1 ≤ x), if_pos (by omega : k ≤ x), e,
        List.getElem?_cons_succ]
    · subst heq
      rw [if_neg (by omega : ¬ k + 1 ≤ k)] at ih1
      rw [if_pos le_rfl, Nat.sub_self, List.getElem?_cons_zero]
      by_cases hP : P a = true
      · have hb : (decide ((k, a).1 = k) && P (k, a).2) = true := by simp [hP]
        rw [if_pos hb, List.length_cons, ih1]
        simp [hP]
      · have hb : ¬ (decide ((k, a).1 = k) && P (k, a).2) = true := by simp [hP]
        rw [if_neg hb, ih1]
        simp [hP]
    · have hne : ¬ k = x := by omega
      have hb : ¬ (decide ((k, a).1 = x) && P (k, a).2) = true := by simp [hne]
      rw [if_neg hb, ih1, if_neg (by omega : ¬ k + 1 ≤ x), if_neg (by omega : ¬ k ≤ x)]

/-- The number of occurrences of a reference over all cells after `clear()` and
one `addCircle` per circle: 1 for the index of a circle whose cell lies within
the grid, 0 for every other number. -/
theorem count_after_fill (g : Grid F) (hwf : g.WF) (circles : List (Circle F)) (x : Nat) :
    (g.clear.addAll circles).cells.flatten.count x =
      match circles[x]? with
      | some c => if g.inGrid (g.cellIndex c) = true then 1 else 0
      | none => 0 := by
  have hcl : g.clear.cells.flatten = [] := flatten_clear g.cells
  have hfun : (fun pc : Nat × Circle F => decide (pc.1 = x) &&
      g.clear.inGrid (g.clear.cellIndex pc.2)) =
      (fun pc : Nat × Circle F => decide (pc.1 = x) && g.inGrid (g.cellIndex pc.2)) := rfl
  unfold Grid.addAll
  rw [count_foldl_addCircle _ _ (clear_wf g hwf), hcl, hfun, List.enum,
    length_filter_enumFrom (fun c => g.inGrid (g.cellIndex c))]
  simp

/-- A coordinate inside the grid area is converted to the index of the column
(or row) of width `cellSize` that contains it. -/
theorem toInt_contains (cs x : F) (n : Int) (hcs : 0 < cs) (h0 : 0 ≤ x) (h1 : x < n * cs) :
    0 ≤ toInt (x / cs) ∧ toInt (x / cs) < n ∧
    (toInt (x / cs) : F) * cs ≤ x ∧ x < ((toInt (x / cs) : F) + 1) * cs := by
  have hq : 0 ≤ x / cs := div_nonneg h0 hcs.le
  have e : toInt (x / cs) = ⌊x / cs⌋ := by
    unfold toInt
    rw [if_pos hq]
  rw [e]
  refine ⟨Int.floor_nonneg.mpr hq, ?_, ?_, ?_⟩
  · rw [Int.floor_lt, div_lt_iff₀ hcs]
    exact h1
  · rw [← le_div_iff₀ hcs]
    exact Int.floor_le _
  · rw [← div_lt_iff₀ hcs]
    exact Int.lt_floor_add_one _

end Index

/-! ## The collision pass -/

section Pass

variable {F : Type} [LinearOrderedField F]

/-- Writing back the value an entry already has changes nothing. -/
theorem set_eq_self_of_getElem? {α : Type} (l : List α) (i : Nat) (a : α)
    (h : l[i]? = some a) : l.set i a = l := by
  induction l generalizing i with
  | nil => rfl
  | cons x xs ih =>
    cases i with
    | zero =>
      simp only [List.getElem?_cons_zero, Option.some.injEq] at h
      rw [List.set_cons_zero, h]
    | succ k =>
      rw [List.getElem?_cons_succ] at h
      rw [List.set_cons_succ, ih k h]

/-- Moving the entry `k` of a list to the front and putting `x` in its place
rearranges the list with `x` in front. -/
theorem perm_cons_set {α : Type} (xs : List α) (k : Nat) (x y : α) (h : xs[k]? = some y) :
    (y :: xs.set k x).Perm (x :: xs) := by
  induction xs generalizing k with
  | nil => simp at h
  | cons z zs ih =>
    cases k with
    | zero =>
      simp only [List.getElem?_cons_zero, Option.some.injEq] at h
      rw [List.set_cons_zero, h]
      exact List.Perm.swap x y zs
    | succ j =>
      rw [List.getElem?_cons_succ] at h
      rw [List.set_cons_succ]
      exact ((List.Perm.swap z y (zs.set j x)).trans ((ih j h).cons z)).trans
        (List.Perm.swap x z zs)

/-- Exchanging two entries of a list rearranges it. -/
theorem perm_set_swap {α : Type} (l : List α) (i j : Nat) (x y : α) (hi : l[i]? = some x)
    (hj : l[j]? = some y) (hij : i ≠ j) : ((l.set i y).set j x).Perm l := by
  induction l generalizing i j with
  | nil => simp at hi
  | cons z zs ih =>
    cases i with
    | zero =>
      cases j with
      | zero => exact absurd rfl hij
      | succ j =>
        simp only [List.getElem?_cons_zero, Option.some.injEq] at hi
        rw [List.getElem?_cons_succ] at hj
        rw [List.set_cons_zero, List.set_cons_succ, ← hi]
        exact perm_cons_set zs j z y hj
    | succ i =>
      cases j with
      | zero =>
        simp only [List.getElem?_cons_zero, Option.some.injEq] at hj
        rw [List.getElem?_cons_succ] at hi
        rw [List.set_cons_succ, List.set_cons_zero, ← hj]
        exact perm_cons_set zs i z x hi
      | succ j =>
        rw [List.getElem?_cons_succ] at hi hj
        rw [List.set_cons_succ, List.set_cons_succ]
        exact (ih i j hi hj (fun e => hij (congrArg Nat.succ e))).cons z

/-- The method `resolveCollision` either keeps both velocities or exchanges them. -/
theorem resolveCollision_velocity_cases (sqrt : F → F) (a b : Circle F) :
    ((a.resolveCollision sqrt b).1.velocity = a.velocity ∧
      (a.resolveCollision sqrt b).2.velocity = b.velocity) ∨
    ((a.resolveCollision sqrt b).1.velocity = b.velocity ∧
      (a.resolveCollision sqrt b).2.velocity = a.velocity) := by
  unfold Circle.resolveCollision
  simp only []
  split_ifs
  · exact Or.inl ⟨rfl, rfl⟩
  · exact Or.inr ⟨rfl, rfl⟩

/-- The method `resolveCollision` keeps both radii. -/
theorem resolveCollision_radius (sqrt : F → F) (a b : Circle F) :
    (a.resolveCollision sqrt b).1.radius = a.radius ∧
    (a.resolveCollision sqrt b).2.radius = b.radius := by
  unfold Circle.resolveCollision
  simp only []
  split_ifs <;> exact ⟨rfl, rfl⟩

/-- One round of the inner loop of `checkCollisions` rearranges the velocities
and keeps the radii. -/
theorem checkCollisionsStep_invariant (sqrt : F → F) (i other : Nat)
    (st : List (Circle F) × List (Nat × Nat)) :
    (((checkCollisionsStep sqrt i st other).1.map Circle.velocity).Perm
      (st.1.map Circle.velocity)) ∧
    (checkCollisionsStep sqrt i st other).1.map Circle.radius = st.1.map Circle.radius := by
  unfold checkCollisionsStep
  cases hi : st.1[i]? with
  | none => exact ⟨List.Perm.refl _, rfl⟩
  | some self =>
    cases ho : st.1[other]? with
    | none => exact ⟨List.Perm.refl _, rfl⟩
    | some o =>
      simp only []
      split_ifs with hc
      · have hvi : (st.1.map Circle.velocity)[i]? = some self.velocity := by
          rw [List.getElem?_map, hi]
          rfl
        have hvo : (st.1.map Circle.velocity)[other]? = some o.velocity := by
          rw [List.getElem?_map, ho]
          rfl
        have hri : (st.1.map Circle.radius)[i]? = some self.radius := by
          rw [List.getElem?_map, hi]
          rfl
        have hro : (st.1.map Circle.radius)[other]? = some o.radius := by
          rw [List.getElem?_map, ho]
          rfl
        obtain ⟨r1, r2⟩ := resolveCollision_radius sqrt self o
        simp only [List.map_set, r1, r2]
        constructor
        · rcases resolveCollision_velocity_cases sqrt self o with ⟨v1, v2⟩ | ⟨v1, v2⟩
          · rw [v1, v2, set_eq_self_of_getElem? _ _ _ hvi, set_eq_self_of_getElem? _ _ _ hvo]
          · rw [v1, v2]
            exact perm_set_swap _ i other _ _ hvi hvo hc.1
        · rw [set_eq_self_of_getElem? _ _ _ hri, set_eq_self_of_getElem? _ _ _ hro]
      · exact ⟨List.Perm.refl _, rfl⟩

/-- The inner loop of `checkCollisions` rearranges the velocities and keeps the radii. -/
theorem checkCollisions_inner_invariant (sqrt : F → F) (i : Nat) (potential : List Nat)
    (st : List (Circle F) × List (Nat × Nat)) :
    (((potential.foldl (checkCollisionsStep sqrt i) st).1.map Circle.velocity).Perm
      (st.1.map Circle.velocity)) ∧
    (potential.foldl (checkCollisionsStep sqrt i) st).1.map Circle.radius =
      st.1.map Circle.radius := by
  induction potential generalizing st with
  | nil => exact ⟨List.Perm.refl _, rfl⟩
  | cons r rs ih =>
    rw [List.foldl_cons]
    obtain ⟨h1, h2⟩ := ih (checkCollisionsStep sqrt i st r)
    obtain ⟨k1, k2⟩ := checkCollisionsStep_invariant sqrt i r st
    exact ⟨h1.trans k1, h2.trans k2⟩

end Pass

section PassGrid

variable {F : Type} [LinearOrderedField F] [FloorRing F]

/-- After `clear()` and one `addCircle` per circle, every reference stored in
the grid is an index into the vector of circles. -/
theorem refs_after_fill (g : Grid F) (hwf : g.WF) (circles : List (Circle F)) :
    ∀ cell ∈ (g.clear.addAll circles).cells, ∀ r ∈ cell, r < circles.length := by
  intro cell hcell r hr
  have hmem : r ∈ (g.clear.addAll circles).cells.flatten := List.mem_flatten.mpr ⟨cell, hcell, hr⟩
  have hpos : 0 < (g.clear.addAll circles).cells.flatten.count r := List.count_pos_iff.mpr hmem
  rw [count_after_fill g hwf] at hpos
  by_contra hlt
  rw [List.getElem?_eq_none (not_lt.mp hlt)] at hpos
  exact absurd hpos (lt_irrefl 0)

/-- Every reference returned by a query is stored in some cell of the grid. -/
theorem query_subset_cells (g : Grid F) (circle : Circle F) (r : Nat)
    (h : r ∈ g.getPotentialCollisions circle) : ∃ cell ∈ g.cells, r ∈ cell := by
  rw [getPotentialCollisions_eq_foldl, foldl_block_eq_gather, List.nil_append] at h
  unfold Grid.gather at h
  obtain ⟨c, -, hc⟩ := List.mem_flatMap.mp h
  unfold Grid.cellAt at hc
  rw [List.getD_eq_getElem?_getD] at hc
  cases hn : g.cells[(c.1 + c.2 * g.cols).toNat]? with
  | none =>
    rw [hn] at hc
    simp at hc
  | some cell =>
    rw [hn] at hc
    exact ⟨cell, List.getElem?_mem hn, hc⟩

/-- The outer loop of `checkCollisions`, run over any list of indices, rearranges
the velocities and keeps the radii. -/
theorem checkCollisions_outer_invariant (sqrt : F → F) (g : Grid F) (idxs : List Nat)
    (st : List (Circle F) × List (Nat × Nat)) :
    (((idxs.foldl (fun st i =>
        match st.1[i]? with
        | some self => (g.getPotentialCollisions self).foldl (checkCollisionsStep sqrt i) st
        | none => st) st).1.map Circle.velocity).Perm (st.1.map Circle.velocity)) ∧
    (idxs.foldl (fun st i =>
        match st.1[i]? with
        | some self => (g.getPotentialCollisions self).foldl (checkCollisionsStep sqrt i) st
        | none => st) st).1.map Circle.radius = st.1.map Circle.radius := by
  induction idxs generalizing st with
  | nil => exact ⟨List.Perm.refl _, rfl⟩
  | cons i is ih =>
    rw [List.foldl_cons]
    cases hi : st.1[i]? with
    | none =>
      simp only []
      exact ih st
    | some self =>
      simp only []
      obtain ⟨h1, h2⟩ := ih ((g.getPotentialCollisions self).foldl (checkCollisionsStep sqrt i) st)
      obtain ⟨k1, k2⟩ := checkCollisions_inner_invariant sqrt i (g.getPotentialCollisions self) st
      exact ⟨h1.trans k1, h2.trans k2⟩

/-- C17: for a grid whose cells reference circles of the vector, the circles
after `checkCollisions` carry the same velocity vectors as before, rearranged
(the two multisets are equal), so the sums of the velocity components and of
the squared speeds are unchanged; and every circle keeps its radius. -/
theorem checkCollisions_permutes_velocities (sqrt : F → F) (circles : List (Circle F))
    (g : Grid F) (_href : ∀ cell ∈ g.cells, ∀ r ∈ cell, r < circles.length) :
    (((checkCollisions sqrt circles g).map Circle.velocity).Perm
      (circles.map Circle.velocity)) ∧
    (checkCollisions sqrt circles g).map Circle.radius = circles.map Circle.radius ∧
    ((checkCollisions sqrt circles g).map (fun c => c.velocity.x)).sum =
      (circles.map (fun c => c.velocity.x)).sum ∧
    ((checkCollisions sqrt circles g).map (fun c => c.velocity.y)).sum =
      (circles.map (fun c => c.velocity.y)).sum ∧
    ((checkCollisions sqrt circles g).map
        (fun c => c.velocity.x ^ 2 + c.velocity.y ^ 2)).sum =
      (circles.map (fun c => c.velocity.x ^ 2 + c.velocity.y ^ 2)).sum := by
  obtain ⟨hp, hr⟩ := checkCollisions_outer_invariant sqrt g (List.range circles.length)
    (circles, [])
  have hp1 : ((checkCollisions sqrt circles g).map Circle.velocity).Perm
      (circles.map Circle.velocity) := hp
  have hsum : ∀ f : Vector2 F → F,
      ((checkCollisions sqrt circles g).map (fun c => f c.velocity)).sum =
        (circles.map (fun c => f c.velocity)).sum := by
    intro f
    have h := (hp1.map f).sum_eq
    simpa only [List.map_map, Function.comp_def] using h
  exact ⟨hp1, hr, hsum (fun v => v.x), hsum (fun v => v.y), hsum (fun v => v.x ^ 2 + v.y ^ 2)⟩

/-- C17 at the specification's scenario: after the pass over the two bodies of
radius 50 at `(100, 400)` and `(180, 400)` in the grid of `main`, the velocities
are those of before, rearranged, and their x-components still sum to 0. -/
theorem checkCollisions_permutes_velocities_scenario :
    (((checkCollisions Real.sqrt [leftBody, rightBody]
        ((Grid.new (800 : ℝ) 800 100).clear.addAll [leftBody, rightBody])).map
          Circle.velocity).Perm [⟨50, 0⟩, ⟨-50, 0⟩]) ∧
    ((checkCollisions Real.sqrt [leftBody, rightBody]
        ((Grid.new (800 : ℝ) 800 100).clear.addAll [leftBody, rightBody])).map
          (fun c => c.velocity.x)).sum = 0 := by
  have h := checkCollisions_permutes_velocities Real.sqrt [leftBody, rightBody]
    ((Grid.new (800 : ℝ) 800 100).clear.addAll [leftBody, rightBody])
    (refs_after_fill _ new_wf_main _)
  refine ⟨h.1, h.2.2.1.trans ?_⟩
  norm_num [leftBody, rightBody]

omit [FloorRing F] in
/-- Two overlapping circles with distinct centres are, after `resolveCollision`,
exactly touching: the overlap test fails for the pair in both orders. -/
theorem resolveCollision_then_apart (sqrt : F → F) (hs : IsSqrt sqrt) (a b : Circle F)
    (hne : a.position ≠ b.position) (hov : a.checkCollisionWith sqrt b = true) :
    (a.resolveCollision sqrt b).1.checkCollisionWith sqrt (a.resolveCollision sqrt b).2 = false ∧
    (a.resolveCollision sqrt b).2.checkCollisionWith sqrt (a.resolveCollision sqrt b).1 = false := by
  have hnn : 0 ≤ (a.position.x - b.position.x) * (a.position.x - b.position.x) +
      (a.position.y - b.position.y) * (a.position.y - b.position.y) :=
    add_nonneg (mul_self_nonneg _) (mul_self_nonneg _)
  obtain ⟨hd0, hsq⟩ := hs _ hnn
  have h0 : sqrt ((a.position.x - b.position.x) * (a.position.x - b.position.x) +
      (a.position.y - b.position.y) * (a.position.y - b.position.y)) ≠ 0 := by
    rw [resolve_distance_eq_euclid sqrt a b]
    exact euclid_ne_zero hs hne
  have hR : 0 ≤ a.radius + b.radius := by
    have h : euclid sqrt a.position b.position < a.radius + b.radius := by
      simpa [Circle.checkCollisionWith, euclid] using hov
    rw [← resolve_distance_eq_euclid sqrt a b] at h
    linarith
  obtain ⟨r1, r2⟩ := resolveCollision_radius sqrt a b
  have key : euclid sqrt (a.resolveCollision sqrt b).1.position
      (a.resolveCollision sqrt b).2.position = a.radius + b.radius := by
    apply euclid_eq_of_mul_self hs _ _ hR
    unfold Circle.resolveCollision
    simp only [h0, if_false]
    generalize sqrt ((a.position.x - b.position.x) * (a.position.x - b.position.x) +
        (a.position.y - b.position.y) * (a.position.y - b.position.y)) = d at hsq h0 ⊢
    field_simp
    linear_combination (4 * (a.radius + b.radius) ^ 2) * hsq
  have key2 : euclid sqrt (a.resolveCollision sqrt b).2.position
      (a.resolveCollision sqrt b).1.position = a.radius + b.radius := by
    rw [← key]
    unfold euclid
    congr 1
    ring
  constructor
  · simp only [Circle.checkCollisionWith, decide_eq_false_iff_not, not_lt]
    have e := key
    unfold euclid at e
    rw [e, r1, r2]
  · simp only [Circle.checkCollisionWith, decide_eq_false_iff_not, not_lt]
    have e := key2
    unfold euclid at e
    rw [e, r1, r2, add_comm]

omit [FloorRing F] in
/-- The inner loop of `checkCollisions` over two circles that do not overlap
calls nothing and changes nothing. -/
theorem inner_noop_of_apart (sqrt : F → F) (x y : Circle F) (i : Nat)
    (hxy : x.checkCollisionWith sqrt y = false) (hyx : y.checkCollisionWith sqrt x = false)
    (potential : List Nat) (hp : ∀ r ∈ potential, r < 2) (log : List (Nat × Nat)) :
    potential.foldl (checkCollisionsStep sqrt i) ([x, y], log) = ([x, y], log) := by
  induction potential with
  | nil => rfl
  | cons r rs ih =>
    have hr : r < 2 := hp r (List.mem_cons_self r rs)
    have hstep : checkCollisionsStep sqrt i ([x, y], log) r = ([x, y], log) := by
      unfold checkCollisionsStep
      rcases Nat.lt_trichotomy i 1 with hi | hi | hi
      · have hi0 : i = 0 := by omega
        subst hi0
        interval_cases r <;> simp [hxy]
      · subst hi
        interval_cases r <;> simp [hyx]
      · have hnone : ([x, y] : List (Circle F))[i]? = none :=
          List.getElem?_eq_none (by simp; omega)
        simp only [hnone]
    rw [List.foldl_cons, hstep]
    exact ih (fun r hr => hp r (List.mem_cons_of_mem _ hr))

omit [FloorRing F] in
/-- The inner loop of `checkCollisions` for the first of two overlapping circles
with distinct centres calls `resolveCollision` once if the second circle is
among the candidates, and not at all otherwise. -/
theorem inner_first_of_pair (sqrt : F → F) (hs : IsSqrt sqrt) (a b : Circle F)
    (hne : a.position ≠ b.position) (hov : a.checkCollisionWith sqrt b = true)
    (potential : List Nat) (hp : ∀ r ∈ potential, r < 2) (log : List (Nat × Nat)) :
    potential.foldl (checkCollisionsStep sqrt 0) ([a, b], log) =
      if 1 ∈ potential then
        ([(a.resolveCollision sqrt b).1, (a.resolveCollision sqrt b).2], log ++ [(0, 1)])
      else ([a, b], log) := by
  obtain ⟨n1, n2⟩ := resolveCollision_then_apart sqrt hs a b hne hov
  induction potential with
  | nil => rfl
  | cons r rs ih =>
    have hr : r < 2 := hp r (List.mem_cons_self r rs)
    have hrs : ∀ r ∈ rs, r < 2 := fun r hr => hp r (List.mem_cons_of_mem _ hr)
    rw [List.foldl_cons]
    interval_cases r
    · have hstep : checkCollisionsStep sqrt 0 ([a, b], log) 0 = ([a, b], log) := by
        simp [checkCollisionsStep]
      rw [hstep, ih hrs]
      simp
    · have hstep : checkCollisionsStep sqrt 0 ([a, b], log) 1 =
          ([(a.resolveCollision sqrt b).1, (a.resolveCollision sqrt b).2],
            log ++ [(0, 1)]) := by
        simp [checkCollisionsStep, hov]
      rw [hstep, inner_noop_of_apart sqrt _ _ 0 n1 n2 rs hrs]
      simp

/-- A pass of `checkCollisions` over two overlapping circles with distinct
centres, on a grid whose queries return only the references 0 and 1 and
return the second circle for the first: `resolveCollision` is called exactly
once, for the first circle with the second as argument. -/
theorem pair_pass (sqrt : F → F) (hs : IsSqrt sqrt) (g : Grid F) (a b : Circle F)
    (hne : a.position ≠ b.position) (hov : a.checkCollisionWith sqrt b = true)
    (hrefs : ∀ cell ∈ g.cells, ∀ r ∈ cell, r < 2)
    (h1 : 1 ∈ g.getPotentialCollisions a) :
    checkCollisionsLog sqrt [a, b] g =
      ([(a.resolveCollision sqrt b).1, (a.resolveCollision sqrt b).2], [(0, 1)]) := by
  have hq : ∀ (c : Circle F), ∀ r ∈ g.getPotentialCollisions c, r < 2 := by
    intro c r hr
    obtain ⟨cell, hcell, hrc⟩ := query_subset_cells g c r hr
    exact hrefs cell hcell r hrc
  obtain ⟨n1, n2⟩ := resolveCollision_then_apart sqrt hs a b hne hov
  have hrange : List.range ([a, b] : List (Circle F)).length = [0, 1] := rfl
  unfold checkCollisionsLog
  rw [hrange, List.foldl_cons, List.foldl_cons, List.foldl_nil]
  simp only [List.getElem?_cons_zero]
  rw [inner_first_of_pair sqrt hs a b hne hov _ (hq a) [], if_pos h1]
  simp only [List.getElem?_cons_succ, List.getElem?_cons_zero, List.nil_append]
  exact inner_noop_of_apart sqrt _ _ 1 n1 n2 _ (hq _) _

/-- After `clear()` and one `addCircle` per circle, a circle whose cell lies
within the grid, at most one column and one row from the cell of another
circle, is returned by the query for that other circle. -/
theorem query_after_fill (g : Grid F) (hwf : g.WF) (circles : List (Circle F)) (i j : Nat)
    (hi : i < circles.length) (hj : j < circles.length)
    (hin : g.inGrid (g.cellIndex circles[j]) = true)
    (h1 : |(g.cellIndex circles[j]).1 - (g.cellIndex circles[i]).1| ≤ 1)
    (h2 : |(g.cellIndex circles[j]).2 - (g.cellIndex circles[i]).2| ≤ 1) :
    j ∈ (g.clear.addAll circles).getPotentialCollisions circles[i] := by
  obtain ⟨hm, hin2⟩ := stored_after_fill g hwf circles j hj hin
  obtain ⟨-, -, d3⟩ := addAll_dims g.clear circles
  have c3 : g.clear.cellSize = g.cellSize := rfl
  have hidx : ∀ c : Circle F, (g.clear.addAll circles).cellIndex c = g.cellIndex c := by
    intro c
    simp only [Grid.cellIndex, d3, c3]
  apply mem_query_of_cell_close _ _ _ _ hm hin2
  · rw [hidx, hidx]
    exact h1
  · rw [hidx, hidx]
    exact h2

/-- The cells of the three scenario bodies in the grid of `main`:
`leftBody` and `rightBody` lie in cell `(1, 4)`, `nearBody` in cell `(0, 3)`,
and both cells lie within the 8 x 8 grid. -/
theorem mainGrid_cells :
    (Grid.new (800 : ℝ) 800 100).cellIndex leftBody = (1, 4) ∧
    (Grid.new (800 : ℝ) 800 100).cellIndex rightBody = (1, 4) ∧
    (Grid.new (800 : ℝ) 800 100).cellIndex nearBody = (0, 3) ∧
    (Grid.new (800 : ℝ) 800 100).inGrid (1, 4) = true ∧
    (Grid.new (800 : ℝ) 800 100).inGrid (0, 3) = true := by
  have t8 : toInt ((800 : ℝ) / 100) = 8 := by
    simp only [toInt]
    norm_num
  have t1 : toInt ((100 : ℝ) / 100) = 1 := by
    simp only [toInt]
    norm_num
  have t18 : toInt ((180 : ℝ) / 100) = 1 := by
    simp only [toInt]
    norm_num
  have t4 : toInt ((400 : ℝ) / 100) = 4 := by
    simp only [toInt]
    norm_num
  have t0 : toInt ((60 : ℝ) / 100) = 0 := by
    simp only [toInt]
    norm_num
  have t3 : toInt ((370 : ℝ) / 100) = 3 := by
    simp only [toInt]
    norm_num
  refine ⟨?_, ?_, ?_, ?_, ?_⟩
  · simp only [Grid.cellIndex, Grid.new, leftBody, t1, t4]
  · simp only [Grid.cellIndex, Grid.new, rightBody, t18, t4]
  · simp only [Grid.cellIndex, Grid.new, nearBody, t0, t3]
  · simp only [Grid.inGrid, Grid.new, t8]
    decide
  · simp only [Grid.inGrid, Grid.new, t8]
    decide

end PassGrid

/-! ## Circle against circle over the machine arithmetic -/

section MachinePairs

/-- Unfolding of the `float` sum of `Arith.ieee`. -/
theorem ieee_add (a b : ℚ) : Arith.ieee.add a b = round32 (a + b) := rfl

/-- Unfolding of the `float` difference of `Arith.ieee`. -/
theorem ieee_sub (a b : ℚ) : Arith.ieee.sub a b = round32 (a - b) := rfl

/-- Unfolding of the `float` product of `Arith.ieee`. -/
theorem ieee_mul (a b : ℚ) : Arith.ieee.mul a b = round32 (a * b) := rfl

/-- Unfolding of the `float` quotient of `Arith.ieee`. -/
theorem ieee_div (a b : ℚ) : Arith.ieee.div a b = round32 (a / b) := rfl

/-- Unfolding of the `float` square root of `Arith.ieee`. -/
theorem ieee_sqrt (a : ℚ) : Arith.ieee.sqrt a = sqrtTo 24 (-126) a := rfl

/-- Unfolding of the comparison with zero of `Arith.ieee`. -/
theorem ieee_isZero (a : ℚ) : Arith.ieee.isZero a = decide (a = 0) := rfl

/-- Unfolding of the comparison of `Arith.ieee`. -/
theorem ieee_lt (a b : ℚ) : Arith.ieee.lt a b = decide (a < b) := rfl

/-- Unfolding of the promotion to `double` of `Arith.ieee`. -/
theorem ieee_toDouble (a : ℚ) : Arith.ieee.toDouble a = a := rfl

/-- Unfolding of `pow(x, 2)` of `Arith.ieee`. -/
theorem ieee_pow2 (a : ℚ) : Arith.ieee.pow2 a = round64 (a * a) := rfl

/-- Unfolding of the `double` sum of `Arith.ieee`. -/
theorem ieee_addD (a b : ℚ) : Arith.ieee.addD a b = round64 (a + b) := rfl

/-- Unfolding of the `double` square root of `Arith.ieee`. -/
theorem ieee_sqrtD (a : ℚ) : Arith.ieee.sqrtD a = sqrtTo 53 (-1022) a := rfl

/-- Unfolding of the conversion to `float` of `Arith.ieee`. -/
theorem ieee_toFloat (a : ℚ) : Arith.ieee.toFloat a = round32 a := rfl

/-- Unfolding of the cast to `int` of `Arith.ieee`. -/
theorem ieee_toInt (a : ℚ) : Arith.ieee.toInt a = toInt a := rfl

/-- In every arithmetic `resolveCollision` returns at once, changing nothing,
when the computed distance compares equal to zero. -/
theorem resolveCollisionOn_of_zero {G D : Type} (o : Arith G D) (x y : Circle G)
    (h : o.isZero (x.distanceOn o y) = true) : x.resolveCollisionOn o y = (x, y) := by
  unfold Circle.distanceOn at h
  unfold Circle.resolveCollisionOn
  simp only [h, if_true]

/-- In every arithmetic, when the computed distance does not compare equal to
zero, `resolveCollision` exchanges the velocities and adds to the one position
the correction vector it subtracts from the other. -/
theorem resolveCollisionOn_of_nonzero {G D : Type} (o : Arith G D) (x y : Circle G)
    (h : o.isZero (x.distanceOn o y) = false) :
    x.resolveCollisionOn o y =
      (⟨⟨o.add x.position.x (x.correctionOn o y).x, o.add x.position.y (x.correctionOn o y).y⟩,
          x.thickness, y.velocity, x.radius⟩,
        ⟨⟨o.sub y.position.x (x.correctionOn o y).x, o.sub y.position.y (x.correctionOn o y).y⟩,
          y.thickness, x.velocity, y.radius⟩) := by
  unfold Circle.distanceOn at h
  unfold Circle.resolveCollisionOn Circle.correctionOn Circle.distanceOn
  simp only [h, Bool.false_eq_true, if_false]

/-- In every arithmetic `resolveCollision` leaves both radii as they were. -/
theorem resolveCollisionOn_radius {G D : Type} (o : Arith G D) (x y : Circle G) :
    (x.resolveCollisionOn o y).1.radius = x.radius ∧
    (x.resolveCollisionOn o y).2.radius = y.radius := by
  unfold Circle.resolveCollisionOn
  simp only []
  split_ifs <;> exact ⟨rfl, rfl⟩

/-- Over the exact arithmetic `resolveCollisionOn` is `resolveCollision`. -/
theorem resolveCollisionOn_exact {F : Type} [LinearOrderedField F] [FloorRing F]
    (sqrt : F → F) (a b : Circle F) :
    a.resolveCollisionOn (Arith.exact sqrt) b = a.resolveCollision sqrt b := by
  unfold Circle.resolveCollisionOn Circle.resolveCollision
  simp only [Arith.exact, decide_eq_true_eq]

/-- Over the exact arithmetic `checkCollisionWithOn` is `checkCollisionWith`. -/
theorem checkCollisionWithOn_exact {F : Type} [LinearOrderedField F] [FloorRing F]
    (sqrt : F → F) (a b : Circle F) :
    a.checkCollisionWithOn (Arith.exact sqrt) b = a.checkCollisionWith sqrt b := rfl

/-- The test of `checkCollisionWith` compares the stored distance with the
`float` sum of the radii. -/
theorem checkCollisionWithOn_eq {G D : Type} (o : Arith G D) (x y : Circle G) :
    x.checkCollisionWithOn o y = o.lt (x.measuredOn o y) (o.add x.radius y.radius) := rfl

/-- Over the exact arithmetic the distance of `resolveCollision` is the root of
the sum of the two squares. -/
theorem distanceOn_exact {F : Type} [LinearOrderedField F] [FloorRing F]
    (sqrt : F → F) (a b : Circle F) :
    a.distanceOn (Arith.exact sqrt) b =
      sqrt ((a.position.x - b.position.x) * (a.position.x - b.position.x) +
        (a.position.y - b.position.y) * (a.position.y - b.position.y)) := rfl

/-- Over the exact arithmetic the distance of `checkCollisionWith` is the
Euclidean distance of the centres. -/
theorem measuredOn_exact {F : Type} [LinearOrderedField F] [FloorRing F]
    (sqrt : F → F) (a b : Circle F) :
    a.measuredOn (Arith.exact sqrt) b = euclid sqrt a.position b.position := rfl

/-- The distance of `resolveCollision` in `float` arithmetic: every operation
rounds to binary32. -/
theorem distanceOn_ieee (x y : Circle ℚ) :
    x.distanceOn Arith.ieee y = sqrtTo 24 (-126) (round32
      (round32 (round32 (x.position.x - y.position.x) * round32 (x.position.x - y.position.x)) +
       round32 (round32 (x.position.y - y.position.y) *
         round32 (x.position.y - y.position.y)))) := by
  simp only [Circle.distanceOn, ieee_sub, ieee_mul, ieee_add, ieee_sqrt]

/-- The distance of `checkCollisionWith` in machine arithmetic: the differences
round to binary32, the squares, their sum and the root to binary64, and the
root is then rounded to binary32. -/
theorem measuredOn_ieee (x y : Circle ℚ) :
    x.measuredOn Arith.ieee y = round32 (sqrtTo 53 (-1022) (round64
      (round64 (round32 (x.position.x - y.position.x) * round32 (x.position.x - y.position.x)) +
       round64 (round32 (x.position.y - y.position.y) *
         round32 (x.position.y - y.position.y))))) := by
  simp only [Circle.measuredOn, ieee_sub, ieee_toDouble, ieee_pow2, ieee_addD, ieee_sqrtD,
    ieee_toFloat]

/-- Unfolding of the literal `0.5f` of `Arith.ieee`. -/
theorem ieee_half : Arith.ieee.half = 1 / 2 := rfl

/-- The method `resolveCollision` in `float` arithmetic, for a computed distance
`d` other than zero: every operation rounds to binary32. -/
theorem resolveOn_ieee_eq (x y : Circle ℚ) (d : ℚ) (hd : x.distanceOn Arith.ieee y = d)
    (h0 : d ≠ 0) :
    x.resolveCollisionOn Arith.ieee y =
      (⟨⟨round32 (x.position.x + round32 (round32 (round32 (x.position.x - y.position.x) / d) *
              round32 (round32 (round32 (x.radius + y.radius) - d) * (1 / 2)))),
            round32 (x.position.y + round32 (round32 (round32 (x.position.y - y.position.y) / d) *
              round32 (round32 (round32 (x.radius + y.radius) - d) * (1 / 2))))⟩,
          x.thickness, y.velocity, x.radius⟩,
        ⟨⟨round32 (y.position.x - round32 (round32 (round32 (x.position.x - y.position.x) / d) *
              round32 (round32 (round32 (x.radius + y.radius) - d) * (1 / 2)))),
            round32 (y.position.y - round32 (round32 (round32 (x.position.y - y.position.y) / d) *
              round32 (round32 (round32 (x.radius + y.radius) - d) * (1 / 2))))⟩,
          y.thickness, x.velocity, y.radius⟩) := by
  have hz : Arith.ieee.isZero (x.distanceOn Arith.ieee y) = false := by
    rw [hd, ieee_isZero]
    exact decide_eq_false h0
  rw [resolveCollisionOn_of_nonzero Arith.ieee x y hz]
  simp only [Circle.correctionOn, hd, ieee_add, ieee_sub, ieee_mul, ieee_div, ieee_half]

/-- The fields of `originBody`. -/
theorem originBody_fields :
    originBody.position.x = 0 ∧ originBody.position.y = 0 ∧ originBody.radius = 50 ∧
    originBody.velocity = ⟨50, 0⟩ := ⟨rfl, rfl, rfl, rfl⟩

/-- The fields of `closeBody`. -/
theorem closeBody_fields :
    closeBody.position.x = 1 / 1267650600228229401496703205376 ∧ closeBody.position.y = 0 ∧
    closeBody.radius = 50 ∧ closeBody.velocity = ⟨-50, 0⟩ := ⟨rfl, rfl, rfl, rfl⟩

/-- Zero is a `float`. -/
theorem round32_zero : round32 0 = 0 := roundTo_zero 24 (-126)

/-- In `float` arithmetic the distance `resolveCollision` computes between the
centres `(0, 0)` and `(2^-100, 0)` is zero: the difference `-2^-100` is exact,
its square `2^-200` lies below half the least positive `float` `2^-149` and
rounds to zero. -/
theorem distanceOn_ieee_close : originBody.distanceOn Arith.ieee closeBody = 0 := by
  have h1 : round32 (0 - 1 / 1267650600228229401496703205376) =
      -(1 / 1267650600228229401496703205376) := by
    have h := roundTo_eq 24 (-126) (0 - 1 / 1267650600228229401496703205376) (-100) (-123)
      (-8388608)
      (by norm_num) (by norm_num [abs_of_pos]) (by norm_num [abs_of_pos])
      (by norm_num) (by norm_num) (by norm_num)
    unfold round32
    rw [h]
    norm_num
  have h3 : round32 (-(1 / 1267650600228229401496703205376) *
      -(1 / 1267650600228229401496703205376)) = 0 := by
    have h := roundTo_eq 24 (-126) (-(1 / 1267650600228229401496703205376) *
        -(1 / 1267650600228229401496703205376)) (-200) (-149) 0
      (by norm_num) (by norm_num [abs_of_pos]) (by norm_num [abs_of_pos])
      (by norm_num) (by norm_num) (by norm_num)
    unfold round32
    rw [h]
    norm_num
  rw [distanceOn_ieee, originBody_fields.1, originBody_fields.2.1, closeBody_fields.1,
    closeBody_fields.2.1, h1, h3, sub_self, round32_zero, mul_zero, round32_zero, add_zero,
    round32_zero, sqrtTo_zero]

/-- In `float` arithmetic `resolveCollision` on the bodies centred at `(0, 0)`
and `(2^-100, 0)` takes the early return. -/
theorem resolveOn_ieee_close :
    originBody.resolveCollisionOn Arith.ieee closeBody = (originBody, closeBody) := by
  apply resolveCollisionOn_of_zero
  rw [distanceOn_ieee_close, ieee_isZero]
  exact decide_eq_true rfl

/-- The centres `(0, 0)` and `(2^-100, 0)` are distinct. -/
theorem close_centres_distinct : originBody.position ≠ closeBody.position := by
  intro h
  have hx := congrArg Vector2.x h
  rw [originBody_fields.1, closeBody_fields.1] at hx
  norm_num at hx

/-- In `float` arithmetic the distance `resolveCollision` computes between the
centres `(100, 400)` and `(180, 400)` is exactly 80. -/
theorem distanceOn_ieee_pair : leftBodyQ.distanceOn Arith.ieee rightBodyQ = 80 := by
  have h1 : round32 (100 - 180) = -80 := by
    have h := roundTo_eq 24 (-126) (100 - 180) 6 (-17) (-10485760)
      (by norm_num) (by norm_num [abs_of_neg]) (by norm_num [abs_of_neg])
      (by norm_num) (by norm_num) (by norm_num)
    unfold round32
    rw [h]
    norm_num
  have h2 : round32 (-80 * -80) = 6400 := by
    have h := roundTo_eq 24 (-126) (-80 * -80) 12 (-11) 13107200
      (by norm_num) (by norm_num [abs_of_pos]) (by norm_num [abs_of_pos])
      (by norm_num) (by norm_num) (by norm_num)
    unfold round32
    rw [h]
    norm_num
  have h3 : round32 6400 = 6400 := by
    have h := roundTo_eq 24 (-126) 6400 12 (-11) 13107200
      (by norm_num) (by norm_num [abs_of_pos]) (by norm_num [abs_of_pos])
      (by norm_num) (by norm_num) (by norm_num)
    unfold round32
    rw [h]
    norm_num
  have h4 : sqrtTo 24 (-126) 6400 = 80 := by
    have h := sqrtTo_eq_lower 24 (-126) 6400 12 (-17) 109951162777600 10485760
      (by norm_num) (by norm_num) (by norm_num) (by norm_num) (by norm_num) (by norm_num)
      (by norm_num) (by norm_num) (by norm_num)
    rw [h]
    norm_num
  have pl : leftBodyQ.position.x = 100 ∧ leftBodyQ.position.y = 400 := ⟨rfl, rfl⟩
  have pr : rightBodyQ.position.x = 180 ∧ rightBodyQ.position.y = 400 := ⟨rfl, rfl⟩
  rw [distanceOn_ieee, pl.1, pl.2, pr.1, pr.2, h1, h2, sub_self, round32_zero, mul_zero,
    round32_zero, add_zero, h3, h4]

/-- In machine arithmetic the distance `checkCollisionWith` stores for the
centres `(0, 0)` and `(96, 28 - 2^-19)` is exactly 100: the `double` root is
`99.99999949...`, and the nearest `float` to it is 100. -/
theorem measuredOn_ieee_grazing : originBody.measuredOn Arith.ieee grazingBody = 100 := by
  have h1 : round32 (0 - 96) = -96 := by
    have h := roundTo_eq 24 (-126) (0 - 96) 6 (-17) (-12582912)
      (by norm_num) (by norm_num [abs_of_neg]) (by norm_num [abs_of_neg])
      (by norm_num) (by norm_num) (by norm_num)
    unfold round32
    rw [h]
    norm_num
  have h2 : round32 (0 - (28 - 1 / 524288)) = -(14680063 / 524288) := by
    have h := roundTo_eq 24 (-126) (0 - (28 - 1 / 524288)) 4 (-19) (-14680063)
      (by norm_num) (by norm_num [abs_of_neg]) (by norm_num [abs_of_neg])
      (by norm_num) (by norm_num) (by norm_num)
    unfold round32
    rw [h]
    norm_num
  have h3 : round64 (-96 * -96) = 9216 := by
    have h := roundTo_eq 53 (-1022) (-96 * -96) 13 (-39) 5066549580791808
      (by norm_num) (by norm_num [abs_of_pos]) (by norm_num [abs_of_pos])
      (by norm_num) (by norm_num) (by norm_num)
    unfold round64
    rw [h]
    norm_num
  have h4 : round64 (-(14680063 / 524288) * -(14680063 / 524288)) =
      215504249683969 / 274877906944 := by
    have h := roundTo_eq 53 (-1022) (-(14680063 / 524288) * -(14680063 / 524288)) 9 (-43)
      6896135989887008
      (by norm_num) (by norm_num [abs_of_pos]) (by norm_num [abs_of_pos])
      (by norm_num) (by norm_num) (by norm_num)
    unfold round64
    rw [h]
    norm_num
  have h5 : round64 (9216 + 215504249683969 / 274877906944) =
      2748779040079873 / 274877906944 := by
    have h := roundTo_eq 53 (-1022) (9216 + 215504249683969 / 274877906944) 13 (-39)
      5497558080159746
      (by norm_num) (by norm_num [abs_of_pos]) (by norm_num [abs_of_pos])
      (by norm_num) (by norm_num) (by norm_num)
    unfold round64
    rw [h]
    norm_num
  have h6 : sqrtTo 53 (-1022) (2748779040079873 / 274877906944) =
      7036874380185437 / 70368744177664 := by
    have h := sqrtTo_eq_lower 53 (-1022) (2748779040079873 / 274877906944) 13 (-46)
      49517601042510182928963214508032 7036874380185437
      (by norm_num) (by norm_num) (by norm_num) (by norm_num) (by norm_num) (by norm_num)
      (by norm_num) (by norm_num) (by norm_num)
    rw [h]
    norm_num
  have h7 : round32 (7036874380185437 / 70368744177664) = 100 := by
    have h := roundTo_eq 24 (-126) (7036874380185437 / 70368744177664) 6 (-17) 13107200
      (by norm_num) (by norm_num [abs_of_pos]) (by norm_num [abs_of_pos])
      (by norm_num) (by norm_num) (by norm_num)
    unfold round32
    rw [h]
    norm_num
  have pg : grazingBody.position.x = 96 ∧ grazingBody.position.y = 28 - 1 / 524288 :=
    ⟨rfl, rfl⟩
  rw [measuredOn_ieee, originBody_fields.1, originBody_fields.2.1, pg.1, pg.2, h1, h2, h3, h4,
    h5, h6, h7]

/-- The `float` sum `50 + 50` is 100. -/
theorem round32_radii : round32 (50 + 50) = 100 := by
  have h := roundTo_eq 24 (-126) (50 + 50) 6 (-17) 13107200
    (by norm_num) (by norm_num [abs_of_pos]) (by norm_num [abs_of_pos])
    (by norm_num) (by norm_num) (by norm_num)
  unfold round32
  rw [h]
  norm_num

/-- In machine arithmetic the distance `checkCollisionWith` stores for the centres
`(100, 400)` and `(180, 400)` is exactly 80. -/
theorem measuredOn_ieee_pair : leftBodyQ.measuredOn Arith.ieee rightBodyQ = 80 := by
  have h1 : round32 (100 - 180) = -80 := by
    have h := roundTo_eq 24 (-126) (100 - 180) 6 (-17) (-10485760)
      (by norm_num) (by norm_num [abs_of_neg]) (by norm_num [abs_of_neg])
      (by norm_num) (by norm_num) (by norm_num)
    unfold round32
    rw [h]
    norm_num
  have h2 : round32 (400 - 400) = 0 := by
    rw [show (400 - 400 : ℚ) = 0 by norm_num]
    exact roundTo_zero 24 (-126)
  have h3 : round64 ((-80) * (-80)) = 6400 := by
    have h := roundTo_eq 53 (-1022) ((-80) * (-80)) 12 (-40) 7036874417766400
      (by norm_num) (by norm_num [abs_of_pos]) (by norm_num [abs_of_pos])
      (by norm_num) (by norm_num) (by norm_num)
    unfold round64
    rw [h]
    norm_num
  have h4 : round64 (0 * 0) = 0 := by
    rw [show (0 * 0 : ℚ) = 0 by norm_num]
    exact roundTo_zero 53 (-1022)
  have h5 : round64 (6400 + 0) = 6400 := by
    have h := roundTo_eq 53 (-1022) (6400 + 0) 12 (-40) 7036874417766400
      (by norm_num) (by norm_num [abs_of_pos]) (by norm_num [abs_of_pos])
      (by norm_num) (by norm_num) (by norm_num)
    unfold round64
    rw [h]
    norm_num
  have h6 : sqrtTo 53 (-1022) 6400 = 80 := by
    have h := sqrtTo_eq_lower 53 (-1022) 6400 12 (-46)
      31691265005705735037417580134400 5629499534213120
      (by norm_num) (by norm_num) (by norm_num) (by norm_num) (by norm_num) (by norm_num)
      (by norm_num) (by norm_num) (by norm_num)
    rw [h]
    norm_num
  have h7 : round32 (80) = 80 := by
    have h := roundTo_eq 24 (-126) (80) 6 (-17) 10485760
      (by norm_num) (by norm_num [abs_of_pos]) (by norm_num [abs_of_pos])
      (by norm_num) (by norm_num) (by norm_num)
    unfold round32
    rw [h]
    norm_num
  have fleftBodyQ : leftBodyQ.position.x = 100 ∧ leftBodyQ.position.y = 400 ∧
      leftBodyQ.radius = 50 := ⟨rfl, rfl, rfl⟩
  have frightBodyQ : rightBodyQ.position.x = 180 ∧ rightBodyQ.position.y = 400 ∧
      rightBodyQ.radius = 50 := ⟨rfl, rfl, rfl⟩
  rw [measuredOn_ieee, fleftBodyQ.1, fleftBodyQ.2.1, frightBodyQ.1, frightBodyQ.2.1, h1, h2, h3,
    h4, h5, h6, h7]

/-- In machine arithmetic the bodies of radius 50 at `(100, 400)` and `(180, 400)`
are reported as colliding: `80 < 100`. -/
theorem check_ieee_pair : leftBodyQ.checkCollisionWithOn Arith.ieee rightBodyQ = true := by
  have h1 : round32 (50 + 50) = 100 := by
    have h := roundTo_eq 24 (-126) (50 + 50) 6 (-17) 13107200
      (by norm_num) (by norm_num [abs_of_pos]) (by norm_num [abs_of_pos])
      (by norm_num) (by norm_num) (by norm_num)
    unfold round32
    rw [h]
    norm_num
  have fleftBodyQ : leftBodyQ.position.x = 100 ∧ leftBodyQ.position.y = 400 ∧
      leftBodyQ.radius = 50 := ⟨rfl, rfl, rfl⟩
  have frightBodyQ : rightBodyQ.position.x = 180 ∧ rightBodyQ.position.y = 400 ∧
      rightBodyQ.radius = 50 := ⟨rfl, rfl, rfl⟩
  rw [checkCollisionWithOn_eq, measuredOn_ieee_pair, ieee_add, fleftBodyQ.2.2, frightBodyQ.2.2, h1,
    ieee_lt]
  exact decide_eq_true (by norm_num)

/-- In `float` arithmetic `resolveCollision` moves the bodies of radius 50 at
`(100, 400)` and `(180, 400)` to `(90, 400)` and `(190, 400)` and exchanges their
velocities; every intermediate value is a `float`. -/
theorem resolveOn_ieee_pair :
    leftBodyQ.resolveCollisionOn Arith.ieee rightBodyQ = (leftMovedQ, rightMovedQ) := by
  have h1 : round32 (100 - 180) = -80 := by
    have h := roundTo_eq 24 (-126) (100 - 180) 6 (-17) (-10485760)
      (by norm_num) (by norm_num [abs_of_neg]) (by norm_num [abs_of_neg])
      (by norm_num) (by norm_num) (by norm_num)
    unfold round32
    rw [h]
    norm_num
  have h2 : round32 (400 - 400) = 0 := by
    rw [show (400 - 400 : ℚ) = 0 by norm_num]
    exact roundTo_zero 24 (-126)
  have h3 : round32 ((-80) / 80) = -1 := by
    have h := roundTo_eq 24 (-126) ((-80) / 80) 0 (-23) (-8388608)
      (by norm_num) (by norm_num [abs_of_neg]) (by norm_num [abs_of_neg])
      (by norm_num) (by norm_num) (by norm_num)
    unfold round32
    rw [h]
    norm_num
  have h4 : round32 (0 / 80) = 0 := by
    rw [show (0 / 80 : ℚ) = 0 by norm_num]
    exact roundTo_zero 24 (-126)
  have h5 : round32 (50 + 50) = 100 := by
    have h := roundTo_eq 24 (-126) (50 + 50) 6 (-17) 13107200
      (by norm_num) (by norm_num [abs_of_pos]) (by norm_num [abs_of_pos])
      (by norm_num) (by norm_num) (by norm_num)
    unfold round32
    rw [h]
    norm_num
  have h6 : round32 (100 - 80) = 20 := by
    have h := roundTo_eq 24 (-126) (100 - 80) 4 (-19) 10485760
      (by norm_num) (by norm_num [abs_of_pos]) (by norm_num [abs_of_pos])
      (by norm_num) (by norm_num) (by norm_num)
    unfold round32
    rw [h]
    norm_num
  have h7 : round32 (20 * (1 / 2)) = 10 := by
    have h := roundTo_eq 24 (-126) (20 * (1 / 2)) 3 (-20) 10485760
      (by norm_num) (by norm_num [abs_of_pos]) (by norm_num [abs_of_pos])
      (by norm_num) (by norm_num) (by norm_num)
    unfold round32
    rw [h]
    norm_num
  have h8 : round32 ((-1) * 10) = -10 := by
    have h := roundTo_eq 24 (-126) ((-1) * 10) 3 (-20) (-10485760)
      (by norm_num) (by norm_num [abs_of_neg]) (by norm_num [abs_of_neg])
      (by norm_num) (by norm_num) (by norm_num)
    unfold round32
    rw [h]
    norm_num
  have h9 : round32 (0 * 10) = 0 := by
    rw [show (0 * 10 : ℚ) = 0 by norm_num]
    exact roundTo_zero 24 (-126)
  have h10 : round32 (100 + (-10)) = 90 := by
    have h := roundTo_eq 24 (-126) (100 + (-10)) 6 (-17) 11796480
      (by norm_num) (by norm_num [abs_of_pos]) (by norm_num [abs_of_pos])
      (by norm_num) (by norm_num) (by norm_num)
    unfold round32
    rw [h]
    norm_num
  have h11 : round32 (400 + 0) = 400 := by
    have h := roundTo_eq 24 (-126) (400 + 0) 8 (-15) 13107200
      (by norm_num) (by norm_num [abs_of_pos]) (by norm_num [abs_of_pos])
      (by norm_num) (by norm_num) (by norm_num)
    unfold round32
    rw [h]
    norm_num
  have h12 : round32 (180 - (-10)) = 190 := by
    have h := roundTo_eq 24 (-126) (180 - (-10)) 7 (-16) 12451840
      (by norm_num) (by norm_num [abs_of_pos]) (by norm_num [abs_of_pos])
      (by norm_num) (by norm_num) (by norm_num)
    unfold round32
    rw [h]
    norm_num
  have h13 : round32 (400 - 0) = 400 := by
    have h := roundTo_eq 24 (-126) (400 - 0) 8 (-15) 13107200
      (by norm_num) (by norm_num [abs_of_pos]) (by norm_num [abs_of_pos])
      (by norm_num) (by norm_num) (by norm_num)
    unfold round32
    rw [h]
    norm_num
  have fleftBodyQ : leftBodyQ.position.x = 100 ∧ leftBodyQ.position.y = 400 ∧
      leftBodyQ.radius = 50 := ⟨rfl, rfl, rfl⟩
  have frightBodyQ : rightBodyQ.position.x = 180 ∧ rightBodyQ.position.y = 400 ∧
      rightBodyQ.radius = 50 := ⟨rfl, rfl, rfl⟩
  rw [resolveOn_ieee_eq leftBodyQ rightBodyQ 80 distanceOn_ieee_pair (by norm_num),
    fleftBodyQ.1, fleftBodyQ.2.1, fleftBodyQ.2.2, frightBodyQ.1, frightBodyQ.2.1,
    frightBodyQ.2.2, h1, h2, h3, h4, h5, h6, h7, h8, h9, h10, h11, h12, h13]
  rfl

/-- In machine arithmetic the distance `checkCollisionWith` stores for the centres
`(190, 400)` and `(90, 400)` is exactly 100. -/
theorem measuredOn_ieee_moved : rightMovedQ.measuredOn Arith.ieee leftMovedQ = 100 := by
  have h1 : round32 (190 - 90) = 100 := by
    have h := roundTo_eq 24 (-126) (190 - 90) 6 (-17) 13107200
      (by norm_num) (by norm_num [abs_of_pos]) (by norm_num [abs_of_pos])
      (by norm_num) (by norm_num) (by norm_num)
    unfold round32
    rw [h]
    norm_num
  have h2 : round32 (400 - 400) = 0 := by
    rw [show (400 - 400 : ℚ) = 0 by norm_num]
    exact roundTo_zero 24 (-126)
  have h3 : round64 (100 * 100) = 10000 := by
    have h := roundTo_eq 53 (-1022) (100 * 100) 13 (-39) 5497558138880000
      (by norm_num) (by norm_num [abs_of_pos]) (by norm_num [abs_of_pos])
      (by norm_num) (by norm_num) (by norm_num)
    unfold round64
    rw [h]
    norm_num
  have h4 : round64 (0 * 0) = 0 := by
    rw [show (0 * 0 : ℚ) = 0 by norm_num]
    exact roundTo_zero 53 (-1022)
  have h5 : round64 (10000 + 0) = 10000 := by
    have h := roundTo_eq 53 (-1022) (10000 + 0) 13 (-39) 5497558138880000
      (by norm_num) (by norm_num [abs_of_pos]) (by norm_num [abs_of_pos])
      (by norm_num) (by norm_num) (by norm_num)
    unfold round64
    rw [h]
    norm_num
  have h6 : sqrtTo 53 (-1022) 10000 = 100 := by
    have h := sqrtTo_eq_lower 53 (-1022) 10000 13 (-46)
      49517601571415210995964968960000 7036874417766400
      (by norm_num) (by norm_num) (by norm_num) (by norm_num) (by norm_num) (by norm_num)
      (by norm_num) (by norm_num) (by norm_num)
    rw [h]
    norm_num
  have h7 : round32 (100) = 100 := by
    have h := roundTo_eq 24 (-126) (100) 6 (-17) 13107200
      (by norm_num) (by norm_num [abs_of_pos]) (by norm_num [abs_of_pos])
      (by norm_num) (by norm_num) (by norm_num)
    unfold round32
    rw [h]
    norm_num
  have frightMovedQ : rightMovedQ.position.x = 190 ∧ rightMovedQ.position.y = 400 ∧
      rightMovedQ.radius = 50 := ⟨rfl, rfl, rfl⟩
  have fleftMovedQ : leftMovedQ.position.x = 90 ∧ leftMovedQ.position.y = 400 ∧
      leftMovedQ.radius = 50 := ⟨rfl, rfl, rfl⟩
  rw [measuredOn_ieee, frightMovedQ.1, frightMovedQ.2.1, fleftMovedQ.1, fleftMovedQ.2.1, h1, h2,
    h3, h4, h5, h6, h7]

/-- In machine arithmetic the bodies of radius 50 at `(190, 400)` and `(90, 400)` are
reported as not colliding: `100 < 100` fails. -/
theorem check_ieee_moved : rightMovedQ.checkCollisionWithOn Arith.ieee leftMovedQ = false := by
  have h1 : round32 (50 + 50) = 100 := by
    have h := roundTo_eq 24 (-126) (50 + 50) 6 (-17) 13107200
      (by norm_num) (by norm_num [abs_of_pos]) (by norm_num [abs_of_pos])
      (by norm_num) (by norm_num) (by norm_num)
    unfold round32
    rw [h]
    norm_num
  have frightMovedQ : rightMovedQ.position.x = 190 ∧ rightMovedQ.position.y = 400 ∧
      rightMovedQ.radius = 50 := ⟨rfl, rfl, rfl⟩
  have fleftMovedQ : leftMovedQ.position.x = 90 ∧ leftMovedQ.position.y = 400 ∧
      leftMovedQ.radius = 50 := ⟨rfl, rfl, rfl⟩
  rw [checkCollisionWithOn_eq, measuredOn_ieee_moved, ieee_add, frightMovedQ.2.2, fleftMovedQ.2.2, h1,
    ieee_lt]
  exact decide_eq_false (by norm_num)

/-- In machine arithmetic the distance `checkCollisionWith` stores for the centres
`(100, 400)` and `(107, 424)` is exactly 25. -/
theorem measuredOn_ieee_skew : skewLeft.measuredOn Arith.ieee skewRight = 25 := by
  have h1 : round32 (100 - 107) = -7 := by
    have h := roundTo_eq 24 (-126) (100 - 107) 2 (-21) (-14680064)
      (by norm_num) (by norm_num [abs_of_neg]) (by norm_num [abs_of_neg])
      (by norm_num) (by norm_num) (by norm_num)
    unfold round32
    rw [h]
    norm_num
  have h2 : round32 (400 - 424) = -24 := by
    have h := roundTo_eq 24 (-126) (400 - 424) 4 (-19) (-12582912)
      (by norm_num) (by norm_num [abs_of_neg]) (by norm_num [abs_of_neg])
      (by norm_num) (by norm_num) (by norm_num)
    unfold round32
    rw [h]
    norm_num
  have h3 : round64 ((-7) * (-7)) = 49 := by
    have h := roundTo_eq 53 (-1022) ((-7) * (-7)) 5 (-47) 6896136929411072
      (by norm_num) (by norm_num [abs_of_pos]) (by norm_num [abs_of_pos])
      (by norm_num) (by norm_num) (by norm_num)
    unfold round64
    rw [h]
    norm_num
  have h4 : round64 ((-24) * (-24)) = 576 := by
    have h := roundTo_eq 53 (-1022) ((-24) * (-24)) 9 (-43) 5066549580791808
      (by norm_num) (by norm_num [abs_of_pos]) (by norm_num [abs_of_pos])
      (by norm_num) (by norm_num) (by norm_num)
    unfold round64
    rw [h]
    norm_num
  have h5 : round64 (49 + 576) = 625 := by
    have h := roundTo_eq 53 (-1022) (49 + 576) 9 (-43) 5497558138880000
      (by norm_num) (by norm_num [abs_of_pos]) (by norm_num [abs_of_pos])
      (by norm_num) (by norm_num) (by norm_num)
    unfold round64
    rw [h]
    norm_num
  have h6 : sqrtTo 53 (-1022) 625 = 25 := by
    have h := sqrtTo_eq_lower 53 (-1022) 625 9 (-48)
      49517601571415210995964968960000 7036874417766400
      (by norm_num) (by norm_num) (by norm_num) (by norm_num) (by norm_num) (by norm_num)
      (by norm_num) (by norm_num) (by norm_num)
    rw [h]
    norm_num
  have h7 : round32 (25) = 25 := by
    have h := roundTo_eq 24 (-126) (25) 4 (-19) 13107200
      (by norm_num) (by norm_num [abs_of_pos]) (by norm_num [abs_of_pos])
      (by norm_num) (by norm_num) (by norm_num)
    unfold round32
    rw [h]
    norm_num
  have fskewLeft : skewLeft.position.x = 100 ∧ skewLeft.position.y = 400 ∧
      skewLeft.radius = 40 := ⟨rfl, rfl, rfl⟩
  have fskewRight : skewRight.position.x = 107 ∧ skewRight.position.y = 424 ∧
      skewRight.radius = 40 := ⟨rfl, rfl, rfl⟩
  rw [measuredOn_ieee, fskewLeft.1, fskewLeft.2.1, fskewRight.1, fskewRight.2.1, h1, h2, h3, h4,
    h5, h6, h7]

/-- In machine arithmetic the bodies of radius 40 at `(100, 400)` and `(107, 424)`
are reported as colliding: `25 < 80`. -/
theorem check_ieee_skew : skewLeft.checkCollisionWithOn Arith.ieee skewRight = true := by
  have h1 : round32 (40 + 40) = 80 := by
    have h := roundTo_eq 24 (-126) (40 + 40) 6 (-17) 10485760
      (by norm_num) (by norm_num [abs_of_pos]) (by norm_num [abs_of_pos])
      (by norm_num) (by norm_num) (by norm_num)
    unfold round32
    rw [h]
    norm_num
  have fskewLeft : skewLeft.position.x = 100 ∧ skewLeft.position.y = 400 ∧
      skewLeft.radius = 40 := ⟨rfl, rfl, rfl⟩
  have fskewRight : skewRight.position.x = 107 ∧ skewRight.position.y = 424 ∧
      skewRight.radius = 40 := ⟨rfl, rfl, rfl⟩
  rw [checkCollisionWithOn_eq, measuredOn_ieee_skew, ieee_add, fskewLeft.2.2, fskewRight.2.2, h1,
    ieee_lt]
  exact decide_eq_true (by norm_num)

/-- In `float` arithmetic the distance `resolveCollision` computes between the
centres `(100, 400)` and `(107, 424)` is exactly 25. -/
theorem distanceOn_ieee_skew : skewLeft.distanceOn Arith.ieee skewRight = 25 := by
  have h1 : round32 (100 - 107) = -7 := by
    have h := roundTo_eq 24 (-126) (100 - 107) 2 (-21) (-14680064)
      (by norm_num) (by norm_num [abs_of_neg]) (by norm_num [abs_of_neg])
      (by norm_num) (by norm_num) (by norm_num)
    unfold round32
    rw [h]
    norm_num
  have h2 : round32 (400 - 424) = -24 := by
    have h := roundTo_eq 24 (-126) (400 - 424) 4 (-19) (-12582912)
      (by norm_num) (by norm_num [abs_of_neg]) (by norm_num [abs_of_neg])
      (by norm_num) (by norm_num) (by norm_num)
    unfold round32
    rw [h]
    norm_num
  have h3 : round32 ((-7) * (-7)) = 49 := by
    have h := roundTo_eq 24 (-126) ((-7) * (-7)) 5 (-18) 12845056
      (by norm_num) (by norm_num [abs_of_pos]) (by norm_num [abs_of_pos])
      (by norm_num) (by norm_num) (by norm_num)
    unfold round32
    rw [h]
    norm_num
  have h4 : round32 ((-24) * (-24)) = 576 := by
    have h := roundTo_eq 24 (-126) ((-24) * (-24)) 9 (-14) 9437184
      (by norm_num) (by norm_num [abs_of_pos]) (by norm_num [abs_of_pos])
      (by norm_num) (by norm_num) (by norm_num)
    unfold round32
    rw [h]
    norm_num
  have h5 : round32 (49 + 576) = 625 := by
    have h := roundTo_eq 24 (-126) (49 + 576) 9 (-14) 10240000
      (by norm_num) (by norm_num [abs_of_pos]) (by norm_num [abs_of_pos])
      (by norm_num) (by norm_num) (by norm_num)
    unfold round32
    rw [h]
    norm_num
  have h6 : sqrtTo 24 (-126) 625 = 25 := by
    have h := sqrtTo_eq_lower 24 (-126) 625 9 (-19) 171798691840000 13107200
      (by norm_num) (by norm_num) (by norm_num) (by norm_num) (by norm_num) (by norm_num)
      (by norm_num) (by norm_num) (by norm_num)
    rw [h]
    norm_num
  have fskewLeft : skewLeft.position.x = 100 ∧ skewLeft.position.y = 400 ∧
      skewLeft.radius = 40 := ⟨rfl, rfl, rfl⟩
  have fskewRight : skewRight.position.x = 107 ∧ skewRight.position.y = 424 ∧
      skewRight.radius = 40 := ⟨rfl, rfl, rfl⟩
  rw [distanceOn_ieee, fskewLeft.1, fskewLeft.2.1, fskewRight.1, fskewRight.2.1, h1, h2, h3, h4,
    h5, h6]

/-- In `float` arithmetic `resolveCollision` moves the bodies of radius 40 at
`(100, 400)` and `(107, 424)` to `(92.30000305175781, 373.6000061035156)` and
`(114.69999694824219, 450.3999938964844)`: the quotients `-7/25` and `-24/25` and
their products with `27.5` are rounded, and so are the four sums. -/
theorem resolveOn_ieee_skew :
    skewLeft.resolveCollisionOn Arith.ieee skewRight = (skewLeftMoved, skewRightMoved) := by
  have h1 : round32 (100 - 107) = -7 := by
    have h := roundTo_eq 24 (-126) (100 - 107) 2 (-21) (-14680064)
      (by norm_num) (by norm_num [abs_of_neg]) (by norm_num [abs_of_neg])
      (by norm_num) (by norm_num) (by norm_num)
    unfold round32
    rw [h]
    norm_num
  have h2 : round32 (400 - 424) = -24 := by
    have h := roundTo_eq 24 (-126) (400 - 424) 4 (-19) (-12582912)
      (by norm_num) (by norm_num [abs_of_neg]) (by norm_num [abs_of_neg])
      (by norm_num) (by norm_num) (by norm_num)
    unfold round32
    rw [h]
    norm_num
  have h3 : round32 ((-7) / 25) = -(9395241 / 33554432) := by
    have h := roundTo_eq 24 (-126) ((-7) / 25) (-2) (-25) (-9395241)
      (by norm_num) (by norm_num [abs_of_neg]) (by norm_num [abs_of_neg])
      (by norm_num) (by norm_num) (by norm_num)
    unfold round32
    rw [h]
    norm_num
  have h4 : round32 ((-24) / 25) = -(16106127 / 16777216) := by
    have h := roundTo_eq 24 (-126) ((-24) / 25) (-1) (-24) (-16106127)
      (by norm_num) (by norm_num [abs_of_neg]) (by norm_num [abs_of_neg])
      (by norm_num) (by norm_num) (by norm_num)
    unfold round32
    rw [h]
    norm_num
  have h5 : round32 (40 + 40) = 80 := by
    have h := roundTo_eq 24 (-126) (40 + 40) 6 (-17) 10485760
      (by norm_num) (by norm_num [abs_of_pos]) (by norm_num [abs_of_pos])
      (by norm_num) (by norm_num) (by norm_num)
    unfold round32
    rw [h]
    norm_num
  have h6 : round32 (80 - 25) = 55 := by
    have h := roundTo_eq 24 (-126) (80 - 25) 5 (-18) 14417920
      (by norm_num) (by norm_num [abs_of_pos]) (by norm_num [abs_of_pos])
      (by norm_num) (by norm_num) (by norm_num)
    unfold round32
    rw [h]
    norm_num
  have h7 : round32 (55 * (1 / 2)) = 55 / 2 := by
    have h := roundTo_eq 24 (-126) (55 * (1 / 2)) 4 (-19) 14417920
      (by norm_num) (by norm_num [abs_of_pos]) (by norm_num [abs_of_pos])
      (by norm_num) (by norm_num) (by norm_num)
    unfold round32
    rw [h]
    norm_num
  have h8 : round32 ((-(9395241 / 33554432)) * (55 / 2)) = -(8074035 / 1048576) := by
    have h := roundTo_eq 24 (-126) ((-(9395241 / 33554432)) * (55 / 2)) 2 (-21) (-16148070)
      (by norm_num) (by norm_num [abs_of_neg]) (by norm_num [abs_of_neg])
      (by norm_num) (by norm_num) (by norm_num)
    unfold round32
    rw [h]
    norm_num
  have h9 : round32 ((-(16106127 / 16777216)) * (55 / 2)) = -(13841203 / 524288) := by
    have h := roundTo_eq 24 (-126) ((-(16106127 / 16777216)) * (55 / 2)) 4 (-19) (-13841203)
      (by norm_num) (by norm_num [abs_of_neg]) (by norm_num [abs_of_neg])
      (by norm_num) (by norm_num) (by norm_num)
    unfold round32
    rw [h]
    norm_num
  have h10 : round32 (100 + (-(8074035 / 1048576))) = 6048973 / 65536 := by
    have h := roundTo_eq 24 (-126) (100 + (-(8074035 / 1048576))) 6 (-17) 12097946
      (by norm_num) (by norm_num [abs_of_pos]) (by norm_num [abs_of_pos])
      (by norm_num) (by norm_num) (by norm_num)
    unfold round32
    rw [h]
    norm_num
  have h11 : round32 (400 + (-(13841203 / 524288))) = 12242125 / 32768 := by
    have h := roundTo_eq 24 (-126) (400 + (-(13841203 / 524288))) 8 (-15) 12242125
      (by norm_num) (by norm_num [abs_of_pos]) (by norm_num [abs_of_pos])
      (by norm_num) (by norm_num) (by norm_num)
    unfold round32
    rw [h]
    norm_num
  have h12 : round32 (107 - (-(8074035 / 1048576))) = 7516979 / 65536 := by
    have h := roundTo_eq 24 (-126) (107 - (-(8074035 / 1048576))) 6 (-17) 15033958
      (by norm_num) (by norm_num [abs_of_pos]) (by norm_num [abs_of_pos])
      (by norm_num) (by norm_num) (by norm_num)
    unfold round32
    rw [h]
    norm_num
  have h13 : round32 (424 - (-(13841203 / 524288))) = 14758707 / 32768 := by
    have h := roundTo_eq 24 (-126) (424 - (-(13841203 / 524288))) 8 (-15) 14758707
      (by norm_num) (by norm_num [abs_of_pos]) (by norm_num [abs_of_pos])
      (by norm_num) (by norm_num) (by norm_num)
    unfold round32
    rw [h]
    norm_num
  have fskewLeft : skewLeft.position.x = 100 ∧ skewLeft.position.y = 400 ∧
      skewLeft.radius = 40 := ⟨rfl, rfl, rfl⟩
  have fskewRight : skewRight.position.x = 107 ∧ skewRight.position.y = 424 ∧
      skewRight.radius = 40 := ⟨rfl, rfl, rfl⟩
  rw [resolveOn_ieee_eq skewLeft skewRight 25 distanceOn_ieee_skew (by norm_num),
    fskewLeft.1, fskewLeft.2.1, fskewLeft.2.2, fskewRight.1, fskewRight.2.1, fskewRight.2.2, h1,
    h2, h3, h4, h5, h6, h7, h8, h9, h10, h11, h12, h13]
  rfl

/-- In machine arithmetic the distance `checkCollisionWith` stores for the two moved
centres is `5242879 / 65536 = 79.99998474121094`, below 80. -/
theorem measuredOn_ieee_skewMoved :
    skewRightMoved.measuredOn Arith.ieee skewLeftMoved = 5242879 / 65536 := by
  have h1 : round32 ((7516979 / 65536) - (6048973 / 65536)) = 734003 / 32768 := by
    have h := roundTo_eq 24 (-126) ((7516979 / 65536) - (6048973 / 65536)) 4 (-19) 11744048
      (by norm_num) (by norm_num [abs_of_pos]) (by norm_num [abs_of_pos])
      (by norm_num) (by norm_num) (by norm_num)
    unfold round32
    rw [h]
    norm_num
  have h2 : round32 ((14758707 / 32768) - (12242125 / 32768)) = 1258291 / 16384 := by
    have h := roundTo_eq 24 (-126) ((14758707 / 32768) - (12242125 / 32768)) 6 (-17) 10066328
      (by norm_num) (by norm_num [abs_of_pos]) (by norm_num [abs_of_pos])
      (by norm_num) (by norm_num) (by norm_num)
    unfold round32
    rw [h]
    norm_num
  have h3 : round64 ((734003 / 32768) * (734003 / 32768)) = 538760404009 / 1073741824 := by
    have h := roundTo_eq 53 (-1022) ((734003 / 32768) * (734003 / 32768)) 8 (-44) 8827050459283456
      (by norm_num) (by norm_num [abs_of_pos]) (by norm_num [abs_of_pos])
      (by norm_num) (by norm_num) (by norm_num)
    unfold round64
    rw [h]
    norm_num
  have h4 : round64 ((1258291 / 16384) * (1258291 / 16384)) = 1583296240681 / 268435456 := by
    have h := roundTo_eq 53 (-1022) ((1258291 / 16384) * (1258291 / 16384))
      12 (-40) 6485181401829376
      (by norm_num) (by norm_num [abs_of_pos]) (by norm_num [abs_of_pos])
      (by norm_num) (by norm_num) (by norm_num)
    unfold round64
    rw [h]
    norm_num
  have h5 : round64 ((538760404009 / 1073741824) + (1583296240681 / 268435456)) =
      6871945366733 / 1073741824 := by
    have h := roundTo_eq 53 (-1022) ((538760404009 / 1073741824) + (1583296240681 / 268435456))
      12 (-40) 7036872055534592
      (by norm_num) (by norm_num [abs_of_pos]) (by norm_num [abs_of_pos])
      (by norm_num) (by norm_num) (by norm_num)
    unfold round64
    rw [h]
    norm_num
  have h6 : sqrtTo 53 (-1022) (6871945366733 / 1073741824) = 2814749294660159 / 35184372088832 := by
    have h := sqrtTo_eq_upper 53 (-1022) (6871945366733 / 1073741824) 12 (-46)
      31691254367159444765884528197632 5629498589320317
      (by norm_num) (by norm_num) (by norm_num) (by norm_num) (by norm_num) (by norm_num)
      (by norm_num) (by norm_num) (by norm_num)
    rw [h]
    norm_num
  have h7 : round32 (2814749294660159 / 35184372088832) = 5242879 / 65536 := by
    have h := roundTo_eq 24 (-126) (2814749294660159 / 35184372088832) 6 (-17) 10485758
      (by norm_num) (by norm_num [abs_of_pos]) (by norm_num [abs_of_pos])
      (by norm_num) (by norm_num) (by norm_num)
    unfold round32
    rw [h]
    norm_num
  have fskewRightMoved : skewRightMoved.position.x = 7516979 / 65536 ∧ skewRightMoved.position.y = 14758707 / 32768 ∧
      skewRightMoved.radius = 40 := ⟨rfl, rfl, rfl⟩
  have fskewLeftMoved : skewLeftMoved.position.x = 6048973 / 65536 ∧ skewLeftMoved.position.y = 12242125 / 32768 ∧
      skewLeftMoved.radius = 40 := ⟨rfl, rfl, rfl⟩
  rw [measuredOn_ieee, fskewRightMoved.1, fskewRightMoved.2.1, fskewLeftMoved.1,
    fskewLeftMoved.2.1, h1, h2, h3, h4, h5, h6, h7]

/-- In machine arithmetic the two bodies of radius 40 are, after one call of
`resolveCollision`, still reported as colliding: `79.99998474121094 < 80`. -/
theorem check_ieee_skewMoved :
    skewRightMoved.checkCollisionWithOn Arith.ieee skewLeftMoved = true := by
  have h1 : round32 (40 + 40) = 80 := by
    have h := roundTo_eq 24 (-126) (40 + 40) 6 (-17) 10485760
      (by norm_num) (by norm_num [abs_of_pos]) (by norm_num [abs_of_pos])
      (by norm_num) (by norm_num) (by norm_num)
    unfold round32
    rw [h]
    norm_num
  have fskewRightMoved : skewRightMoved.position.x = 7516979 / 65536 ∧ skewRightMoved.position.y = 14758707 / 32768 ∧
      skewRightMoved.radius = 40 := ⟨rfl, rfl, rfl⟩
  have fskewLeftMoved : skewLeftMoved.position.x = 6048973 / 65536 ∧ skewLeftMoved.position.y = 12242125 / 32768 ∧
      skewLeftMoved.radius = 40 := ⟨rfl, rfl, rfl⟩
  rw [checkCollisionWithOn_eq, measuredOn_ieee_skewMoved, ieee_add, fskewRightMoved.2.2, fskewLeftMoved.2.2, h1,
    ieee_lt]
  exact decide_eq_true (by norm_num)

/-- C3 (as stated, refuted): in `float` arithmetic the bodies centred at
`(0, 0)` and `(2^-100, 0)`, with velocities `(50, 0)` and `(-50, 0)`, have
distinct centres and different velocities, yet `resolveCollision` leaves each
with its own velocity: the square of the difference underflows to zero, the
computed distance is zero and the function returns before the swap. -/
theorem close_centres_not_swapped :
    originBody.position ≠ closeBody.position ∧
    originBody.velocity ≠ closeBody.velocity ∧
    (originBody.resolveCollisionOn Arith.ieee closeBody).1.velocity = originBody.velocity ∧
    (originBody.resolveCollisionOn Arith.ieee closeBody).2.velocity = closeBody.velocity ∧
    (originBody.resolveCollisionOn Arith.ieee closeBody).1.velocity ≠ closeBody.velocity := by
  have hv : originBody.velocity ≠ closeBody.velocity := by
    intro h
    have hx := congrArg Vector2.x h
    rw [originBody_fields.2.2.2, closeBody_fields.2.2.2] at hx
    norm_num at hx
  rw [resolveOn_ieee_close]
  exact ⟨close_centres_distinct, hv, rfl, rfl, hv⟩

/-- C3 (amended): in every arithmetic, `float` included, `resolveCollision`
exchanges the two velocity vectors in full when the distance it computes does
not compare equal to zero, and changes nothing when it does.  In exact
arithmetic (where `resolveCollisionOn` is `resolveCollision`) the computed
distance of two distinct centres is not zero, so there distinct centres give the
exchange. -/
theorem resolveCollision_swaps_unless_zero {G D : Type} (o : Arith G D) (x y : Circle G)
    {F : Type} [LinearOrderedField F] [FloorRing F] (sqrt : F → F) (hs : IsSqrt sqrt)
    (a b : Circle F) :
    (o.isZero (x.distanceOn o y) = false →
      (x.resolveCollisionOn o y).1.velocity = y.velocity ∧
      (x.resolveCollisionOn o y).2.velocity = x.velocity) ∧
    (o.isZero (x.distanceOn o y) = true → x.resolveCollisionOn o y = (x, y)) ∧
    a.resolveCollisionOn (Arith.exact sqrt) b = a.resolveCollision sqrt b ∧
    (a.position ≠ b.position →
      (Arith.exact sqrt).isZero (a.distanceOn (Arith.exact sqrt) b) = false ∧
      (a.resolveCollision sqrt b).1.velocity = b.velocity ∧
      (a.resolveCollision sqrt b).2.velocity = a.velocity) := by
  refine ⟨fun h => ?_, resolveCollisionOn_of_zero o x y, resolveCollisionOn_exact sqrt a b,
    fun hne => ?_⟩
  · rw [resolveCollisionOn_of_nonzero o x y h]
    exact ⟨rfl, rfl⟩
  · have hz : (Arith.exact sqrt).isZero (a.distanceOn (Arith.exact sqrt) b) = false := by
      rw [distanceOn_exact, resolve_distance_eq_euclid sqrt a b]
      exact decide_eq_false (euclid_ne_zero hs hne)
    have hr := resolveCollisionOn_of_nonzero (Arith.exact sqrt) a b hz
    rw [resolveCollisionOn_exact] at hr
    rw [hr]
    exact ⟨hz, rfl, rfl⟩

/-- C3 (amended) at the specification's scenario, in `float` arithmetic and
over the reals: the computed distance is 80, not zero, and the velocities
`(50, 0)` and `(-50, 0)` become `(-50, 0)` and `(50, 0)`. -/
theorem resolveCollision_swaps_unless_zero_scenario :
    ((leftBodyQ.resolveCollisionOn Arith.ieee rightBodyQ).1.velocity = ⟨-50, 0⟩ ∧
      (leftBodyQ.resolveCollisionOn Arith.ieee rightBodyQ).2.velocity = ⟨50, 0⟩) ∧
    ((leftBody.resolveCollision Real.sqrt rightBody).1.velocity = ⟨-50, 0⟩ ∧
      (leftBody.resolveCollision Real.sqrt rightBody).2.velocity = ⟨50, 0⟩) := by
  have h := resolveCollision_swaps_unless_zero Arith.ieee leftBodyQ rightBodyQ Real.sqrt
    isSqrt_real leftBody rightBody
  have hz : Arith.ieee.isZero (leftBodyQ.distanceOn Arith.ieee rightBodyQ) = false := by
    rw [distanceOn_ieee_pair, ieee_isZero]
    exact decide_eq_false (by norm_num)
  have hne : leftBody.position ≠ rightBody.position := by norm_num [leftBody, rightBody]
  exact ⟨h.1 hz, (h.2.2.2 hne).2⟩

/-- C5 (as stated, refuted): the centres `(0, 0)` and `(96, 28 - 2^-19)` of two
bodies of radius 50 are strictly less than `50 + 50` apart (the squared
distance is below `100^2`), yet in machine arithmetic `checkCollisionWith`
answers false: the `double` root `99.9999995...` is rounded to the `float` 100
when it is stored in `distance`, and `100 < 100` fails. -/
theorem overlap_missed_by_rounding :
    (originBody.position.x - grazingBody.position.x) ^ 2 +
        (originBody.position.y - grazingBody.position.y) ^ 2 <
      (originBody.radius + grazingBody.radius) ^ 2 ∧
    0 < originBody.radius + grazingBody.radius ∧
    originBody.checkCollisionWithOn Arith.ieee grazingBody = false := by
  have rg : grazingBody.radius = 50 := rfl
  have pg : grazingBody.position.x = 96 ∧ grazingBody.position.y = 28 - 1 / 524288 :=
    ⟨rfl, rfl⟩
  refine ⟨?_, ?_, ?_⟩
  · rw [originBody_fields.1, originBody_fields.2.1, pg.1, pg.2, originBody_fields.2.2.1, rg]
    norm_num
  · rw [originBody_fields.2.2.1, rg]
    norm_num
  · rw [checkCollisionWithOn_eq, measuredOn_ieee_grazing, ieee_add, originBody_fields.2.2.1, rg,
      round32_radii, ieee_lt]
    exact decide_eq_false (lt_irrefl _)

/-- C5 (amended): in every arithmetic, `float` included, `checkCollisionWith`
answers true exactly when the distance it stores (the `double` root converted
to `float`) is strictly below the `float` sum of the radii.  In exact
arithmetic (where `checkCollisionWithOn` is `checkCollisionWith`) the centres
have a Euclidean distance `d`, the non-negative number whose square is the sum
of the squared coordinate differences, the answer is true exactly when
`d < radiusSelf + radiusOther`, and it is false when `d = radiusSelf +
radiusOther` (touching). -/
theorem checkCollisionWith_compares_stored {G D : Type} (o : Arith G D) (x y : Circle G)
    {F : Type} [LinearOrderedField F] [FloorRing F] (sqrt : F → F) (hs : IsSqrt sqrt)
    (a b : Circle F) :
    x.checkCollisionWithOn o y = o.lt (x.measuredOn o y) (o.add x.radius y.radius) ∧
    a.checkCollisionWithOn (Arith.exact sqrt) b = a.checkCollisionWith sqrt b ∧
    (∃ d : F, 0 ≤ d ∧
      d * d = (a.position.x - b.position.x) ^ 2 + (a.position.y - b.position.y) ^ 2) ∧
    (∀ d : F, 0 ≤ d →
      d * d = (a.position.x - b.position.x) ^ 2 + (a.position.y - b.position.y) ^ 2 →
      (a.checkCollisionWith sqrt b = true ↔ d < a.radius + b.radius) ∧
      (d = a.radius + b.radius → a.checkCollisionWith sqrt b = false)) := by
  have hnn : 0 ≤ (a.position.x - b.position.x) ^ 2 + (a.position.y - b.position.y) ^ 2 := by
    positivity
  refine ⟨rfl, rfl, ⟨_, (hs _ hnn).1, (hs _ hnn).2⟩, ?_⟩
  intro d hd hdd
  have he : euclid sqrt a.position b.position = d := euclid_eq_of_mul_self hs _ _ hd hdd
  have hiff : a.checkCollisionWith sqrt b = true ↔ d < a.radius + b.radius := by
    rw [← he]
    simp [Circle.checkCollisionWith, euclid]
  refine ⟨hiff, ?_⟩
  intro h
  rw [← Bool.not_eq_true, hiff, h]
  exact lt_irrefl _

/-- C5 (amended) at concrete bodies.  Over the reals: two bodies of radius 50
whose centres are exactly 100 apart are reported as not colliding, two whose
centres are 80 apart as colliding.  In machine arithmetic: for the centres
`(100, 400)` and `(180, 400)` the stored distance is 80 and the answer true; for
`(190, 400)` and `(90, 400)` the stored distance is 100 and the answer false. -/
theorem checkCollisionWith_compares_stored_scenario :
    (leftBody.checkCollisionWith Real.sqrt touchingBody = false ∧
      leftBody.checkCollisionWith Real.sqrt rightBody = true) ∧
    (leftBodyQ.measuredOn Arith.ieee rightBodyQ = 80 ∧
      leftBodyQ.checkCollisionWithOn Arith.ieee rightBodyQ = true) ∧
    (rightMovedQ.measuredOn Arith.ieee leftMovedQ = 100 ∧
      rightMovedQ.checkCollisionWithOn Arith.ieee leftMovedQ = false) := by
  have ht := checkCollisionWith_compares_stored Arith.ieee leftBodyQ rightBodyQ Real.sqrt
    isSqrt_real leftBody touchingBody
  have hr := checkCollisionWith_compares_stored Arith.ieee rightMovedQ leftMovedQ Real.sqrt
    isSqrt_real leftBody rightBody
  refine ⟨⟨?_, ?_⟩, ⟨measuredOn_ieee_pair, ?_⟩, ⟨measuredOn_ieee_moved, ?_⟩⟩
  · exact (ht.2.2.2 100 (by norm_num) (by norm_num [leftBody, touchingBody])).2
      (by norm_num [leftBody, touchingBody])
  · exact (hr.2.2.2 80 (by norm_num) (by norm_num [leftBody, rightBody])).1.mpr
      (by norm_num [leftBody, rightBody])
  · exact check_ieee_pair
  · exact check_ieee_moved

/-- C18 (as stated, refuted): the centres `(0, 0)` and `(2^-100, 0)` of two bodies
of radius 50 are distinct and `2^-100` apart, so each centre should move by
`|50 + 50 - 2^-100| / 2`, which is positive; yet in `float` arithmetic
`resolveCollision` leaves both positions as they were: the computed distance
is zero (the square of the difference underflows) and the function returns
before it moves anything. -/
theorem close_centres_not_moved :
    originBody.position ≠ closeBody.position ∧
    (0 ≤ (1 : ℚ) / 1267650600228229401496703205376 ∧
      (1 : ℚ) / 1267650600228229401496703205376 * (1 / 1267650600228229401496703205376) =
        (originBody.position.x - closeBody.position.x) ^ 2 +
          (originBody.position.y - closeBody.position.y) ^ 2) ∧
    0 < |originBody.radius + closeBody.radius - 1 / 1267650600228229401496703205376| / 2 ∧
    (originBody.resolveCollisionOn Arith.ieee closeBody).1.position = originBody.position ∧
    (originBody.resolveCollisionOn Arith.ieee closeBody).2.position = closeBody.position := by
  rw [resolveOn_ieee_close]
  refine ⟨close_centres_distinct, ⟨by norm_num, ?_⟩, ?_, rfl, rfl⟩
  · rw [originBody_fields.1, originBody_fields.2.1, closeBody_fields.1, closeBody_fields.2.1]
    norm_num
  · rw [originBody_fields.2.2.1, closeBody_fields.2.2.1]
    norm_num

/-- C18 (amended): in every arithmetic, `float` included, `resolveCollision`
changes nothing when the distance it computes compares equal to zero, and
otherwise adds the correction vector `normalizedDelta * moveAmount` to the
position of `*this` and subtracts the same vector from the position of
`other`, each sum rounded by the arithmetic; both radii are unchanged.  In
exact arithmetic (where `resolveCollisionOn` is `resolveCollision`) and for
distinct centres: the sum of the two positions is unchanged, the two
displacements are opposite and are multiples of the vector between the old
centres, and each centre moves by exactly
`|radiusSelf + radiusOther - distance| / 2`. -/
theorem resolveCollision_correction {G D : Type} (o : Arith G D) (x y : Circle G)
    {F : Type} [LinearOrderedField F] [FloorRing F] (sqrt : F → F) (hs : IsSqrt sqrt)
    (a b : Circle F) :
    (o.isZero (x.distanceOn o y) = true → x.resolveCollisionOn o y = (x, y)) ∧
    (o.isZero (x.distanceOn o y) = false →
      (x.resolveCollisionOn o y).1.position =
        ⟨o.add x.position.x (x.correctionOn o y).x,
          o.add x.position.y (x.correctionOn o y).y⟩ ∧
      (x.resolveCollisionOn o y).2.position =
        ⟨o.sub y.position.x (x.correctionOn o y).x,
          o.sub y.position.y (x.correctionOn o y).y⟩) ∧
    ((x.resolveCollisionOn o y).1.radius = x.radius ∧
      (x.resolveCollisionOn o y).2.radius = y.radius) ∧
    a.resolveCollisionOn (Arith.exact sqrt) b = a.resolveCollision sqrt b ∧
    (a.position ≠ b.position →
      ((a.resolveCollision sqrt b).1.position.x + (a.resolveCollision sqrt b).2.position.x =
          a.position.x + b.position.x ∧
        (a.resolveCollision sqrt b).1.position.y + (a.resolveCollision sqrt b).2.position.y =
          a.position.y + b.position.y) ∧
      ((a.resolveCollision sqrt b).1.position.x - a.position.x =
          -((a.resolveCollision sqrt b).2.position.x - b.position.x) ∧
        (a.resolveCollision sqrt b).1.position.y - a.position.y =
          -((a.resolveCollision sqrt b).2.position.y - b.position.y)) ∧
      (∃ t : F,
        (a.resolveCollision sqrt b).1.position.x - a.position.x =
          t * (a.position.x - b.position.x) ∧
        (a.resolveCollision sqrt b).1.position.y - a.position.y =
          t * (a.position.y - b.position.y)) ∧
      euclid sqrt (a.resolveCollision sqrt b).1.position a.position =
        |a.radius + b.radius - euclid sqrt a.position b.position| / 2 ∧
      euclid sqrt (a.resolveCollision sqrt b).2.position b.position =
        |a.radius + b.radius - euclid sqrt a.position b.position| / 2 ∧
      (a.resolveCollision sqrt b).1.radius = a.radius ∧
      (a.resolveCollision sqrt b).2.radius = b.radius) := by
  refine ⟨resolveCollisionOn_of_zero o x y, fun h => ?_, resolveCollisionOn_radius o x y,
    resolveCollisionOn_exact sqrt a b,
    fun hne => resolveCollision_exact_correction sqrt hs a b hne⟩
  rw [resolveCollisionOn_of_nonzero o x y h]
  exact ⟨rfl, rfl⟩

/-- C18 (amended) at the specification's scenario.  Over the reals the centres
`(100, 400)` and `(180, 400)` of two bodies of radius 50 each move by
`|100 - 80| / 2 = 10` and the sum of their x-coordinates stays 280.  In `float`
arithmetic the computed distance is 80, the correction vector is `(-10, 0)`,
and the centres end at `(90, 400)` and `(190, 400)`. -/
theorem resolveCollision_correction_scenario :
    (euclid Real.sqrt (leftBody.resolveCollision Real.sqrt rightBody).1.position
        leftBody.position = 10 ∧
      euclid Real.sqrt (leftBody.resolveCollision Real.sqrt rightBody).2.position
        rightBody.position = 10 ∧
      (leftBody.resolveCollision Real.sqrt rightBody).1.position.x +
        (leftBody.resolveCollision Real.sqrt rightBody).2.position.x = 280) ∧
    (leftBodyQ.distanceOn Arith.ieee rightBodyQ = 80 ∧
      (leftBodyQ.resolveCollisionOn Arith.ieee rightBodyQ).1.position = ⟨90, 400⟩ ∧
      (leftBodyQ.resolveCollisionOn Arith.ieee rightBodyQ).2.position = ⟨190, 400⟩ ∧
      (leftBodyQ.resolveCollisionOn Arith.ieee rightBodyQ).1.radius = 50 ∧
      (leftBodyQ.resolveCollisionOn Arith.ieee rightBodyQ).2.radius = 50) := by
  have he : euclid Real.sqrt leftBody.position rightBody.position = 80 :=
    euclid_eq_of_mul_self isSqrt_real _ _ (by norm_num) (by norm_num [leftBody, rightBody])
  have h := resolveCollision_correction Arith.ieee leftBodyQ rightBodyQ Real.sqrt isSqrt_real
    leftBody rightBody
  obtain ⟨⟨hx, -⟩, -, -, h1, h2, -, -⟩ := h.2.2.2.2 (by norm_num [leftBody, rightBody])
  rw [he] at h1 h2
  refine ⟨⟨h1.trans ?_, h2.trans ?_, hx.trans ?_⟩, distanceOn_ieee_pair, ?_, ?_, h.2.2.1⟩
  · norm_num [leftBody, rightBody]
  · norm_num [leftBody, rightBody]
  · norm_num [leftBody, rightBody]
  · rw [resolveOn_ieee_pair]
    rfl
  · rw [resolveOn_ieee_pair]
    rfl

end MachinePairs

/-! ## The grid over the machine arithmetic -/

section MachineGrid

variable {G D : Type}

/-- Over every arithmetic `addCircle` is `pushAt` at the computed cell. -/
theorem addCircleOn_eq (o : Arith G D) (g : Grid G) (p : Nat) (c : Circle G) :
    g.addCircleOn o p c = g.pushAt p (g.cellIndexOn o c) := rfl

/-- Appending a reference changes neither the dimensions nor the cell size. -/
theorem pushAt_dims (g : Grid G) (p : Nat) (cell : Int × Int) :
    (g.pushAt p cell).cols = g.cols ∧ (g.pushAt p cell).rows = g.rows ∧
    (g.pushAt p cell).cellSize = g.cellSize := by
  unfold Grid.pushAt
  split_ifs <;> exact ⟨rfl, rfl, rfl⟩

/-- Appending a reference keeps the number of cells. -/
theorem pushAt_wf (g : Grid G) (p : Nat) (cell : Int × Int) (h : g.WF) : (g.pushAt p cell).WF := by
  unfold Grid.WF at h ⊢
  obtain ⟨h1, h2, -⟩ := pushAt_dims g p cell
  rw [h1, h2, ← h]
  unfold Grid.pushAt
  split_ifs
  · exact List.length_modify _ _ _
  · rfl

/-- Appending a reference removes nothing from any cell. -/
theorem pushAt_cellAt_mono (g : Grid G) (p : Nat) (cell c : Int × Int) (x : Nat)
    (h : x ∈ g.cellAt c) : x ∈ (g.pushAt p cell).cellAt c := by
  unfold Grid.cellAt at h ⊢
  rw [(pushAt_dims g p cell).1]
  unfold Grid.pushAt
  split_ifs
  · exact mem_getD_modify_of_mem _ _ _ _ _ h
  · exact h

/-- A reference appended at a cell within the grid is stored in that cell. -/
theorem pushAt_mem (g : Grid G) (p : Nat) (cell : Int × Int) (hwf : g.WF)
    (h : g.inGrid cell = true) : p ∈ (g.pushAt p cell).cellAt cell := by
  have hlt := index_lt_of_inGrid g _ hwf h
  unfold Grid.cellAt
  rw [(pushAt_dims g p cell).1]
  simp only [Grid.inGrid, decide_eq_true_eq] at h
  unfold Grid.pushAt
  rw [if_pos h]
  exact mem_getD_modify_self _ _ _ hlt

/-- Appending a reference adds one occurrence of it when the cell lies within
the grid, and otherwise none. -/
theorem count_pushAt (g : Grid G) (hwf : g.WF) (p : Nat) (cell : Int × Int) (x : Nat) :
    (g.pushAt p cell).cells.flatten.count x =
      g.cells.flatten.count x + if g.inGrid cell = true ∧ p = x then 1 else 0 := by
  by_cases hin : g.inGrid cell = true
  · have hlt := index_lt_of_inGrid g _ hwf hin
    have hin0 := hin
    simp only [Grid.inGrid, decide_eq_true_eq] at hin0
    unfold Grid.pushAt
    rw [if_pos hin0]
    simp only [count_flatten_modify, hlt, hin, true_and]
  · have hin0 := hin
    simp only [Grid.inGrid, decide_eq_true_eq] at hin0
    unfold Grid.pushAt
    rw [if_neg hin0]
    simp [hin]

/-- Over every arithmetic `addCircle` changes neither the dimensions nor the
cell size. -/
theorem addCircleOn_dims (o : Arith G D) (g : Grid G) (p : Nat) (c : Circle G) :
    (g.addCircleOn o p c).cols = g.cols ∧ (g.addCircleOn o p c).rows = g.rows ∧
    (g.addCircleOn o p c).cellSize = g.cellSize := by
  rw [addCircleOn_eq]
  exact pushAt_dims g p _

/-- Over every arithmetic `addCircle` keeps the number of cells. -/
theorem addCircleOn_wf (o : Arith G D) (g : Grid G) (p : Nat) (c : Circle G) (h : g.WF) :
    (g.addCircleOn o p c).WF := by
  rw [addCircleOn_eq]
  exact pushAt_wf g p _ h

/-- Over every arithmetic `addCircle` adds one occurrence of the reference when
the computed cell lies within the grid, and otherwise none. -/
theorem count_addCircleOn (o : Arith G D) (g : Grid G) (hwf : g.WF) (p : Nat) (c : Circle G)
    (x : Nat) :
    (g.addCircleOn o p c).cells.flatten.count x =
      g.cells.flatten.count x +
        if g.inGrid (g.cellIndexOn o c) = true ∧ p = x then 1 else 0 := by
  rw [addCircleOn_eq]
  exact count_pushAt g hwf p _ x

/-- Over every arithmetic, filling the grid changes neither the dimensions nor
the cell size. -/
theorem addAllOn_dims (o : Arith G D) (g : Grid G) (circles : List (Circle G)) :
    (g.addAllOn o circles).cols = g.cols ∧ (g.addAllOn o circles).rows = g.rows ∧
    (g.addAllOn o circles).cellSize = g.cellSize := by
  unfold Grid.addAllOn
  generalize circles.enum = l
  induction l generalizing g with
  | nil => exact ⟨rfl, rfl, rfl⟩
  | cons x xs ih =>
    rw [List.foldl_cons]
    obtain ⟨h1, h2, h3⟩ := ih (g.addCircleOn o x.1 x.2)
    rw [h1, h2, h3]
    exact addCircleOn_dims o g _ _

/-- Over every arithmetic, filling the grid adds, for each reference, one
occurrence per entry of the list that carries this reference and a circle whose
computed cell lies within the grid. -/
theorem count_foldl_addCircleOn (o : Arith G D) (l : List (Nat × Circle G)) (g : Grid G)
    (hwf : g.WF) (x : Nat) :
    (l.foldl (fun g pc => g.addCircleOn o pc.1 pc.2) g).cells.flatten.count x =
      g.cells.flatten.count x +
        (l.filter (fun pc => decide (pc.1 = x) && g.inGrid (g.cellIndexOn o pc.2))).length := by
  induction l generalizing g with
  | nil => simp
  | cons a as ih =>
    obtain ⟨h1, h2, h3⟩ := addCircleOn_dims o g a.1 a.2
    have hfun : (fun pc : Nat × Circle G => decide (pc.1 = x) &&
        (g.addCircleOn o a.1 a.2).inGrid ((g.addCircleOn o a.1 a.2).cellIndexOn o pc.2)) =
        (fun pc : Nat × Circle G => decide (pc.1 = x) && g.inGrid (g.cellIndexOn o pc.2)) := by
      funext pc
      simp only [Grid.inGrid, Grid.cellIndexOn, h1, h2, h3]
    rw [List.foldl_cons, ih _ (addCircleOn_wf o g a.1 a.2 hwf), hfun, count_addCircleOn o g hwf,
      List.filter_cons]
    by_cases hc : g.inGrid (g.cellIndexOn o a.2) = true ∧ a.1 = x
    · have hb : (decide (a.1 = x) && g.inGrid (g.cellIndexOn o a.2)) = true := by
        simp [hc.1, hc.2]
      rw [if_pos hc, if_pos hb, List.length_cons]
      omega
    · have hb : ¬ (decide (a.1 = x) && g.inGrid (g.cellIndexOn o a.2)) = true := by
        intro hb
        simp only [Bool.and_eq_true, decide_eq_true_eq] at hb
        exact hc ⟨hb.2, hb.1⟩
      rw [if_neg hc, if_neg hb]
      omega

/-- Over every arithmetic, the number of occurrences of a reference over all
cells after `clear()` and one `addCircle` per circle: 1 for the index of a circle
whose computed cell lies within the grid, 0 for every other number. -/
theorem count_after_fillOn (o : Arith G D) (g : Grid G) (hwf : g.WF) (circles : List (Circle G))
    (x : Nat) :
    (g.clear.addAllOn o circles).cells.flatten.count x =
      match circles[x]? with
      | some c => if g.inGrid (g.cellIndexOn o c) = true then 1 else 0
      | none => 0 := by
  have hcl : g.clear.cells.flatten = [] := flatten_clear g.cells
  have hfun : (fun pc : Nat × Circle G => decide (pc.1 = x) &&
      g.clear.inGrid (g.clear.cellIndexOn o pc.2)) =
      (fun pc : Nat × Circle G => decide (pc.1 = x) && g.inGrid (g.cellIndexOn o pc.2)) := rfl
  unfold Grid.addAllOn
  rw [count_foldl_addCircleOn o _ _ (clear_wf g hwf), hcl, hfun, List.enum,
    length_filter_enumFrom (fun c => g.inGrid (g.cellIndexOn o c))]
  simp only [Nat.zero_le, if_true, Nat.sub_zero, List.count_nil, Nat.zero_add]

/-- Over every arithmetic, filling the grid removes nothing from any cell. -/
theorem foldl_addCircleOn_mono (o : Arith G D) (l : List (Nat × Circle G)) (g : Grid G)
    (cell : Int × Int) (x : Nat) (h : x ∈ g.cellAt cell) :
    x ∈ (l.foldl (fun g pc => g.addCircleOn o pc.1 pc.2) g).cellAt cell := by
  induction l generalizing g with
  | nil => exact h
  | cons a as ih =>
    rw [List.foldl_cons]
    rw [addCircleOn_eq]
    exact ih _ (pushAt_cellAt_mono g a.1 _ cell x h)

/-- Over every arithmetic, after filling the grid every circle whose computed
cell is within the grid is stored in that cell. -/
theorem foldl_addCircleOn_mem (o : Arith G D) (l : List (Nat × Circle G)) (g : Grid G) (p : Nat)
    (c : Circle G) (hwf : g.WF) (hm : (p, c) ∈ l) (h : g.inGrid (g.cellIndexOn o c) = true) :
    p ∈ (l.foldl (fun g pc => g.addCircleOn o pc.1 pc.2) g).cellAt (g.cellIndexOn o c) := by
  induction l generalizing g with
  | nil => simp at hm
  | cons a as ih =>
    rw [List.foldl_cons]
    rcases List.mem_cons.mp hm with heq | hmem
    · subst heq
      have hp := pushAt_mem g p _ hwf h
      rw [← addCircleOn_eq] at hp
      exact foldl_addCircleOn_mono o as _ _ _ hp
    · obtain ⟨h1, h2, h3⟩ := addCircleOn_dims o g a.1 a.2
      have hidx : (g.addCircleOn o a.1 a.2).cellIndexOn o c = g.cellIndexOn o c := by
        simp only [Grid.cellIndexOn, h3]
      have hin : (g.addCircleOn o a.1 a.2).inGrid (g.cellIndexOn o c) = true := by
        simp only [Grid.inGrid, h1, h2] at h ⊢
        exact h
      have := ih (g.addCircleOn o a.1 a.2) (addCircleOn_wf o g a.1 a.2 hwf) hmem
        (by rw [hidx]; exact hin)
      rw [hidx] at this
      exact this

/-- Over every arithmetic, the two nested loops of `getPotentialCollisions`
concatenate the cells of the 3 x 3 block around the computed cell that lie
within the grid, in column-major order. -/
theorem getPotentialCollisionsOn_eq_gather (o : Arith G D) (g : Grid G) (circle : Circle G) :
    g.getPotentialCollisionsOn o circle =
      g.gather (columnMajorBlock (g.cellIndexOn o circle).1 (g.cellIndexOn o circle).2) := by
  have h3 : ∀ k : Int, (k + 1 + 1 - (k - 1)).toNat = 3 := by
    intro k
    omega
  have e1 : ∀ k : Int, k - 1 + 1 = k := by
    intro k
    omega
  rw [← List.nil_append (g.gather _), ← foldl_block_eq_gather]
  simp only [Grid.getPotentialCollisionsOn, Grid.cellIndexOn, forInt, h3, forLoop,
    columnMajorBlock, List.foldl_cons, List.foldl_nil, e1]

/-- The cells of the 3 x 3 block are pairwise distinct. -/
theorem columnMajorBlock_nodup (col row : Int) : (columnMajorBlock col row).Nodup := by
  simp only [columnMajorBlock, List.nodup_cons, List.mem_cons, Prod.mk.injEq, List.mem_singleton,
    List.not_mem_nil, List.nodup_nil, not_or, not_and, not_false_eq_true, and_true]
  refine ⟨⟨?_, ?_, ?_, ?_, ?_, ?_, ?_, ?_⟩, ⟨?_, ?_, ?_, ?_, ?_, ?_, ?_⟩, ⟨?_, ?_, ?_, ?_, ?_, ?_⟩,
    ⟨?_, ?_, ?_, ?_, ?_⟩, ⟨?_, ?_, ?_, ?_⟩, ⟨?_, ?_, ?_⟩, ⟨?_, ?_⟩, ?_⟩ <;> intros <;> omega

/-- The occurrences of a reference in the cells at pairwise distinct indices are
at most its occurrences over all cells. -/
theorem count_flatMap_getD_le (l : List (List Nat)) (ns : List Nat) (hn : ns.Nodup) (x : Nat) :
    (ns.flatMap (fun n => l.getD n [])).count x ≤ l.flatten.count x := by
  have hsum : ∀ l : List (List Nat),
      ∑ n in Finset.range l.length, (l.getD n []).count x = l.flatten.count x := by
    intro l
    induction l with
    | nil => simp
    | cons a as ih =>
      rw [List.length_cons, Finset.sum_range_succ', List.flatten_cons, List.count_append, ← ih]
      simp [add_comm]
  have hzero : ∀ n, n ∉ Finset.range l.length → (l.getD n []).count x = 0 := by
    intro n hn
    rw [Finset.mem_range, not_lt] at hn
    rw [List.getD_eq_getElem?_getD, List.getElem?_eq_none hn]
    rfl
  rw [List.count_flatMap, ← hsum, ← List.sum_toFinset _ hn]
  calc ∑ n in ns.toFinset, (l.getD n []).count x
      ≤ ∑ n in ns.toFinset ∪ Finset.range l.length, (l.getD n []).count x :=
        Finset.sum_le_sum_of_subset Finset.subset_union_left
    _ = ∑ n in Finset.range l.length, (l.getD n []).count x :=
        (Finset.sum_subset Finset.subset_union_right (fun n _ hn => hzero n hn)).symm

/-- A query returns a reference at most as often as it occurs over all cells. -/
theorem count_gather_le (g : Grid G) (col row : Int) (x : Nat) :
    (g.gather (columnMajorBlock col row)).count x ≤ g.cells.flatten.count x := by
  have hnd : (((columnMajorBlock col row).filter g.inGrid).map
      (fun c => (c.1 + c.2 * g.cols).toNat)).Nodup := by
    apply List.Nodup.map_on
    · intro c hc d hd h
      exact index_inj g c d (List.mem_filter.mp hc).2 (List.mem_filter.mp hd).2 h
    · exact (columnMajorBlock_nodup col row).filter _
  have h := count_flatMap_getD_le g.cells _ hnd x
  rw [List.flatMap_map] at h
  exact h

/-- The number of columns the constructor computes. -/
theorem newOn_cols (o : Arith G D) (width height cellSize : G) :
    (Grid.newOn o width height cellSize).cols = o.toInt (o.div width cellSize) := rfl

/-- The number of rows the constructor computes. -/
theorem newOn_rows (o : Arith G D) (width height cellSize : G) :
    (Grid.newOn o width height cellSize).rows = o.toInt (o.div height cellSize) := rfl

/-- The number of cells the constructor creates: the `int` product `cols * rows`
after wrap-around. -/
theorem newOn_length (o : Arith G D) (width height cellSize : G) :
    (Grid.newOn o width height cellSize).cells.length =
      (wrapInt32 ((Grid.newOn o width height cellSize).cols *
        (Grid.newOn o width height cellSize).rows)).toNat := by
  simp only [Grid.newOn, List.length_replicate]

/-- Over every arithmetic the constructor creates exactly `cols * rows` cells
when that product does not overflow `int`. -/
theorem newOn_wf (o : Arith G D) (width height cellSize : G)
    (h0 : -2 ^ 31 ≤ (Grid.newOn o width height cellSize).cols *
      (Grid.newOn o width height cellSize).rows)
    (h1 : (Grid.newOn o width height cellSize).cols *
      (Grid.newOn o width height cellSize).rows < 2 ^ 31) :
    (Grid.newOn o width height cellSize).WF := by
  unfold Grid.WF
  rw [newOn_length, wrapInt32_of_range _ h0 h1]

/-- The cell index in `float` arithmetic: the quotient is rounded to binary32
before the cast truncates it. -/
theorem cellIndexOn_ieee (g : Grid ℚ) (c : Circle ℚ) :
    g.cellIndexOn Arith.ieee c =
      (toInt (round32 (c.position.x / g.cellSize)), toInt (round32 (c.position.y / g.cellSize))) :=
  rfl

/-- Over the exact arithmetic the computed cell is `cellIndex`. -/
theorem cellIndexOn_exact {F : Type} [LinearOrderedField F] [FloorRing F] (sqrt : F → F)
    (g : Grid F) (c : Circle F) : g.cellIndexOn (Arith.exact sqrt) c = g.cellIndex c := rfl

/-- Over the exact arithmetic `addAllOn` is `addAll`. -/
theorem addAllOn_exact {F : Type} [LinearOrderedField F] [FloorRing F] (sqrt : F → F)
    (g : Grid F) (circles : List (Circle F)) :
    g.addAllOn (Arith.exact sqrt) circles = g.addAll circles := rfl

/-- Over the exact arithmetic `newOn` is the constructor `Grid.new`. -/
theorem newOn_exact {F : Type} [LinearOrderedField F] [FloorRing F] (sqrt : F → F)
    (width height cellSize : F) :
    Grid.newOn (Arith.exact sqrt) width height cellSize = Grid.new width height cellSize := rfl

/-- Over the exact arithmetic `getPotentialCollisionsOn` is `getPotentialCollisions`. -/
theorem getPotentialCollisionsOn_exact {F : Type} [LinearOrderedField F] [FloorRing F]
    (sqrt : F → F) (g : Grid F) (c : Circle F) :
    g.getPotentialCollisionsOn (Arith.exact sqrt) c = g.getPotentialCollisions c := rfl

/-- Over every arithmetic, every reference returned by a query is stored in some
cell of the grid. -/
theorem queryOn_subset_cells (o : Arith G D) (g : Grid G) (circle : Circle G) (r : Nat)
    (h : r ∈ g.getPotentialCollisionsOn o circle) : ∃ cell ∈ g.cells, r ∈ cell := by
  rw [getPotentialCollisionsOn_eq_gather] at h
  unfold Grid.gather at h
  obtain ⟨c, -, hc⟩ := List.mem_flatMap.mp h
  unfold Grid.cellAt at hc
  rw [List.getD_eq_getElem?_getD] at hc
  cases hn : g.cells[(c.1 + c.2 * g.cols).toNat]? with
  | none =>
    rw [hn] at hc
    simp at hc
  | some cell =>
    rw [hn] at hc
    exact ⟨cell, List.getElem?_mem hn, hc⟩

/-- Over every arithmetic, after `clear()` and one `addCircle` per circle, every
reference stored in the grid is an index into the vector of circles. -/
theorem refs_after_fillOn (o : Arith G D) (g : Grid G) (hwf : g.WF) (circles : List (Circle G)) :
    ∀ cell ∈ (g.clear.addAllOn o circles).cells, ∀ r ∈ cell, r < circles.length := by
  intro cell hcell r hr
  have hmem : r ∈ (g.clear.addAllOn o circles).cells.flatten :=
    List.mem_flatten.mpr ⟨cell, hcell, hr⟩
  have hpos : 0 < (g.clear.addAllOn o circles).cells.flatten.count r :=
    List.count_pos_iff.mpr hmem
  rw [count_after_fillOn o g hwf] at hpos
  by_contra hlt
  rw [List.getElem?_eq_none (not_lt.mp hlt)] at hpos
  exact absurd hpos (lt_irrefl 0)

/-- Over every arithmetic, after `clear()` and one `addCircle` per circle, a
circle whose computed cell lies within the grid is stored in that cell. -/
theorem stored_after_fillOn (o : Arith G D) (g : Grid G) (hwf : g.WF) (circles : List (Circle G))
    (i : Nat) (c : Circle G) (hc : circles[i]? = some c)
    (hin : g.inGrid (g.cellIndexOn o c) = true) :
    i ∈ (g.clear.addAllOn o circles).cellAt (g.cellIndexOn o c) := by
  have hm : (i, c) ∈ circles.enum := List.mk_mem_enum_iff_getElem?.mpr hc
  exact foldl_addCircleOn_mem o circles.enum g.clear i c (clear_wf g hwf) hm hin

/-- Over every arithmetic, after `clear()` and one `addCircle` per circle, a
circle whose computed cell lies within the grid, at most one column and one
row from the computed cell of a query circle, is returned by the query. -/
theorem query_after_fillOn (o : Arith G D) (g : Grid G) (hwf : g.WF) (circles : List (Circle G))
    (j : Nat) (c q : Circle G) (hc : circles[j]? = some c)
    (hin : g.inGrid (g.cellIndexOn o c) = true)
    (h1 : |(g.cellIndexOn o c).1 - (g.cellIndexOn o q).1| ≤ 1)
    (h2 : |(g.cellIndexOn o c).2 - (g.cellIndexOn o q).2| ≤ 1) :
    j ∈ (g.clear.addAllOn o circles).getPotentialCollisionsOn o q := by
  have hm := stored_after_fillOn o g hwf circles j c hc hin
  obtain ⟨d1, d2, d3⟩ := addAllOn_dims o g.clear circles
  have hidx : (g.clear.addAllOn o circles).cellIndexOn o q = g.cellIndexOn o q := by
    simp only [Grid.cellIndexOn, d3]
    rfl
  have hin2 : (g.clear.addAllOn o circles).inGrid (g.cellIndexOn o c) = true := by
    simp only [Grid.inGrid, d1, d2] at hin ⊢
    exact hin
  rw [getPotentialCollisionsOn_eq_gather, hidx]
  unfold Grid.gather
  rw [List.mem_flatMap]
  refine ⟨g.cellIndexOn o c, ?_, hm⟩
  rw [List.mem_filter]
  exact ⟨mem_columnMajorBlock _ _ _ _ h1 h2, hin2⟩

/-- Over every arithmetic, after `clear()` and one `addCircle` per circle, a
query returns no reference twice. -/
theorem query_count_after_fillOn (o : Arith G D) (g : Grid G) (hwf : g.WF)
    (circles : List (Circle G)) (q : Circle G) (x : Nat) :
    ((g.clear.addAllOn o circles).getPotentialCollisionsOn o q).count x ≤ 1 := by
  rw [getPotentialCollisionsOn_eq_gather]
  refine le_trans (count_gather_le _ _ _ x) ?_
  rw [count_after_fillOn o g hwf]
  cases circles[x]? with
  | none => exact Nat.zero_le 1
  | some c =>
    simp only []
    split_ifs
    · exact le_rfl
    · exact Nat.zero_le 1

/-- In `float` arithmetic the grid of `main`, `Grid(800, 800, 100)`, has 8 columns
and 8 rows. -/
theorem mainGridQ_dims :
    (Grid.newOn Arith.ieee 800 800 100).cols = 8 ∧
    (Grid.newOn Arith.ieee 800 800 100).rows = 8 ∧
    (Grid.newOn Arith.ieee 800 800 100).cellSize = 100 := by
  have h1 : round32 (800 / 100) = 8 := by
    have h := roundTo_eq 24 (-126) (800 / 100) 3 (-20) 8388608
      (by norm_num) (by norm_num [abs_of_pos]) (by norm_num [abs_of_pos])
      (by norm_num) (by norm_num) (by norm_num)
    unfold round32
    rw [h]
    norm_num
  have h2 : toInt (8 : ℚ) = 8 := by
    simp only [toInt]
    norm_num
  refine ⟨?_, ?_, rfl⟩
  · rw [newOn_cols, ieee_div, ieee_toInt, h1, h2]
  · rw [newOn_rows, ieee_div, ieee_toInt, h1, h2]

/-- In `float` arithmetic `Grid(300, 300, 100)` has 3 columns and 3 rows. -/
theorem smallGridQ_dims :
    (Grid.newOn Arith.ieee 300 300 100).cols = 3 ∧
    (Grid.newOn Arith.ieee 300 300 100).rows = 3 ∧
    (Grid.newOn Arith.ieee 300 300 100).cellSize = 100 := by
  have h1 : round32 (300 / 100) = 3 := by
    have h := roundTo_eq 24 (-126) (300 / 100) 1 (-22) 12582912
      (by norm_num) (by norm_num [abs_of_pos]) (by norm_num [abs_of_pos])
      (by norm_num) (by norm_num) (by norm_num)
    unfold round32
    rw [h]
    norm_num
  have h2 : toInt (3 : ℚ) = 3 := by
    simp only [toInt]
    norm_num
  refine ⟨?_, ?_, rfl⟩
  · rw [newOn_cols, ieee_div, ieee_toInt, h1, h2]
  · rw [newOn_rows, ieee_div, ieee_toInt, h1, h2]

/-- In `float` arithmetic `Grid(3600, 3600, 99.9f)` has 36 columns and 36 rows: the
quotient `3600 / 99.9f` rounds to `36.03603...`. -/
theorem edgeGrid_dims :
    (Grid.newOn Arith.ieee 3600 3600 cellSize999).cols = 36 ∧
    (Grid.newOn Arith.ieee 3600 3600 cellSize999).rows = 36 ∧
    (Grid.newOn Arith.ieee 3600 3600 cellSize999).cellSize = 13094093 / 131072 := by
  have h1 : round32 (3600 / (13094093 / 131072)) = 4723315 / 131072 := by
    have h := roundTo_eq 24 (-126) (3600 / (13094093 / 131072)) 5 (-18) 9446630
      (by norm_num) (by norm_num [abs_of_pos]) (by norm_num [abs_of_pos])
      (by norm_num) (by norm_num) (by norm_num)
    unfold round32
    rw [h]
    norm_num
  have h2 : toInt (4723315 / 131072 : ℚ) = 36 := by
    simp only [toInt]
    norm_num
  have hc : cellSize999 = 13094093 / 131072 := rfl
  refine ⟨?_, ?_, rfl⟩
  · rw [newOn_cols, ieee_div, ieee_toInt, hc, h1, h2]
  · rw [newOn_rows, ieee_div, ieee_toInt, hc, h1, h2]

/-- In `float` arithmetic, with cell size 100, the cell computed for the centre
`(100, 400)` is
`(1, 4)`. -/
theorem cell_ieee_leftBodyQ (g : Grid ℚ) (hg : g.cellSize = 100) :
    g.cellIndexOn Arith.ieee leftBodyQ = (1, 4) := by
  have h1 : round32 (100 / 100) = 1 := by
    have h := roundTo_eq 24 (-126) (100 / 100) 0 (-23) 8388608
      (by norm_num) (by norm_num [abs_of_pos]) (by norm_num [abs_of_pos])
      (by norm_num) (by norm_num) (by norm_num)
    unfold round32
    rw [h]
    norm_num
  have h2 : round32 (400 / 100) = 4 := by
    have h := roundTo_eq 24 (-126) (400 / 100) 2 (-21) 8388608
      (by norm_num) (by norm_num [abs_of_pos]) (by norm_num [abs_of_pos])
      (by norm_num) (by norm_num) (by norm_num)
    unfold round32
    rw [h]
    norm_num
  have h3 : toInt (1 : ℚ) = 1 := by
    simp only [toInt]
    norm_num
  have h4 : toInt (4 : ℚ) = 4 := by
    simp only [toInt]
    norm_num
  have fp : leftBodyQ.position.x = 100 ∧ leftBodyQ.position.y = 400 := ⟨rfl, rfl⟩
  rw [cellIndexOn_ieee, hg, fp.1, fp.2, h1, h2, h3, h4]

/-- In `float` arithmetic, with cell size 100, the cell computed for the centre
`(180, 400)` is
`(1, 4)`. -/
theorem cell_ieee_rightBodyQ (g : Grid ℚ) (hg : g.cellSize = 100) :
    g.cellIndexOn Arith.ieee rightBodyQ = (1, 4) := by
  have h1 : round32 (180 / 100) = 7549747 / 4194304 := by
    have h := roundTo_eq 24 (-126) (180 / 100) 0 (-23) 15099494
      (by norm_num) (by norm_num [abs_of_pos]) (by norm_num [abs_of_pos])
      (by norm_num) (by norm_num) (by norm_num)
    unfold round32
    rw [h]
    norm_num
  have h2 : round32 (400 / 100) = 4 := by
    have h := roundTo_eq 24 (-126) (400 / 100) 2 (-21) 8388608
      (by norm_num) (by norm_num [abs_of_pos]) (by norm_num [abs_of_pos])
      (by norm_num) (by norm_num) (by norm_num)
    unfold round32
    rw [h]
    norm_num
  have h3 : toInt (7549747 / 4194304 : ℚ) = 1 := by
    simp only [toInt]
    norm_num
  have h4 : toInt (4 : ℚ) = 4 := by
    simp only [toInt]
    norm_num
  have fp : rightBodyQ.position.x = 180 ∧ rightBodyQ.position.y = 400 := ⟨rfl, rfl⟩
  rw [cellIndexOn_ieee, hg, fp.1, fp.2, h1, h2, h3, h4]

/-- In `float` arithmetic, with cell size 100, the cell computed for `skewLeft` is
`(1, 4)`. -/
theorem cell_ieee_skewLeft (g : Grid ℚ) (hg : g.cellSize = 100) :
    g.cellIndexOn Arith.ieee skewLeft = (1, 4) := by
  have h1 : round32 (100 / 100) = 1 := by
    have h := roundTo_eq 24 (-126) (100 / 100) 0 (-23) 8388608
      (by norm_num) (by norm_num [abs_of_pos]) (by norm_num [abs_of_pos])
      (by norm_num) (by norm_num) (by norm_num)
    unfold round32
    rw [h]
    norm_num
  have h2 : round32 (400 / 100) = 4 := by
    have h := roundTo_eq 24 (-126) (400 / 100) 2 (-21) 8388608
      (by norm_num) (by norm_num [abs_of_pos]) (by norm_num [abs_of_pos])
      (by norm_num) (by norm_num) (by norm_num)
    unfold round32
    rw [h]
    norm_num
  have h3 : toInt (1 : ℚ) = 1 := by
    simp only [toInt]
    norm_num
  have h4 : toInt (4 : ℚ) = 4 := by
    simp only [toInt]
    norm_num
  have fp : skewLeft.position.x = 100 ∧ skewLeft.position.y = 400 := ⟨rfl, rfl⟩
  rw [cellIndexOn_ieee, hg, fp.1, fp.2, h1, h2, h3, h4]

/-- In `float` arithmetic, with cell size 100, the cell computed for the centre
`(107, 424)` is
`(1, 4)`. -/
theorem cell_ieee_skewRight (g : Grid ℚ) (hg : g.cellSize = 100) :
    g.cellIndexOn Arith.ieee skewRight = (1, 4) := by
  have h1 : round32 (107 / 100) = 8975811 / 8388608 := by
    have h := roundTo_eq 24 (-126) (107 / 100) 0 (-23) 8975811
      (by norm_num) (by norm_num [abs_of_pos]) (by norm_num [abs_of_pos])
      (by norm_num) (by norm_num) (by norm_num)
    unfold round32
    rw [h]
    norm_num
  have h2 : round32 (424 / 100) = 2222981 / 524288 := by
    have h := roundTo_eq 24 (-126) (424 / 100) 2 (-21) 8891924
      (by norm_num) (by norm_num [abs_of_pos]) (by norm_num [abs_of_pos])
      (by norm_num) (by norm_num) (by norm_num)
    unfold round32
    rw [h]
    norm_num
  have h3 : toInt (8975811 / 8388608 : ℚ) = 1 := by
    simp only [toInt]
    norm_num
  have h4 : toInt (2222981 / 524288 : ℚ) = 4 := by
    simp only [toInt]
    norm_num
  have fp : skewRight.position.x = 107 ∧ skewRight.position.y = 424 := ⟨rfl, rfl⟩
  rw [cellIndexOn_ieee, hg, fp.1, fp.2, h1, h2, h3, h4]

/-- In `float` arithmetic, with cell size 100, the cell computed for the centre of
`skewRightMoved` is
`(1, 4)`. -/
theorem cell_ieee_skewRightMoved (g : Grid ℚ) (hg : g.cellSize = 100) :
    g.cellIndexOn Arith.ieee skewRightMoved = (1, 4) := by
  have h1 : round32 ((7516979 / 65536) / 100) = 9621733 / 8388608 := by
    have h := roundTo_eq 24 (-126) ((7516979 / 65536) / 100) 0 (-23) 9621733
      (by norm_num) (by norm_num [abs_of_pos]) (by norm_num [abs_of_pos])
      (by norm_num) (by norm_num) (by norm_num)
    unfold round32
    rw [h]
    norm_num
  have h2 : round32 ((14758707 / 32768) / 100) = 2361393 / 524288 := by
    have h := roundTo_eq 24 (-126) ((14758707 / 32768) / 100) 2 (-21) 9445572
      (by norm_num) (by norm_num [abs_of_pos]) (by norm_num [abs_of_pos])
      (by norm_num) (by norm_num) (by norm_num)
    unfold round32
    rw [h]
    norm_num
  have h3 : toInt (9621733 / 8388608 : ℚ) = 1 := by
    simp only [toInt]
    norm_num
  have h4 : toInt (2361393 / 524288 : ℚ) = 4 := by
    simp only [toInt]
    norm_num
  have fp : skewRightMoved.position.x = 7516979 / 65536 ∧ skewRightMoved.position.y = 14758707 / 32768 := ⟨rfl, rfl⟩
  rw [cellIndexOn_ieee, hg, fp.1, fp.2, h1, h2, h3, h4]

/-- In `float` arithmetic, with cell size 100, the cell computed for the centre
`(150, 150)` is
`(1, 1)`. -/
theorem cell_ieee_middleBody (g : Grid ℚ) (hg : g.cellSize = 100) :
    g.cellIndexOn Arith.ieee middleBody = (1, 1) := by
  have h1 : round32 (150 / 100) = 3 / 2 := by
    have h := roundTo_eq 24 (-126) (150 / 100) 0 (-23) 12582912
      (by norm_num) (by norm_num [abs_of_pos]) (by norm_num [abs_of_pos])
      (by norm_num) (by norm_num) (by norm_num)
    unfold round32
    rw [h]
    norm_num
  have h2 : toInt (3 / 2 : ℚ) = 1 := by
    simp only [toInt]
    norm_num
  have fp : middleBody.position.x = 150 ∧ middleBody.position.y = 150 := ⟨rfl, rfl⟩
  rw [cellIndexOn_ieee, hg, fp.1, fp.2, h1, h2]

/-- In `float` arithmetic, with cell size 100, the cell computed for the centre
`(-150, 50)` is
`(-1, 0)`. -/
theorem cell_ieee_farBody (g : Grid ℚ) (hg : g.cellSize = 100) :
    g.cellIndexOn Arith.ieee farBody = (-1, 0) := by
  have h1 : round32 ((-150) / 100) = -(3 / 2) := by
    have h := roundTo_eq 24 (-126) ((-150) / 100) 0 (-23) (-12582912)
      (by norm_num) (by norm_num [abs_of_neg]) (by norm_num [abs_of_neg])
      (by norm_num) (by norm_num) (by norm_num)
    unfold round32
    rw [h]
    norm_num
  have h2 : round32 (50 / 100) = 1 / 2 := by
    have h := roundTo_eq 24 (-126) (50 / 100) (-1) (-24) 8388608
      (by norm_num) (by norm_num [abs_of_pos]) (by norm_num [abs_of_pos])
      (by norm_num) (by norm_num) (by norm_num)
    unfold round32
    rw [h]
    norm_num
  have h3 : toInt (-(3 / 2) : ℚ) = -1 := by
    have hneg : ¬ (0 : ℚ) ≤ -(3 / 2) := by norm_num
    simp only [toInt, hneg, if_false]
    rw [Int.ceil_eq_iff]
    norm_num
  have h4 : toInt (1 / 2 : ℚ) = 0 := by
    simp only [toInt]
    norm_num
  have fp : farBody.position.x = -150 ∧ farBody.position.y = 50 := ⟨rfl, rfl⟩
  rw [cellIndexOn_ieee, hg, fp.1, fp.2, h1, h2, h3, h4]

/-- In `float` arithmetic, with cell size `99.9f`, the cell computed for the centre
`(3596.39990234375, 50)` is `(36, 0)`: the quotient `3596.39990234375 / 99.9f` is
`35.9999985...` and rounds to the `float` 36. -/
theorem cell_ieee_edgeBody (g : Grid ℚ) (hg : g.cellSize = 13094093 / 131072) :
    g.cellIndexOn Arith.ieee edgeBody = (36, 0) := by
  have h1 : round32 ((7365427 / 2048) / (13094093 / 131072)) = 36 := by
    have h := roundTo_eq 24 (-126) ((7365427 / 2048) / (13094093 / 131072)) 5 (-18) 9437184
      (by norm_num) (by norm_num [abs_of_pos]) (by norm_num [abs_of_pos])
      (by norm_num) (by norm_num) (by norm_num)
    unfold round32
    rw [h]
    norm_num
  have h2 : round32 (50 / (13094093 / 131072)) = 8397005 / 16777216 := by
    have h := roundTo_eq 24 (-126) (50 / (13094093 / 131072)) (-1) (-24) 8397005
      (by norm_num) (by norm_num [abs_of_pos]) (by norm_num [abs_of_pos])
      (by norm_num) (by norm_num) (by norm_num)
    unfold round32
    rw [h]
    norm_num
  have h3 : toInt (36 : ℚ) = 36 := by
    simp only [toInt]
    norm_num
  have h4 : toInt (8397005 / 16777216 : ℚ) = 0 := by
    simp only [toInt]
    norm_num
  have fp : edgeBody.position.x = 7365427 / 2048 ∧ edgeBody.position.y = 50 := ⟨rfl, rfl⟩
  rw [cellIndexOn_ieee, hg, fp.1, fp.2, h1, h2, h3, h4]

/-- C12 (as stated, refuted): in `float` arithmetic `Grid(3600, 3600, 99.9f)` has
positive cell size, 36 columns and 36 rows and one cell per index.  The centre
`(3596.39990234375, 50)` lies inside the grid area, left of `36 * 99.9f`; yet
the cell computed for it is `(36, 0)`, because the quotient
`3596.39990234375 / 99.9f = 35.9999985...` rounds to the `float` 36 before the
cast.  Column 36 fails `col < cols`, so after `clear()` and `addCircle` the body
is stored in no cell. -/
theorem inside_body_not_indexed :
    (0 < (Grid.newOn Arith.ieee 3600 3600 cellSize999).cellSize ∧
      (Grid.newOn Arith.ieee 3600 3600 cellSize999).cols = 36 ∧
      (Grid.newOn Arith.ieee 3600 3600 cellSize999).rows = 36 ∧
      (Grid.newOn Arith.ieee 3600 3600 cellSize999).WF) ∧
    (0 ≤ edgeBody.position.x ∧
      edgeBody.position.x <
        ((Grid.newOn Arith.ieee 3600 3600 cellSize999).cols : ℚ) *
          (Grid.newOn Arith.ieee 3600 3600 cellSize999).cellSize ∧
      0 ≤ edgeBody.position.y ∧
      edgeBody.position.y <
        ((Grid.newOn Arith.ieee 3600 3600 cellSize999).rows : ℚ) *
          (Grid.newOn Arith.ieee 3600 3600 cellSize999).cellSize) ∧
    (Grid.newOn Arith.ieee 3600 3600 cellSize999).cellIndexOn Arith.ieee edgeBody = (36, 0) ∧
    ((Grid.newOn Arith.ieee 3600 3600 cellSize999).clear.addAllOn Arith.ieee
      [edgeBody]).cells.flatten.count 0 = 0 ∧
    0 ∉ ((Grid.newOn Arith.ieee 3600 3600 cellSize999).clear.addAllOn Arith.ieee
      [edgeBody]).cells.flatten := by
  obtain ⟨dc, dr, ds⟩ := edgeGrid_dims
  have hwf : (Grid.newOn Arith.ieee 3600 3600 cellSize999).WF := by
    apply newOn_wf <;> rw [dc, dr] <;> norm_num
  have hcell := cell_ieee_edgeBody (Grid.newOn Arith.ieee 3600 3600 cellSize999) ds
  have fp : edgeBody.position.x = 7365427 / 2048 ∧ edgeBody.position.y = 50 := ⟨rfl, rfl⟩
  have hout : (Grid.newOn Arith.ieee 3600 3600 cellSize999).inGrid
      ((Grid.newOn Arith.ieee 3600 3600 cellSize999).cellIndexOn Arith.ieee edgeBody) =
        false := by
    rw [hcell]
    simp only [Grid.inGrid, dc, dr]
    decide
  have hcount : ((Grid.newOn Arith.ieee 3600 3600 cellSize999).clear.addAllOn Arith.ieee
      [edgeBody]).cells.flatten.count 0 = 0 := by
    rw [count_after_fillOn Arith.ieee _ hwf]
    simp only [List.getElem?_cons_zero, hout, Bool.false_eq_true, if_false]
  refine ⟨⟨?_, dc, dr, hwf⟩, ⟨?_, ?_, ?_, ?_⟩, hcell, hcount, ?_⟩
  · rw [ds]
    norm_num
  · rw [fp.1]
    norm_num
  · rw [fp.1, dc, ds]
    norm_num
  · rw [fp.2]
    norm_num
  · rw [fp.2, dr, ds]
    norm_num
  · intro hmem
    have hpos := List.count_pos_iff.mpr hmem
    rw [hcount] at hpos
    exact absurd hpos (lt_irrefl 0)

/-- C12 (amended): in every arithmetic, `float` included, after `clear()` and one
`addCircle` per circle of the vector, in a grid with one cell per index: a
circle whose computed cell (the two quotients `position / cellSize` as the
arithmetic rounds them, truncated by the cast) lies within the grid occurs
exactly once over all cells, in that cell; a circle whose computed cell lies
outside the grid occurs in no cell; no reference occurs twice; and every
reference found in a cell is the index of a circle of the vector that this pass
put there (nothing survives `clear()`).  In exact arithmetic (where the
computed cell is `cellIndex`) and for a positive cell size, a centre inside the
grid area `[0, cols * cellSize) x [0, rows * cellSize)` has its computed cell
within the grid, and that cell contains the centre geometrically. -/
theorem frame_index_by_computed_cell {G D : Type} (o : Arith G D) (g : Grid G) (hwf : g.WF)
    (circles : List (Circle G))
    {F : Type} [LinearOrderedField F] [FloorRing F] (sqrt : F → F) (gx : Grid F)
    (hcs : 0 < gx.cellSize) (c : Circle F) :
    (∀ (i : Nat) (b : Circle G), circles[i]? = some b →
      (g.inGrid (g.cellIndexOn o b) = true →
        (g.clear.addAllOn o circles).cells.flatten.count i = 1 ∧
        i ∈ (g.clear.addAllOn o circles).cellAt (g.cellIndexOn o b)) ∧
      (g.inGrid (g.cellIndexOn o b) = false →
        (g.clear.addAllOn o circles).cells.flatten.count i = 0)) ∧
    (∀ r : Nat, (g.clear.addAllOn o circles).cells.flatten.count r ≤ 1) ∧
    (∀ r : Nat, r ∈ (g.clear.addAllOn o circles).cells.flatten →
      ∃ b : Circle G, circles[r]? = some b ∧ g.inGrid (g.cellIndexOn o b) = true ∧
        r ∈ (g.clear.addAllOn o circles).cellAt (g.cellIndexOn o b)) ∧
    (gx.cellIndexOn (Arith.exact sqrt) c = gx.cellIndex c ∧
      gx.clear.addAllOn (Arith.exact sqrt) [c] = gx.clear.addAll [c]) ∧
    (0 ≤ c.position.x → c.position.x < (gx.cols : F) * gx.cellSize →
      0 ≤ c.position.y → c.position.y < (gx.rows : F) * gx.cellSize →
        gx.inGrid (gx.cellIndex c) = true ∧
        ((gx.cellIndex c).1 : F) * gx.cellSize ≤ c.position.x ∧
        c.position.x < (((gx.cellIndex c).1 : F) + 1) * gx.cellSize ∧
        ((gx.cellIndex c).2 : F) * gx.cellSize ≤ c.position.y ∧
        c.position.y < (((gx.cellIndex c).2 : F) + 1) * gx.cellSize) := by
  refine ⟨?_, ?_, ?_, ⟨rfl, rfl⟩, ?_⟩
  · intro i b hb
    constructor
    · intro hin
      refine ⟨?_, stored_after_fillOn o g hwf circles i b hb hin⟩
      rw [count_after_fillOn o g hwf, hb]
      simp only [hin, if_true]
    · intro hout
      rw [count_after_fillOn o g hwf, hb]
      simp only [hout, Bool.false_eq_true, if_false]
  · intro r
    rw [count_after_fillOn o g hwf]
    cases circles[r]? with
    | none => exact Nat.zero_le 1
    | some b =>
      simp only []
      split_ifs
      · exact le_rfl
      · exact Nat.zero_le 1
  · intro r hr
    have hpos : 0 < (g.clear.addAllOn o circles).cells.flatten.count r :=
      List.count_pos_iff.mpr hr
    rw [count_after_fillOn o g hwf] at hpos
    cases hb : circles[r]? with
    | none =>
      rw [hb] at hpos
      exact absurd hpos (lt_irrefl 0)
    | some b =>
      rw [hb] at hpos
      simp only [] at hpos
      by_cases hin : g.inGrid (g.cellIndexOn o b) = true
      · exact ⟨b, rfl, hin, stored_after_fillOn o g hwf circles r b hb hin⟩
      · rw [if_neg hin] at hpos
        exact absurd hpos (lt_irrefl 0)
  · intro hx0 hx1 hy0 hy1
    obtain ⟨a1, a2, a3, a4⟩ := toInt_contains gx.cellSize c.position.x gx.cols hcs hx0 hx1
    obtain ⟨b1, b2, b3, b4⟩ := toInt_contains gx.cellSize c.position.y gx.rows hcs hy0 hy1
    refine ⟨?_, a3, a4, b3, b4⟩
    simp only [Grid.inGrid, Grid.cellIndex, decide_eq_true_eq]
    exact ⟨a1, a2, b1, b2⟩

/-- C12 (amended) at concrete circles, in `float` arithmetic: in `Grid(300, 300,
100)` filled with the circles at `(-150, 50)` and `(150, 150)`, reference 1
occurs exactly once, in its computed cell `(1, 1)`, and reference 0, whose
computed cell `(-1, 0)` lies outside the grid, occurs in no cell.  In exact
arithmetic the centre `(150, 150)` lies in the cell `(1, 1)` of the 3 x 3 grid,
which contains it. -/
theorem frame_index_by_computed_cell_scenario :
    (((Grid.newOn Arith.ieee 300 300 100).clear.addAllOn Arith.ieee
        [farBody, middleBody]).cells.flatten.count 1 = 1 ∧
      1 ∈ ((Grid.newOn Arith.ieee 300 300 100).clear.addAllOn Arith.ieee
        [farBody, middleBody]).cellAt (1, 1) ∧
      ((Grid.newOn Arith.ieee 300 300 100).clear.addAllOn Arith.ieee
        [farBody, middleBody]).cells.flatten.count 0 = 0) ∧
    ((Grid.new (300 : ℚ) 300 100).inGrid ((Grid.new (300 : ℚ) 300 100).cellIndex middleBody) =
        true ∧
      (((Grid.new (300 : ℚ) 300 100).cellIndex middleBody).1 : ℚ) *
        (Grid.new (300 : ℚ) 300 100).cellSize ≤ middleBody.position.x) := by
  obtain ⟨dc, dr, ds⟩ := smallGridQ_dims
  have hwf : (Grid.newOn Arith.ieee 300 300 100).WF := by
    apply newOn_wf <;> rw [dc, dr] <;> norm_num
  have hcs : (0 : ℚ) < (Grid.new (300 : ℚ) 300 100).cellSize := by
    simp only [grid_new_300]
    norm_num
  have h := frame_index_by_computed_cell Arith.ieee (Grid.newOn Arith.ieee 300 300 100) hwf
    [farBody, middleBody] id (Grid.new (300 : ℚ) 300 100) hcs middleBody
  have hm := cell_ieee_middleBody (Grid.newOn Arith.ieee 300 300 100) ds
  have hf := cell_ieee_farBody (Grid.newOn Arith.ieee 300 300 100) ds
  have hin : (Grid.newOn Arith.ieee 300 300 100).inGrid
      ((Grid.newOn Arith.ieee 300 300 100).cellIndexOn Arith.ieee middleBody) = true := by
    rw [hm]
    simp only [Grid.inGrid, dc, dr]
    decide
  have hout : (Grid.newOn Arith.ieee 300 300 100).inGrid
      ((Grid.newOn Arith.ieee 300 300 100).cellIndexOn Arith.ieee farBody) = false := by
    rw [hf]
    simp only [Grid.inGrid, dc, dr]
    decide
  have h1 := (h.1 1 middleBody rfl).1 hin
  rw [hm] at h1
  have hx := h.2.2.2.2 (by norm_num [middleBody]) (by norm_num [middleBody, grid_new_300])
    (by norm_num [middleBody]) (by norm_num [middleBody, grid_new_300])
  exact ⟨⟨h1.1, h1.2, (h.1 0 farBody rfl).2 hout⟩, hx.1, hx.2.1⟩

end MachineGrid

/-! ## The collision pass over the machine arithmetic -/

section MachinePass

variable {G D : Type}

/-- Over every arithmetic, a round of the inner loop of `checkCollisions` whose
candidate is the circle itself calls nothing and changes nothing. -/
theorem checkCollisionsStepOn_self (o : Arith G D) (i : Nat)
    (st : List (Circle G) × List (Nat × Nat)) : checkCollisionsStepOn o i st i = st := by
  unfold checkCollisionsStepOn
  cases st.1[i]? with
  | none => rfl
  | some c => simp

/-- Over every arithmetic, the inner loop of `checkCollisions` over candidates
that are all the circle itself calls nothing and changes nothing. -/
theorem inner_selfOn (o : Arith G D) (i : Nat) (p : List Nat) (hp : ∀ r ∈ p, r = i)
    (st : List (Circle G) × List (Nat × Nat)) :
    p.foldl (checkCollisionsStepOn o i) st = st := by
  induction p with
  | nil => rfl
  | cons r rs ih =>
    rw [List.foldl_cons, hp r (List.mem_cons_self r rs), checkCollisionsStepOn_self]
    exact ih (fun r hr => hp r (List.mem_cons_of_mem _ hr))

/-- Candidates below 2 among which `x` does not occur are all the other one. -/
theorem all_eq_of_count_zero (p : List Nat) (hp : ∀ r ∈ p, r < 2) (x y : Nat) (hx : x < 2)
    (hy : y < 2) (hxy : x ≠ y) (hc : p.count x = 0) : ∀ r ∈ p, r = y := by
  intro r hr
  have hne : r ≠ x := by
    intro h
    rw [h] at hr
    exact absurd (List.count_pos_iff.mpr hr) (by omega)
  have := hp r hr
  omega

/-- Over every arithmetic, the inner loop of `checkCollisions` for the first of
two circles that the overlap test reports as colliding, over candidates that
are references to the two circles and contain none twice: `resolveCollision`
is called once if the second circle is among the candidates, and not at all
otherwise. -/
theorem inner_firstOn (o : Arith G D) (a b : Circle G)
    (hov : a.checkCollisionWithOn o b = true) (p : List Nat) (hp : ∀ r ∈ p, r < 2)
    (hc : p.count 1 ≤ 1) (log : List (Nat × Nat)) :
    p.foldl (checkCollisionsStepOn o 0) ([a, b], log) =
      if 1 ∈ p then
        ([(a.resolveCollisionOn o b).1, (a.resolveCollisionOn o b).2], log ++ [(0, 1)])
      else ([a, b], log) := by
  induction p with
  | nil => rfl
  | cons r rs ih =>
    have hr : r < 2 := hp r (List.mem_cons_self r rs)
    have hrs : ∀ r ∈ rs, r < 2 := fun r hr => hp r (List.mem_cons_of_mem _ hr)
    rw [List.foldl_cons]
    interval_cases r
    · rw [checkCollisionsStepOn_self, ih hrs (by simpa using hc)]
      simp
    · have hstep : checkCollisionsStepOn o 0 ([a, b], log) 1 =
          ([(a.resolveCollisionOn o b).1, (a.resolveCollisionOn o b).2],
            log ++ [(0, 1)]) := by
        simp [checkCollisionsStepOn, hov]
      have hz : rs.count 1 = 0 := by
        rw [List.count_cons_self] at hc
        omega
      rw [hstep, inner_selfOn o 0 rs (all_eq_of_count_zero rs hrs 1 0 (by omega) (by omega)
        (by omega) hz)]
      simp

/-- Over every arithmetic, the inner loop of `checkCollisions` for the second of
two circles, over candidates that are references to the two circles and
contain none twice: `resolveCollision` is called once if the first circle is
among the candidates and the overlap test reports the two as colliding, and
not at all otherwise. -/
theorem inner_secondOn (o : Arith G D) (x y : Circle G) (p : List Nat) (hp : ∀ r ∈ p, r < 2)
    (hc : p.count 0 ≤ 1) (log : List (Nat × Nat)) :
    p.foldl (checkCollisionsStepOn o 1) ([x, y], log) =
      if 0 ∈ p ∧ y.checkCollisionWithOn o x = true then
        ([(y.resolveCollisionOn o x).2, (y.resolveCollisionOn o x).1], log ++ [(1, 0)])
      else ([x, y], log) := by
  induction p with
  | nil => simp
  | cons r rs ih =>
    have hr : r < 2 := hp r (List.mem_cons_self r rs)
    have hrs : ∀ r ∈ rs, r < 2 := fun r hr => hp r (List.mem_cons_of_mem _ hr)
    rw [List.foldl_cons]
    interval_cases r
    · have hz : rs.count 0 = 0 := by
        rw [List.count_cons_self] at hc
        omega
      have hall := all_eq_of_count_zero rs hrs 0 1 (by omega) (by omega) (by omega) hz
      by_cases hyx : y.checkCollisionWithOn o x = true
      · have hstep : checkCollisionsStepOn o 1 ([x, y], log) 0 =
            ([(y.resolveCollisionOn o x).2, (y.resolveCollisionOn o x).1],
              log ++ [(1, 0)]) := by
          simp [checkCollisionsStepOn, hyx]
        rw [hstep, inner_selfOn o 1 rs hall]
        simp [hyx]
      · have hstep : checkCollisionsStepOn o 1 ([x, y], log) 0 = ([x, y], log) := by
          simp [checkCollisionsStepOn, hyx]
        rw [hstep, inner_selfOn o 1 rs hall]
        simp [hyx]
    · rw [checkCollisionsStepOn_self, ih hrs (by simpa using hc)]
      simp

/-- Over every arithmetic, a pass of `checkCollisions` over two circles that the
overlap test reports as colliding, on a grid whose queries return only the
references 0 and 1, none twice, and return the second circle for the first:
`resolveCollision` is called for the first circle with the second as
argument, and then once more, for the second circle with the first as
argument, exactly when the query for the moved second circle returns the first
and the overlap test reports the two moved circles as colliding. -/
theorem pair_passOn (o : Arith G D) (g : Grid G) (a b : Circle G)
    (hov : a.checkCollisionWithOn o b = true)
    (hrefs : ∀ q : Circle G, ∀ r ∈ g.getPotentialCollisionsOn o q, r < 2)
    (hcnt : ∀ (q : Circle G) (x : Nat), (g.getPotentialCollisionsOn o q).count x ≤ 1)
    (h1 : 1 ∈ g.getPotentialCollisionsOn o a) :
    checkCollisionsLogOn o [a, b] g =
      if 0 ∈ g.getPotentialCollisionsOn o (a.resolveCollisionOn o b).2 ∧
          (a.resolveCollisionOn o b).2.checkCollisionWithOn o (a.resolveCollisionOn o b).1 =
            true then
        ([((a.resolveCollisionOn o b).2.resolveCollisionOn o (a.resolveCollisionOn o b).1).2,
          ((a.resolveCollisionOn o b).2.resolveCollisionOn o (a.resolveCollisionOn o b).1).1],
          [(0, 1), (1, 0)])
      else ([(a.resolveCollisionOn o b).1, (a.resolveCollisionOn o b).2], [(0, 1)]) := by
  have hrange : List.range ([a, b] : List (Circle G)).length = [0, 1] := rfl
  unfold checkCollisionsLogOn
  rw [hrange, List.foldl_cons, List.foldl_cons, List.foldl_nil]
  simp only [List.getElem?_cons_zero]
  rw [inner_firstOn o a b hov _ (hrefs a) (hcnt a 1) [], if_pos h1]
  simp only [List.getElem?_cons_succ, List.getElem?_cons_zero, List.nil_append]
  rw [inner_secondOn o _ _ _ (hrefs _) (hcnt _ 0)]
  rfl

/-- Over the exact arithmetic `checkCollisionsLogOn` is `checkCollisionsLog`. -/
theorem checkCollisionsLogOn_exact {F : Type} [LinearOrderedField F] [FloorRing F]
    (sqrt : F → F) (circles : List (Circle F)) (g : Grid F) :
    checkCollisionsLogOn (Arith.exact sqrt) circles g = checkCollisionsLog sqrt circles g := by
  have hstep : checkCollisionsStepOn (Arith.exact sqrt) = checkCollisionsStep sqrt := by
    funext i st other
    unfold checkCollisionsStepOn checkCollisionsStep
    simp only [resolveCollisionOn_exact, checkCollisionWithOn_exact]
  unfold checkCollisionsLogOn checkCollisionsLog
  simp only [hstep, getPotentialCollisionsOn_exact]

/-- In `float` arithmetic the grid of `main` has one cell per index. -/
theorem mainGridQ_wf : (Grid.newOn Arith.ieee 800 800 100).WF := by
  obtain ⟨dc, dr, -⟩ := mainGridQ_dims
  apply newOn_wf <;> rw [dc, dr] <;> norm_num

/-- In `float` arithmetic, in the grid of `main` filled with two circles whose
computed cells are both `(1, 4)`: both cells lie within the grid, no query
returns anything but the references 0 and 1, none twice, and the query for a
circle whose computed cell is `(1, 4)` returns both. -/
theorem mainGridQ_pair (a b : Circle ℚ)
    (ha : (Grid.newOn Arith.ieee 800 800 100).cellIndexOn Arith.ieee a = (1, 4))
    (hb : (Grid.newOn Arith.ieee 800 800 100).cellIndexOn Arith.ieee b = (1, 4)) :
    ((Grid.newOn Arith.ieee 800 800 100).inGrid
        ((Grid.newOn Arith.ieee 800 800 100).cellIndexOn Arith.ieee a) = true ∧
      (Grid.newOn Arith.ieee 800 800 100).inGrid
        ((Grid.newOn Arith.ieee 800 800 100).cellIndexOn Arith.ieee b) = true) ∧
    (∀ q : Circle ℚ, ∀ r ∈ ((Grid.newOn Arith.ieee 800 800 100).clear.addAllOn Arith.ieee
      [a, b]).getPotentialCollisionsOn Arith.ieee q, r < 2) ∧
    (∀ (q : Circle ℚ) (x : Nat), (((Grid.newOn Arith.ieee 800 800 100).clear.addAllOn Arith.ieee
      [a, b]).getPotentialCollisionsOn Arith.ieee q).count x ≤ 1) ∧
    (∀ q : Circle ℚ, (Grid.newOn Arith.ieee 800 800 100).cellIndexOn Arith.ieee q = (1, 4) →
      0 ∈ ((Grid.newOn Arith.ieee 800 800 100).clear.addAllOn Arith.ieee
        [a, b]).getPotentialCollisionsOn Arith.ieee q ∧
      1 ∈ ((Grid.newOn Arith.ieee 800 800 100).clear.addAllOn Arith.ieee
        [a, b]).getPotentialCollisionsOn Arith.ieee q) := by
  obtain ⟨dc, dr, -⟩ := mainGridQ_dims
  have hin : (Grid.newOn Arith.ieee 800 800 100).inGrid (1, 4) = true := by
    simp only [Grid.inGrid, dc, dr]
    decide
  have hA : (Grid.newOn Arith.ieee 800 800 100).inGrid
      ((Grid.newOn Arith.ieee 800 800 100).cellIndexOn Arith.ieee a) = true := by
    rw [ha]
    exact hin
  have hB : (Grid.newOn Arith.ieee 800 800 100).inGrid
      ((Grid.newOn Arith.ieee 800 800 100).cellIndexOn Arith.ieee b) = true := by
    rw [hb]
    exact hin
  refine ⟨⟨hA, hB⟩, ?_, ?_, ?_⟩
  · intro q r hr
    obtain ⟨cell, hcell, hrc⟩ := queryOn_subset_cells Arith.ieee _ q r hr
    exact refs_after_fillOn Arith.ieee _ mainGridQ_wf [a, b] cell hcell r hrc
  · intro q x
    exact query_count_after_fillOn Arith.ieee _ mainGridQ_wf [a, b] q x
  · intro q hq
    constructor
    · exact query_after_fillOn Arith.ieee _ mainGridQ_wf [a, b] 0 a q rfl hA
        (by rw [ha, hq]; decide) (by rw [ha, hq]; decide)
    · exact query_after_fillOn Arith.ieee _ mainGridQ_wf [a, b] 1 b q rfl hB
        (by rw [hb, hq]; decide) (by rw [hb, hq]; decide)

/-- C16 (as stated, refuted): in `float` arithmetic the specification's pair,
radius 50 at `(100, 400)` and `(180, 400)`, has distinct centres 80 apart, is
reported as colliding, both bodies are stored in the grid of `main` and each is
returned by the query for the other; yet the pass calls `resolveCollision`
only once, with the first body as `*this`.  That call moves the centres to
`(90, 400)` and `(190, 400)`, every intermediate value being a `float`; the
stored distance of the moved bodies is exactly 100 and the strict test fails,
so no call with the second body as `*this` is made. -/
theorem pair_resolved_once_in_float :
    (leftBodyQ.position ≠ rightBodyQ.position ∧
      (leftBodyQ.position.x - rightBodyQ.position.x) ^ 2 +
          (leftBodyQ.position.y - rightBodyQ.position.y) ^ 2 <
        (leftBodyQ.radius + rightBodyQ.radius) ^ 2 ∧
      leftBodyQ.checkCollisionWithOn Arith.ieee rightBodyQ = true ∧
      (Grid.newOn Arith.ieee 800 800 100).inGrid
        ((Grid.newOn Arith.ieee 800 800 100).cellIndexOn Arith.ieee leftBodyQ) = true ∧
      (Grid.newOn Arith.ieee 800 800 100).inGrid
        ((Grid.newOn Arith.ieee 800 800 100).cellIndexOn Arith.ieee rightBodyQ) = true ∧
      1 ∈ ((Grid.newOn Arith.ieee 800 800 100).clear.addAllOn Arith.ieee
        [leftBodyQ, rightBodyQ]).getPotentialCollisionsOn Arith.ieee leftBodyQ ∧
      0 ∈ ((Grid.newOn Arith.ieee 800 800 100).clear.addAllOn Arith.ieee
        [leftBodyQ, rightBodyQ]).getPotentialCollisionsOn Arith.ieee rightBodyQ) ∧
    (checkCollisionsLogOn Arith.ieee [leftBodyQ, rightBodyQ]
      ((Grid.newOn Arith.ieee 800 800 100).clear.addAllOn Arith.ieee
        [leftBodyQ, rightBodyQ])).2 = [(0, 1)] ∧
    (1, 0) ∉ (checkCollisionsLogOn Arith.ieee [leftBodyQ, rightBodyQ]
      ((Grid.newOn Arith.ieee 800 800 100).clear.addAllOn Arith.ieee
        [leftBodyQ, rightBodyQ])).2 := by
  obtain ⟨-, -, ds⟩ := mainGridQ_dims
  have ca := cell_ieee_leftBodyQ _ ds
  have cb := cell_ieee_rightBodyQ _ ds
  obtain ⟨⟨hA, hB⟩, hrefs, hcnt, hq⟩ := mainGridQ_pair leftBodyQ rightBodyQ ca cb
  have hlog := pair_passOn Arith.ieee _ leftBodyQ rightBodyQ check_ieee_pair hrefs hcnt
    (hq leftBodyQ ca).2
  rw [resolveOn_ieee_pair] at hlog
  simp only [check_ieee_moved, Bool.false_eq_true, and_false, if_false] at hlog
  have fl : leftBodyQ.position.x = 100 ∧ leftBodyQ.position.y = 400 ∧ leftBodyQ.radius = 50 :=
    ⟨rfl, rfl, rfl⟩
  have fr : rightBodyQ.position.x = 180 ∧ rightBodyQ.position.y = 400 ∧
      rightBodyQ.radius = 50 := ⟨rfl, rfl, rfl⟩
  refine ⟨⟨?_, ?_, check_ieee_pair, hA, hB, (hq leftBodyQ ca).2, (hq rightBodyQ cb).1⟩, ?_, ?_⟩
  · intro h
    have hx := congrArg Vector2.x h
    rw [fl.1, fr.1] at hx
    norm_num at hx
  · rw [fl.1, fl.2.1, fl.2.2, fr.1, fr.2.1, fr.2.2]
    norm_num
  · rw [hlog]
  · rw [hlog]
    decide

/-- C16 (amended): in every arithmetic, `float` included, in one pass of
`checkCollisions` over two circles that the overlap test reports as
colliding, both stored in the grid (filled by `clear()` and `addCircle` from
their positions) and each returned by the query for the other:
`resolveCollision` is called once or twice.  The first call has the first
circle as `*this` and the second as argument.  A second call, with the second
circle as `*this` and the first as argument, is made exactly when, after the
first call, the query for the moved second circle still returns the first and
the overlap test still reports the two moved circles as colliding; no other
call is made.  In exact arithmetic (where `checkCollisionsLogOn` is
`checkCollisionsLog`) and for distinct centres the first call leaves the
circles exactly touching, so `resolveCollision` is called exactly once. -/
theorem pair_resolved_once_or_twice {G D : Type} (o : Arith G D) (g : Grid G) (hwf : g.WF)
    (a b : Circle G) (hov : a.checkCollisionWithOn o b = true)
    (_hA : g.inGrid (g.cellIndexOn o a) = true) (_hB : g.inGrid (g.cellIndexOn o b) = true)
    (h1 : 1 ∈ (g.clear.addAllOn o [a, b]).getPotentialCollisionsOn o a)
    (_h0 : 0 ∈ (g.clear.addAllOn o [a, b]).getPotentialCollisionsOn o b)
    {F : Type} [LinearOrderedField F] [FloorRing F] (sqrt : F → F) (hs : IsSqrt sqrt)
    (gx : Grid F) (hwfx : gx.WF) (x y : Circle F) :
    ((checkCollisionsLogOn o [a, b] (g.clear.addAllOn o [a, b])).2 = [(0, 1)] ∨
      (checkCollisionsLogOn o [a, b] (g.clear.addAllOn o [a, b])).2 = [(0, 1), (1, 0)]) ∧
    ((checkCollisionsLogOn o [a, b] (g.clear.addAllOn o [a, b])).2 = [(0, 1), (1, 0)] ↔
      (0 ∈ (g.clear.addAllOn o [a, b]).getPotentialCollisionsOn o (a.resolveCollisionOn o b).2 ∧
        (a.resolveCollisionOn o b).2.checkCollisionWithOn o (a.resolveCollisionOn o b).1 =
          true)) ∧
    ((checkCollisionsLogOn o [a, b] (g.clear.addAllOn o [a, b])).2 = [(0, 1)] →
      (checkCollisionsLogOn o [a, b] (g.clear.addAllOn o [a, b])).1 =
        [(a.resolveCollisionOn o b).1, (a.resolveCollisionOn o b).2]) ∧
    ((checkCollisionsLogOn o [a, b] (g.clear.addAllOn o [a, b])).2 = [(0, 1), (1, 0)] →
      (checkCollisionsLogOn o [a, b] (g.clear.addAllOn o [a, b])).1 =
        [((a.resolveCollisionOn o b).2.resolveCollisionOn o (a.resolveCollisionOn o b).1).2,
          ((a.resolveCollisionOn o b).2.resolveCollisionOn o (a.resolveCollisionOn o b).1).1]) ∧
    checkCollisionsLogOn (Arith.exact sqrt) [x, y]
        (gx.clear.addAllOn (Arith.exact sqrt) [x, y]) =
      checkCollisionsLog sqrt [x, y] (gx.clear.addAll [x, y]) ∧
    (x.position ≠ y.position → x.checkCollisionWith sqrt y = true →
      1 ∈ (gx.clear.addAll [x, y]).getPotentialCollisions x →
        (checkCollisionsLog sqrt [x, y] (gx.clear.addAll [x, y])).2 = [(0, 1)] ∧
        checkCollisions sqrt [x, y] (gx.clear.addAll [x, y]) =
          [(x.resolveCollision sqrt y).1, (x.resolveCollision sqrt y).2] ∧
        (x.resolveCollision sqrt y).2.checkCollisionWith sqrt (x.resolveCollision sqrt y).1 =
          false) := by
  have hrefs : ∀ q : Circle G,
      ∀ r ∈ (g.clear.addAllOn o [a, b]).getPotentialCollisionsOn o q, r < 2 := by
    intro q r hr
    obtain ⟨cell, hcell, hrc⟩ := queryOn_subset_cells o _ q r hr
    exact refs_after_fillOn o g hwf [a, b] cell hcell r hrc
  have hlog := pair_passOn o (g.clear.addAllOn o [a, b]) a b hov hrefs
    (fun q x => query_count_after_fillOn o g hwf [a, b] q x) h1
  refine ⟨?_, ?_, ?_, ?_, ?_, ?_⟩
  · rw [hlog]
    split_ifs
    · exact Or.inr rfl
    · exact Or.inl rfl
  · rw [hlog]
    split_ifs with hc
    · exact ⟨fun _ => hc, fun _ => rfl⟩
    · constructor
      · intro h
        simp at h
      · intro h
        exact absurd h hc
  · rw [hlog]
    split_ifs
    · intro h
      simp at h
    · intro _
      rfl
  · rw [hlog]
    split_ifs
    · intro _
      rfl
    · intro h
      simp at h
  · rw [checkCollisionsLogOn_exact]
    rfl
  · intro hne hovx h1x
    have hx := pair_pass sqrt hs (gx.clear.addAll [x, y]) x y hne hovx
      (refs_after_fill gx hwfx [x, y]) h1x
    refine ⟨?_, ?_, (resolveCollision_then_apart sqrt hs x y hne hovx).2⟩
    · rw [hx]
    · unfold checkCollisions
      rw [hx]

/-- C16 (amended) at concrete bodies in the grid of `main`.  In `float`
arithmetic the specification's pair, radius 50 at `(100, 400)` and
`(180, 400)`, is resolved once: the moved centres are exactly 100 apart.  In
`float` arithmetic the bodies of radius 40 at `(100, 400)` and `(107, 424)` are
resolved twice: after the first call the stored distance of the moved centres
is `79.99998474121094`, below 80.  Over the reals the bodies of radius 50 at
`(100, 400)` and `(60, 370)` are resolved once. -/
theorem pair_resolved_once_or_twice_scenario :
    (checkCollisionsLogOn Arith.ieee [leftBodyQ, rightBodyQ]
      ((Grid.newOn Arith.ieee 800 800 100).clear.addAllOn Arith.ieee
        [leftBodyQ, rightBodyQ])).2 = [(0, 1)] ∧
    (checkCollisionsLogOn Arith.ieee [skewLeft, skewRight]
      ((Grid.newOn Arith.ieee 800 800 100).clear.addAllOn Arith.ieee
        [skewLeft, skewRight])).2 = [(0, 1), (1, 0)] ∧
    (checkCollisionsLog Real.sqrt [leftBody, nearBody]
      ((Grid.new (800 : ℝ) 800 100).clear.addAll [leftBody, nearBody])).2 = [(0, 1)] := by
  obtain ⟨-, -, ds⟩ := mainGridQ_dims
  obtain ⟨cl, -, cn, hin4, hin3⟩ := mainGrid_cells
  have hovx : leftBody.checkCollisionWith Real.sqrt nearBody = true := by
    have he : Real.sqrt ((100 - 60) ^ 2 + (400 - 370) ^ 2) = 50 :=
      isSqrt_real.eq_of_mul_self (by norm_num) (by norm_num)
    simp only [Circle.checkCollisionWith, leftBody, nearBody, he]
    norm_num
  have hBx : (Grid.new (800 : ℝ) 800 100).inGrid
      ((Grid.new (800 : ℝ) 800 100).cellIndex nearBody) = true := by
    rw [cn]
    exact hin3
  have h1x : 1 ∈ ((Grid.new (800 : ℝ) 800 100).clear.addAll
      [leftBody, nearBody]).getPotentialCollisions leftBody :=
    query_after_fill (Grid.new (800 : ℝ) 800 100) new_wf_main [leftBody, nearBody] 0 1
      (by simp) (by simp) hBx
      (by simp only [List.getElem_cons_succ, List.getElem_cons_zero, cl, cn]; decide)
      (by simp only [List.getElem_cons_succ, List.getElem_cons_zero, cl, cn]; decide)
  have ca := cell_ieee_leftBodyQ _ ds
  have cb := cell_ieee_rightBodyQ _ ds
  have sa := cell_ieee_skewLeft _ ds
  have sb := cell_ieee_skewRight _ ds
  obtain ⟨⟨hA, hB⟩, -, -, hq⟩ := mainGridQ_pair leftBodyQ rightBodyQ ca cb
  obtain ⟨⟨kA, kB⟩, -, -, kq⟩ := mainGridQ_pair skewLeft skewRight sa sb
  have hspec := pair_resolved_once_or_twice Arith.ieee (Grid.newOn Arith.ieee 800 800 100)
    mainGridQ_wf leftBodyQ rightBodyQ check_ieee_pair hA hB (hq leftBodyQ ca).2
    (hq rightBodyQ cb).1 Real.sqrt isSqrt_real (Grid.new (800 : ℝ) 800 100) new_wf_main
    leftBody nearBody
  have hskew := pair_resolved_once_or_twice Arith.ieee (Grid.newOn Arith.ieee 800 800 100)
    mainGridQ_wf skewLeft skewRight check_ieee_skew kA kB (kq skewLeft sa).2
    (kq skewRight sb).1 Real.sqrt isSqrt_real (Grid.new (800 : ℝ) 800 100) new_wf_main
    leftBody nearBody
  refine ⟨?_, ?_, ?_⟩
  · rcases hspec.1 with h | h
    · exact h
    · have hc := (hspec.2.1.mp h).2
      rw [resolveOn_ieee_pair] at hc
      exact absurd (check_ieee_moved.symm.trans hc) (by decide)
  · apply hskew.2.1.mpr
    rw [resolveOn_ieee_skew]
    exact ⟨(kq skewRightMoved (cell_ieee_skewRightMoved _ ds)).1, check_ieee_skewMoved⟩
  · exact (hspec.2.2.2.2.2 (by norm_num [leftBody, nearBody]) hovx h1x).1

end MachinePass

end CirclesCollision
